import Mathlib

/-!
# VIA Unichrome PCI DMA blit support (`src/dev/drm/via_dmablit.c`)

A shallow embedding of the descriptor-chain builder, the request validation and
the handle bookkeeping of the VIA DMA blit driver, with theorems about them.

Conventions of the embedding:

* `uint32_t` values are natural numbers below `2 ^ 32`; every C operation on
  them that can wrap is written with an explicit `% 2 ^ 32`.
* User addresses (`unsigned char *`) are natural numbers; pointer arithmetic is
  carried out without wraparound (the pointers are 64 bit wide on the platform,
  the offsets added to them are below `2 ^ 33`).
* Calls into the rest of the kernel (`malloc`, `vm_fault_quick_hold_pages`,
  `vtophys`, `VM_PAGE_TO_PHYS`) are parameters of the embedded functions.
-/

namespace ViaDmablit

/-! ## Machine arithmetic -/

/-- Number of values of a `uint32_t`. -/
def U32 : Nat := 2 ^ 32

/-- Subtraction of two `uint32_t` values as C performs it (result modulo `2 ^ 32`). -/
def sub32 (a b : Nat) : Nat := (a + (U32 - b % U32)) % U32

/-- Addition of two `uint32_t` values as C performs it. -/
def add32 (a b : Nat) : Nat := (a + b) % U32

/-- Multiplication of two `uint32_t` values as C performs it. -/
def mul32 (a b : Nat) : Nat := (a * b) % U32

/-! ## Constants of headers that are not part of the sources -/

/-- Modelled from the spec: `VIA_NUM_BLIT_SLOTS` of `via_dmablit.h` (the fixed
capacity of an engine queue's slot ring); the header is not under `src/`. -/
def VIA_NUM_BLIT_SLOTS : Nat := 8

/-! ## Pages (`machine/param.h`) and the page macros of lines 44-46 -/

/-- Modelled from the spec: `PAGE_SHIFT` of the platform header `machine/param.h`
(the spec's "physical page granule"); the value is that of the x86 platforms the
driver is built for, 4096-byte pages. -/
def PAGE_SHIFT : Nat := 12

/-- Modelled from the spec: `PAGE_SIZE` of `machine/param.h`, `1 << PAGE_SHIFT`. -/
def PAGE_SIZE : Nat := 1 <<< PAGE_SHIFT

/-- Modelled from the spec: `PAGE_MASK` of `machine/param.h`, `PAGE_SIZE - 1`
(the BSD convention: the mask selects the offset within a page). -/
def PAGE_MASK : Nat := PAGE_SIZE - 1

/-- `VIA_PGDN(x)`, `x & ~PAGE_MASK`: clearing the offset bits of `x` is the
subtraction of these bits. -/
def VIA_PGDN (x : Nat) : Nat := x - (x &&& PAGE_MASK)

/-- `VIA_PGOFF(x)`, `x & PAGE_MASK`. -/
def VIA_PGOFF (x : Nat) : Nat := x &&& PAGE_MASK

/-- `VIA_PFN(x)`, `x >> PAGE_SHIFT`. -/
def VIA_PFN (x : Nat) : Nat := x >>> PAGE_SHIFT

/-- Modelled from the spec: `VIA_DMA_DPR_EC` of `via_dmablit.h`, the
end-of-chain marker `1 << 1` of a descriptor's `next` field; the header is not
under `src/`. -/
def VIA_DMA_DPR_EC : Nat := 1 <<< 1

/-! ## Requests, descriptors and the scatter-gather info -/

/-- The request `drm_via_dmablit_t` (`via_drm.h`). All fields but `mem_addr`
(a user pointer) and `to_fb` (an `int`) are `uint32_t`; the `sync` member is
written only by `via_dmablit`. -/
structure drm_via_dmablit_t where
  num_lines : Nat
  line_length : Nat
  fb_addr : Nat
  fb_stride : Nat
  mem_addr : Nat
  mem_stride : Nat
  flags : Nat
  to_fb : Nat
deriving DecidableEq, Repr

/-- The `uint32_t` fields of a request hold 32-bit values. -/
def drm_via_dmablit_t.wf (xfer : drm_via_dmablit_t) : Prop :=
  xfer.num_lines < 2 ^ 32 ∧ xfer.line_length < 2 ^ 32 ∧ xfer.fb_addr < 2 ^ 32 ∧
    xfer.fb_stride < 2 ^ 32 ∧ xfer.mem_stride < 2 ^ 32 ∧ xfer.flags < 2 ^ 32

instance (xfer : drm_via_dmablit_t) : Decidable xfer.wf := by
  unfold drm_via_dmablit_t.wf; infer_instance

/-- The hardware descriptor `drm_via_descriptor_t` (lines 48-53), four
`uint32_t`, 16 bytes. -/
structure drm_via_descriptor_t where
  mem_addr : Nat
  dev_addr : Nat
  size : Nat
  next : Nat
deriving DecidableEq, Repr

/-- `sizeof(drm_via_descriptor_t)`. -/
def sizeof_descriptor : Nat := 16

/-- One store of a descriptor by the populate pass (lines 123-130): the chunk
`vsg->desc_pages[desc_page]` and the position `desc_index` in it that `desc_ptr`
points to, the index `page_index` at which `vsg->pages` is read, and the four
fields written. -/
structure via_desc_write where
  desc_page : Nat
  desc_index : Nat
  page_index : Nat
  desc : drm_via_descriptor_t
deriving DecidableEq, Repr

/-- The lifecycle states of `drm_via_sg_info_t` (`via_dmablit.h`). -/
inductive via_sg_state where
  | dr_via_device_mapped
  | dr_via_desc_pages_alloc
  | dr_via_pages_locked
  | dr_via_pages_alloc
  | dr_via_sg_init
deriving DecidableEq, Repr

/-- The scatter-gather info `drm_via_sg_info_t` (`via_dmablit.h`). The memory
behind `desc_pages` is represented by `descriptors`, the descriptor stores made
into it, most recent first (which is the order in which the hardware follows the
chain). The pointer fields are represented by what the code asks of them:
`pages` and `bounce_buffer` say whether the pointer is non-null, `desc_pages` is
`none` for a null pointer and otherwise lists, for every entry of the chunk
array, whether that entry is non-null. -/
structure drm_via_sg_info_t where
  pages : Bool
  num_pages : Nat
  desc_pages : Option (List Bool)
  num_desc_pages : Nat
  num_desc : Nat
  bounce_buffer : Bool
  chain_start : Nat
  free_on_sequence : Nat
  descriptors_per_page : Nat
  aborted : Bool
  state : via_sg_state
  descriptors : List via_desc_write
deriving DecidableEq, Repr

/-- The physical addresses that the kernel reports to the builder:
`page_phys i` is `VM_PAGE_TO_PHYS(vsg->pages[i])` and `chunk_phys c` is
`vtophys(vsg->desc_pages[c])`; a descriptor chunk is one page, so the descriptor
at position `i` of chunk `c` has physical address
`chunk_phys c + i * sizeof(drm_via_descriptor_t)`. -/
structure via_phys where
  page_phys : Nat → Nat
  chunk_phys : Nat → Nat

/-- `vtophys(desc_ptr)` for `desc_ptr = vsg->desc_pages[c] + i`. -/
def via_phys.vtophys (phys : via_phys) (c i : Nat) : Nat :=
  phys.chunk_phys c + i * sizeof_descriptor

/-! ## `via_map_blit_for_device` (lines 89-155) -/

/-- The local variables of `via_map_blit_for_device` that live across the loop
iterations, with the descriptor stores made so far (most recent first). -/
structure via_map_state where
  cur_descriptor_page : Nat
  num_descriptors_this_page : Nat
  num_desc : Nat
  next : Nat
  descriptors : List via_desc_write
deriving DecidableEq, Repr

/-- The body of the `if (mode == 1)` block at lines 122-139 for one segment. -/
def via_map_store (phys : via_phys) (descriptors_per_page first_addr cur_mem cur_fb
    remaining_len : Nat) (st : via_map_state) : via_map_state :=
  let page_index := VIA_PFN cur_mem - VIA_PFN first_addr
  let w : via_desc_write :=
    { desc_page := st.cur_descriptor_page
      desc_index := st.num_descriptors_this_page
      page_index := page_index
      desc :=
        { mem_addr := (phys.page_phys page_index + VIA_PGOFF cur_mem) % U32
          dev_addr := cur_fb
          size := remaining_len
          next := st.next % U32 } }
  let next := phys.vtophys st.cur_descriptor_page st.num_descriptors_this_page
  let this_page := st.num_descriptors_this_page + 1
  if this_page ≥ descriptors_per_page then
    { st with
        descriptors := w :: st.descriptors
        next := next
        num_descriptors_this_page := 0
        cur_descriptor_page := st.cur_descriptor_page + 1 }
  else
    { st with
        descriptors := w :: st.descriptors
        next := next
        num_descriptors_this_page := this_page }

/-- The inner loop `while (line_len > 0)` of lines 116-144, run for at most
`fuel` iterations; `none` when the fuel is used up before `line_len` reaches 0. -/
def via_map_line (phys : via_phys) (descriptors_per_page : Nat) (mode : Nat) (first_addr : Nat) :
    Nat → Nat → Nat → Nat → via_map_state → Option via_map_state
  | 0, line_len, _, _, st => if line_len > 0 then none else some st
  | fuel + 1, line_len, cur_mem, cur_fb, st =>
    if line_len > 0 then
      let remaining_len := min (PAGE_SIZE - VIA_PGOFF cur_mem) line_len
      let line_len := line_len - remaining_len
      let st :=
        if mode = 1 then
          via_map_store phys descriptors_per_page first_addr cur_mem cur_fb remaining_len st
        else st
      via_map_line phys descriptors_per_page mode first_addr fuel line_len
        (cur_mem + remaining_len) (add32 cur_fb remaining_len)
        { st with num_desc := st.num_desc + 1 }
    else some st

/-- The outer loop over the scan lines (lines 110-148), by recursion on the
number of lines that remain. Every line gets `line_length` iterations of fuel
(each iteration consumes at least one byte of the line). -/
def via_map_lines (phys : via_phys) (descriptors_per_page : Nat) (mode : Nat) (first_addr : Nat)
    (xfer : drm_via_dmablit_t) : Nat → Nat → Nat → via_map_state → Option via_map_state
  | 0, _, _, st => some st
  | lines + 1, mem_addr, fb_addr, st =>
    match via_map_line phys descriptors_per_page mode first_addr xfer.line_length
        xfer.line_length mem_addr fb_addr st with
    | none => none
    | some st =>
      via_map_lines phys descriptors_per_page mode first_addr xfer lines
        (mem_addr + xfer.mem_stride) (add32 fb_addr xfer.fb_stride) st

/-- `via_map_blit_for_device(xfer, vsg, mode)`: `mode = 0` counts the
descriptors, `mode = 1` also stores them and sets `chain_start` and the state. -/
def via_map_blit_for_device (phys : via_phys) (xfer : drm_via_dmablit_t)
    (vsg : drm_via_sg_info_t) (mode : Nat) : Option drm_via_sg_info_t :=
  let st0 : via_map_state :=
    { cur_descriptor_page := 0
      num_descriptors_this_page := 0
      num_desc := 0
      next := 0 ||| VIA_DMA_DPR_EC
      descriptors := vsg.descriptors }
  match via_map_lines phys vsg.descriptors_per_page mode (VIA_PGDN xfer.mem_addr) xfer
      xfer.num_lines xfer.mem_addr xfer.fb_addr st0 with
  | none => none
  | some st =>
    if mode = 1 then
      some { vsg with
        descriptors := st.descriptors
        chain_start := st.next
        state := via_sg_state.dr_via_device_mapped
        num_desc := st.num_desc }
    else
      some { vsg with num_desc := st.num_desc }

/-! ## Validation (`via_build_sg_info`, lines 572-639) -/

/-- `abs(x)` of `stdlib.h` applied to a `uint32_t`: the argument is converted to
`int` (two's complement), the result is converted back to unsigned by the
comparison with a `uint32_t`. For the bit pattern of `INT_MIN` the result is that
same bit pattern, the magnitude `2 ^ 31`. -/
def abs32 (x : Nat) : Nat := if x < 2 ^ 31 then x else (U32 - x) % U32

/-- Condition of the check at line 572 ("Zero size bitblt."); the fields are
unsigned. -/
def via_zero_size (xfer : drm_via_dmablit_t) : Prop :=
  xfer.num_lines ≤ 0 ∨ xfer.line_length ≤ 0

/-- Condition of the check at line 583 ("Too large system memory stride."); the
difference is a `uint32_t` difference. -/
def via_stride_gap_too_large (xfer : drm_via_dmablit_t) : Prop :=
  sub32 xfer.mem_stride xfer.line_length > 2 * PAGE_SIZE

/-- The single-line collapse of lines 589-595; `mem_stride *= num_lines` is a
`uint32_t` multiplication. -/
def via_collapse (xfer : drm_via_dmablit_t) : drm_via_dmablit_t :=
  if xfer.mem_stride = xfer.line_length ∧ xfer.fb_stride = xfer.line_length then
    let mem_stride := mul32 xfer.mem_stride xfer.num_lines
    { xfer with
        mem_stride := mem_stride
        line_length := mem_stride
        fb_stride := mem_stride
        num_lines := 1 }
  else xfer

/-- Condition of the check at lines 601-602 ("Too large PCI DMA bitblt."); the
product is a `uint32_t` product. -/
def via_too_large (xfer : drm_via_dmablit_t) : Prop :=
  xfer.num_lines > 2048 ∨ mul32 xfer.num_lines xfer.mem_stride > 2048 * 2048 * 4

/-- Condition of the check at lines 611-612 ("Invalid frame-buffer / memory
stride."). -/
def via_bad_stride (xfer : drm_via_dmablit_t) : Prop :=
  xfer.mem_stride < xfer.line_length ∨ abs32 xfer.fb_stride < xfer.line_length

/-- Condition of the check at lines 632-635 ("Invalid DRM bitblt alignment."),
the branch compiled when `VIA_BUGFREE` is not defined (nothing defines it). -/
def via_bad_alignment (xfer : drm_via_dmablit_t) : Prop :=
  ((xfer.mem_addr &&& 15) ≠ 0 ∨ (xfer.fb_addr &&& 3) ≠ 0) ∨
    (xfer.num_lines > 1 ∧ ((xfer.mem_stride &&& 15) ≠ 0 ∨ (xfer.fb_stride &&& 3) ≠ 0))

instance (xfer : drm_via_dmablit_t) : Decidable (via_zero_size xfer) := by
  unfold via_zero_size; infer_instance

instance (xfer : drm_via_dmablit_t) : Decidable (via_stride_gap_too_large xfer) := by
  unfold via_stride_gap_too_large; infer_instance

instance (xfer : drm_via_dmablit_t) : Decidable (via_too_large xfer) := by
  unfold via_too_large; infer_instance

instance (xfer : drm_via_dmablit_t) : Decidable (via_bad_stride xfer) := by
  unfold via_bad_stride; infer_instance

instance (xfer : drm_via_dmablit_t) : Decidable (via_bad_alignment xfer) := by
  unfold via_bad_alignment; infer_instance

/-- `EINVAL` of `errno.h`. -/
def EINVAL : Int := 22

/-- `ENOMEM` of `errno.h`. -/
def ENOMEM : Int := 12

/-- `EACCES` of `errno.h`. -/
def EACCES : Int := 13

/-- The validation part of `via_build_sg_info` (lines 572-639): the checks in the
order of the source, with the in-place collapse between the second and the third
check. Returns the value returned at a failing check (`0` when all checks pass)
and the request as the function leaves it. -/
def via_build_sg_info_validate (xfer : drm_via_dmablit_t) : Int × drm_via_dmablit_t :=
  if via_zero_size xfer then (-EINVAL, xfer)
  else if via_stride_gap_too_large xfer then (-EINVAL, xfer)
  else
    let xfer := via_collapse xfer
    if via_too_large xfer then (-EINVAL, xfer)
    else if via_bad_stride xfer then (-EINVAL, xfer)
    else if via_bad_alignment xfer then (-EINVAL, xfer)
    else (0, xfer)

/-! ## Resources, page locking, descriptor storage, teardown -/

/-- The resources a scatter-gather info can own. -/
inductive via_resource where
  | pages_array
  | pinned_page (i : Nat)
  | desc_pages_array
  | desc_page (i : Nat)
  | bounce_buffer
deriving DecidableEq, Repr

/-- Acquisition (`malloc`, holding and wiring a page) and release (`free`,
`vm_page_unwire`) of a resource. -/
inductive via_event where
  | acquire (r : via_resource)
  | release (r : via_resource)
deriving DecidableEq, Repr

/-- The outcomes of the kernel calls made while a blit is built:
whether `malloc` of the page array, `vm_fault_quick_hold_pages`, `malloc` of the
chunk array and `malloc` of the chunk with a given index succeed, and the
physical addresses the kernel reports. -/
structure via_kernel where
  pages_malloc : Bool
  hold_pages : Bool
  desc_pages_malloc : Bool
  desc_page_malloc : Nat → Bool
  phys : via_phys

/-- `via_lock_all_dma_pages(vsg, xfer)` (lines 221-258). The offset
`num_lines * mem_stride - 1` is computed in `uint32_t` arithmetic and added to
the pointer. Returns the return value, the info and the acquisitions. -/
def via_lock_all_dma_pages (k : via_kernel) (vsg : drm_via_sg_info_t) (xfer : drm_via_dmablit_t) :
    Int × drm_via_sg_info_t × List via_event :=
  let first_pfn := VIA_PFN xfer.mem_addr
  let num_pages :=
    VIA_PFN (xfer.mem_addr + sub32 (mul32 xfer.num_lines xfer.mem_stride) 1) - first_pfn + 1
  let vsg := { vsg with num_pages := num_pages, pages := k.pages_malloc }
  if !k.pages_malloc then (-ENOMEM, vsg, [])
  else
    let vsg := { vsg with state := via_sg_state.dr_via_pages_alloc }
    let ev := [via_event.acquire via_resource.pages_array]
    if !k.hold_pages then (-EACCES, vsg, ev)
    else
      ( 0,
        { vsg with state := via_sg_state.dr_via_pages_locked },
        ev ++ (List.range num_pages).map (fun i => via_event.acquire (via_resource.pinned_page i)) )

/-- The allocation loop of `via_alloc_desc_pages` (lines 280-285) from chunk `i`
on, `n` chunks remaining: the entries of the chunk array written so far
(`chunks`, zero-filled by `M_ZERO`), stopping at the first failing `malloc`.
Returns whether all allocations succeeded, the chunk array and the
acquisitions. -/
def via_alloc_desc_chunks (k : via_kernel) : Nat → Nat → List Bool → Bool × List Bool × List via_event
  | 0, _, chunks => (true, chunks, [])
  | n + 1, i, chunks =>
    if k.desc_page_malloc i then
      let (ok, chunks, ev) := via_alloc_desc_chunks k n (i + 1) (chunks.set i true)
      (ok, chunks, via_event.acquire (via_resource.desc_page i) :: ev)
    else (false, chunks, [])

/-- `via_alloc_desc_pages(vsg)` (lines 266-290). -/
def via_alloc_desc_pages (k : via_kernel) (vsg : drm_via_sg_info_t) :
    Int × drm_via_sg_info_t × List via_event :=
  let descriptors_per_page := PAGE_SIZE / sizeof_descriptor
  let num_desc_pages := (vsg.num_desc + descriptors_per_page - 1) / descriptors_per_page
  let vsg := { vsg with
    descriptors_per_page := descriptors_per_page
    num_desc_pages := num_desc_pages }
  if !k.desc_pages_malloc then (-ENOMEM, { vsg with desc_pages := none }, [])
  else
    let (ok, chunks, ev) :=
      via_alloc_desc_chunks k num_desc_pages 0 (List.replicate num_desc_pages false)
    let vsg := { vsg with
      desc_pages := some chunks
      state := via_sg_state.dr_via_desc_pages_alloc
      descriptors := [] }
    let ev := via_event.acquire via_resource.desc_pages_array :: ev
    if ok then (0, vsg, ev) else (-ENOMEM, vsg, ev)

/-- Position of a lifecycle state in the fall-through order of the `switch` of
`via_free_sg_info`: a state runs its own `case` and all the later ones. -/
def via_sg_state.level : via_sg_state → Nat
  | dr_via_device_mapped => 4
  | dr_via_desc_pages_alloc => 3
  | dr_via_pages_locked => 2
  | dr_via_pages_alloc => 1
  | dr_via_sg_init => 0

/-- `via_free_sg_info(vsg)` (lines 163-193): the releases made, in the order of
the source, and the info afterwards. `via_unmap_blit_from_device`, called in
state `dr_via_device_mapped`, only reads descriptors and changes nothing.
`free(NULL)` releases nothing. -/
def via_free_sg_info (vsg : drm_via_sg_info_t) : drm_via_sg_info_t × List via_event :=
  let level := vsg.state.level
  let desc_releases :=
    if level ≥ 3 then
      (List.range vsg.num_desc_pages).filterMap (fun i =>
        if (vsg.desc_pages.getD []).getD i false then
          some (via_event.release (via_resource.desc_page i))
        else none) ++ [via_event.release via_resource.desc_pages_array]
    else []
  let page_releases :=
    if level ≥ 2 then
      (List.range vsg.num_pages).map (fun i => via_event.release (via_resource.pinned_page i))
    else []
  let array_release :=
    if level ≥ 1 then [via_event.release via_resource.pages_array] else []
  let bounce_release :=
    if vsg.bounce_buffer then [via_event.release via_resource.bounce_buffer] else []
  ( { vsg with
        state := via_sg_state.dr_via_sg_init
        bounce_buffer := false
        free_on_sequence := 0 },
    desc_releases ++ page_releases ++ array_release ++ bounce_release )

/-! ## `via_build_sg_info` (lines 562-656) -/

/-- What `via_build_sg_info` leaves behind: its return value, the info, the
request (which it modifies in place) and the acquisitions and releases made. -/
structure via_build_result where
  ret : Int
  vsg : drm_via_sg_info_t
  xfer : drm_via_dmablit_t
  events : List via_event
deriving DecidableEq, Repr

/-- `via_build_sg_info(dev, vsg, xfer)`. `none` only if a geometry walk runs out
of fuel (it never does, see `via_build_sg_info_returns`). -/
def via_build_sg_info (k : via_kernel) (vsg : drm_via_sg_info_t) (xfer : drm_via_dmablit_t) :
    Option via_build_result :=
  let vsg := { vsg with bounce_buffer := false, state := via_sg_state.dr_via_sg_init }
  let (ret, xfer) := via_build_sg_info_validate xfer
  if ret ≠ 0 then some ⟨ret, vsg, xfer, []⟩
  else
    let (ret, vsg, ev_lock) := via_lock_all_dma_pages k vsg xfer
    if ret ≠ 0 then
      let (vsg, ev_free) := via_free_sg_info vsg
      some ⟨ret, vsg, xfer, ev_lock ++ ev_free⟩
    else
      match via_map_blit_for_device k.phys xfer vsg 0 with
      | none => none
      | some vsg =>
        let (ret, vsg, ev_alloc) := via_alloc_desc_pages k vsg
        if ret ≠ 0 then
          let (vsg, ev_free) := via_free_sg_info vsg
          some ⟨ret, vsg, xfer, ev_lock ++ ev_alloc ++ ev_free⟩
        else
          match via_map_blit_for_device k.phys xfer vsg 1 with
          | none => none
          | some vsg => some ⟨0, vsg, xfer, ev_lock ++ ev_alloc⟩

/-- A kernel in which every allocation and the page pinning succeed; pinned page
`i` lies at physical address `0x100000 + i * PAGE_SIZE`, descriptor chunk `c` at
`0x8000000 + c * PAGE_SIZE`. -/
def via_kernel_ok : via_kernel :=
  { pages_malloc := true
    hold_pages := true
    desc_pages_malloc := true
    desc_page_malloc := fun _ => true
    phys :=
      { page_phys := fun i => 0x100000 + i * PAGE_SIZE
        chunk_phys := fun c => 0x8000000 + c * PAGE_SIZE } }

/-- The zero-filled info that `via_dmablit` allocates (`M_ZERO`, line 726). -/
def via_sg_info_zero : drm_via_sg_info_t :=
  { pages := false
    num_pages := 0
    desc_pages := none
    num_desc_pages := 0
    num_desc := 0
    bounce_buffer := false
    chain_start := 0
    free_on_sequence := 0
    descriptors_per_page := 0
    aborted := false
    state := via_sg_state.dr_via_device_mapped
    descriptors := [] }

/-! ## The engine queue (`drm_via_blitq_t`) -/

/-- What an entry of `blits` points to: the scatter-gather info of a submitted
blit. `handle` is the sync handle that `via_dmablit` handed out for it; the C
structure does not store it, it is kept here for the statements. -/
structure via_blit where
  vsg : drm_via_sg_info_t
  handle : Nat
deriving DecidableEq, Repr

/-- The fields of `drm_via_blitq_t` (`via_dmablit.h`), as they are used by
`via_dmablit.c`. `end_` is the field `end`. `blits i` is `none` when entry `i`
of `blits` does not point to a live info (a null pointer, or a pointer whose
info the reclamation task has taken and freed). `poll_timer_pending` is what
`callout_pending(&blitq->poll_timer)` returns. -/
structure drm_via_blitq_t where
  cur_blit_handle : Nat
  done_blit_handle : Nat
  serviced : Nat
  head : Nat
  cur : Nat
  num_free : Nat
  num_outstanding : Nat
  end_ : Nat
  aborting : Bool
  is_active : Bool
  blits : Nat → Option via_blit
  poll_timer_pending : Bool

/-- The value `active` computed by `via_dmablit_active` (lines 407-408): both
differences are `uint32_t` differences, `1 << 23` is compared unsigned. -/
def via_dmablit_active_flag (blitq : drm_via_blitq_t) (handle : Nat) : Bool :=
  decide (sub32 blitq.done_blit_handle handle > 2 ^ 23) &&
    decide (sub32 blitq.cur_blit_handle handle ≤ 2 ^ 23)

/-- The slot computed at lines 411-414 of `via_dmablit_active`:
`slot = handle - done_blit_handle + cur - 1` in `uint32_t` arithmetic, followed
by one conditional subtraction of `VIA_NUM_BLIT_SLOTS`. -/
def via_dmablit_active_slot (blitq : drm_via_blitq_t) (handle : Nat) : Nat :=
  let slot := sub32 (add32 (sub32 handle blitq.done_blit_handle) (blitq.cur % U32)) 1
  if slot ≥ VIA_NUM_BLIT_SLOTS then sub32 slot VIA_NUM_BLIT_SLOTS else slot

/-- `via_dmablit_active(blitq, engine, handle, queue)`: returns `active` and,
when `queue` is a non-null pointer (`wantQueue`) and the handle is active, the
index of the wait queue stored through `queue`. -/
def via_dmablit_active (blitq : drm_via_blitq_t) (handle : Nat) (wantQueue : Bool) :
    Bool × Option Nat :=
  let active := via_dmablit_active_flag blitq handle
  let queue := if wantQueue && active then some (via_dmablit_active_slot blitq handle) else none
  (active, queue)

/-- The queue fields written by `via_init_dmablit` (lines 539-547) for one
engine; `end` and `blits` are not written there and are zero in the zero-filled
private structure; `callout_init` leaves the poll timer not pending. -/
def via_init_dmablit : drm_via_blitq_t :=
  { cur_blit_handle := 0
    done_blit_handle := 0
    serviced := 0
    head := 0
    cur := 0
    num_free := VIA_NUM_BLIT_SLOTS - 1
    num_outstanding := 0
    end_ := 0
    aborting := false
    is_active := false
    blits := fun _ => none
    poll_timer_pending := false }

/-- The queue update that `via_dmablit` performs under the lock (lines 736-744):
the info is stored at `blits[head]`, `head` advances with wraparound at
`VIA_NUM_BLIT_SLOTS`, `num_outstanding` is incremented and the pre-incremented
`cur_blit_handle` becomes the sync handle. Returns the new queue and the sync
handle. -/
def via_dmablit_submit (blitq : drm_via_blitq_t) (vsg : drm_via_sg_info_t) :
    drm_via_blitq_t × Nat :=
  let head := blitq.head + 1
  let head := if head ≥ VIA_NUM_BLIT_SLOTS then 0 else head
  let handle := add32 blitq.cur_blit_handle 1
  ({ blitq with
      blits := fun i => if i = blitq.head then some ⟨vsg, handle⟩ else blitq.blits i
      head := head
      num_outstanding := blitq.num_outstanding + 1
      cur_blit_handle := handle }, handle)

/-! ## The completion handler (`via_dmablit_handler`, lines 317-390) -/

/-- Modelled from the spec: the two bits of the engine's status register that
the handler tests, `VIA_DMA_CSR_TD` (transfer done) and `VIA_DMA_CSR_DE`
(descriptor enable) of `via_dmablit.h`, which is not under `src/`
(`readStatus() -> {transferDone, descriptorEnabled}`). -/
structure via_csr where
  transfer_done : Bool
  descriptor_enable : Bool
deriving DecidableEq, Repr

/-- Modelled from the spec: `DRM_HZ` of `drmP.h`, the number of clock ticks of
the one time unit (one second) that a transfer is given. -/
def DRM_HZ : Nat := 1000

/-- What the handler does to the engine, the wait queues, the task queue and
the poll timer: `DRM_WAKEUP(&blitq->blit_queue[slot])`, the write that clears
the transfer-done flag, `taskqueue_enqueue` of the reclamation task,
`via_abort_dmablit`, `via_fire_dmablit` with the info of a slot,
`callout_reset`, `callout_stop`, `via_dmablit_engine_off`, and
`DRM_WAKEUP(&blitq->busy_queue)`. -/
inductive via_effect where
  | wakeup_blit_queue (slot : Nat)
  | clear_transfer_done
  | enqueue_workqueue
  | abort
  | fire (blit : Option via_blit)
  | callout_reset
  | callout_stop
  | engine_off
  | wakeup_busy_queue
deriving DecidableEq, Repr

/-- The value of `done_transfer` (lines 331-333). The status register is read
only when `is_active` is set; otherwise `status` keeps its initial value 0, in
which no bit is set. -/
def via_done_transfer (blitq : drm_via_blitq_t) (hw : via_csr) : Bool :=
  let status : via_csr := if blitq.is_active then hw else ⟨false, false⟩
  (blitq.is_active && status.transfer_done) || (blitq.aborting && !status.descriptor_enable)

/-- Lines 335-367 of `via_dmablit_handler`: retiring the current transfer when
it is done, otherwise aborting it when it is active and its deadline has
passed. `blits[cur]->aborted = aborting` writes into the info of slot `cur`. -/
def via_dmablit_handler_done (blitq : drm_via_blitq_t) (hw : via_csr) (ticks : Nat) :
    drm_via_blitq_t × List via_effect :=
  let cur := blitq.cur
  if via_done_transfer blitq hw then
    let blits := fun i =>
      if i = cur then
        (blitq.blits cur).map (fun b => { b with vsg := { b.vsg with aborted := blitq.aborting } })
      else blitq.blits i
    let cur1 := cur + 1
    let cur1 := if cur1 ≥ VIA_NUM_BLIT_SLOTS then 0 else cur1
    ( { blitq with
          blits := blits
          done_blit_handle := add32 blitq.done_blit_handle 1
          cur := cur1
          is_active := false
          aborting := false },
      [via_effect.wakeup_blit_queue cur, via_effect.clear_transfer_done,
        via_effect.enqueue_workqueue] )
  else if blitq.is_active && decide (ticks ≥ blitq.end_) then
    ({ blitq with aborting := true, end_ := ticks + DRM_HZ }, [via_effect.abort])
  else (blitq, [])

/-- Lines 369-387 of `via_dmablit_handler`: when the engine is idle, the next
queued transfer is fired, or the poll timer is stopped and the engine is
switched off. The local `cur` equals `blitq->cur` here. -/
def via_dmablit_handler_dispatch (blitq : drm_via_blitq_t) (ticks : Nat) :
    drm_via_blitq_t × List via_effect :=
  if !blitq.is_active then
    if blitq.num_outstanding ≠ 0 then
      ( { blitq with
            is_active := true
            num_outstanding := blitq.num_outstanding - 1
            end_ := ticks + DRM_HZ
            poll_timer_pending := true },
        via_effect.fire (blitq.blits blitq.cur) ::
          (if !blitq.poll_timer_pending then [via_effect.callout_reset] else []) )
    else
      ( { blitq with poll_timer_pending := false },
        (if blitq.poll_timer_pending then [via_effect.callout_stop] else []) ++
          [via_effect.engine_off] )
  else (blitq, [])

/-- `via_dmablit_handler(dev, engine, from_irq)` for the queue of the engine,
given the status register `hw` and the clock `ticks`: the queue afterwards and
the effects in order. -/
def via_dmablit_handler (blitq : drm_via_blitq_t) (hw : via_csr) (ticks : Nat) :
    drm_via_blitq_t × List via_effect :=
  let r1 := via_dmablit_handler_done blitq hw ticks
  let r2 := via_dmablit_handler_dispatch r1.1 ticks
  (r2.1, r1.2 ++ r2.2)

/-! ## The reclamation task (`via_dmablit_workqueue`, lines 486-523) -/

/-- The releases that `via_free_sg_info(cur_sg)` makes for the info taken from a
slot (nothing is modelled for a pointer that does not refer to a live info). -/
def via_blit_teardown (cur_sg : Option via_blit) : List via_event :=
  match cur_sg with
  | some b => (via_free_sg_info b.vsg).2
  | none => []

/-- One slot drained by the reclamation task: its index, the info found in it
and the releases `via_free_sg_info` makes for that info. -/
structure via_reclaimed where
  slot : Nat
  blit : Option via_blit
  released : List via_event
deriving DecidableEq, Repr

/-- One iteration of the loop of `via_dmablit_workqueue` (lines 502-519):
`serviced` advances with wraparound, the info of the released slot is taken,
`num_free` is incremented, and the info is torn down and freed outside the
lock; its slot does not point to a live info afterwards. -/
def via_dmablit_workqueue_step (blitq : drm_via_blitq_t) : drm_via_blitq_t × via_reclaimed :=
  let cur_released := blitq.serviced
  let serviced := blitq.serviced + 1
  let serviced := if serviced ≥ VIA_NUM_BLIT_SLOTS then 0 else serviced
  let cur_sg := blitq.blits cur_released
  ( { blitq with
        serviced := serviced
        num_free := blitq.num_free + 1
        blits := fun i => if i = cur_released then none else blitq.blits i },
    { slot := cur_released
      blit := cur_sg
      released := via_blit_teardown cur_sg } )

/-- The loop `while (blitq->serviced != blitq->cur)` of `via_dmablit_workqueue`
without concurrent events, run for at most `fuel` iterations; `none` when the
fuel is used up before `serviced` reaches `cur`. -/
def via_dmablit_workqueue_loop : Nat → drm_via_blitq_t →
    Option (drm_via_blitq_t × List via_reclaimed)
  | 0, blitq => if blitq.serviced ≠ blitq.cur then none else some (blitq, [])
  | fuel + 1, blitq =>
    if blitq.serviced ≠ blitq.cur then
      match via_dmablit_workqueue_loop fuel (via_dmablit_workqueue_step blitq).1 with
      | none => none
      | some (q, rs) => some (q, (via_dmablit_workqueue_step blitq).2 :: rs)
    else some (blitq, [])

/-- `via_dmablit_workqueue(arg, pending)` without concurrent events: the queue
afterwards and the slots drained, in order. The ring has `VIA_NUM_BLIT_SLOTS`
slots, which bounds the number of iterations. -/
def via_dmablit_workqueue (blitq : drm_via_blitq_t) :
    Option (drm_via_blitq_t × List via_reclaimed) :=
  via_dmablit_workqueue_loop VIA_NUM_BLIT_SLOTS blitq

/-! ## Slot reservation and submission (lines 663-750) -/

/-- `EINTR` of `errno.h`. -/
def EINTR : Int := 4

/-- `EAGAIN` of `errno.h`. -/
def EAGAIN : Int := 35

/-- `via_dmablit_grab_slot(blitq, engine)` without concurrent events: with a
free slot `num_free` is decremented and 0 is returned; with no free slot the
function waits, and as nothing frees a slot the wait ends with the nonzero value
`wait_ret` that `DRM_WAIT_ON` leaves in `ret` (timeout or signal), which is
returned with `-EINTR` turned into `-EAGAIN`. -/
def via_dmablit_grab_slot (blitq : drm_via_blitq_t) (wait_ret : Int) :
    Int × drm_via_blitq_t :=
  if blitq.num_free = 0 then
    ((if wait_ret = -EINTR then -EAGAIN else wait_ret), blitq)
  else (0, { blitq with num_free := blitq.num_free - 1 })

/-- `via_dmablit_release_slot(blitq)` (lines 693-701). -/
def via_dmablit_release_slot (blitq : drm_via_blitq_t) : drm_via_blitq_t :=
  { blitq with num_free := blitq.num_free + 1 }

/-- What `via_dmablit` leaves behind: its return value, the queue, the request,
the sync handle stored into the request on success, the acquisitions and
releases of the build, and the effects. -/
structure via_dmablit_result where
  ret : Int
  blitq : drm_via_blitq_t
  xfer : drm_via_dmablit_t
  sync_handle : Option Nat
  events : List via_event
  effects : List via_effect

/-- `via_dmablit(dev, xfer)` (lines 707-750) for the queue `blitq` of the engine
that `xfer->to_fb` selects, without concurrent events. `dev_priv` says whether
`dev->dev_private` is non-null, `vsg_malloc` whether the allocation of the info
succeeds; the info is zero-filled (`M_ZERO`). -/
def via_dmablit (k : via_kernel) (dev_priv vsg_malloc : Bool) (wait_ret : Int) (hw : via_csr)
    (ticks : Nat) (blitq : drm_via_blitq_t) (xfer : drm_via_dmablit_t) :
    Option via_dmablit_result :=
  if !dev_priv then some ⟨-EINVAL, blitq, xfer, none, [], []⟩
  else
    let grab := via_dmablit_grab_slot blitq wait_ret
    if grab.1 ≠ 0 then some ⟨grab.1, grab.2, xfer, none, [], []⟩
    else if !vsg_malloc then
      some ⟨-ENOMEM, via_dmablit_release_slot grab.2, xfer, none, [],
        [via_effect.wakeup_busy_queue]⟩
    else
      match via_build_sg_info k via_sg_info_zero xfer with
      | none => none
      | some r =>
        if r.ret ≠ 0 then
          some ⟨r.ret, via_dmablit_release_slot grab.2, r.xfer, none, r.events,
            [via_effect.wakeup_busy_queue]⟩
        else
          let sub := via_dmablit_submit grab.2 r.vsg
          let h := via_dmablit_handler sub.1 hw ticks
          some ⟨0, h.1, r.xfer, some sub.2, r.events, h.2⟩

/-! ## Quantities and inputs used in the statements -/

/-- Number of pages that the `len` bytes starting at address `a` touch. -/
def pages_touched (a len : Nat) : Nat := VIA_PFN (a + len - 1) - VIA_PFN a + 1

/-- Number of descriptors of one line of `len` bytes at address `a`: none for
an empty line, otherwise one per page touched. -/
def line_descriptors (a len : Nat) : Nat := if len = 0 then 0 else pages_touched a len

/-- A request of 65536 lines of 65536 bytes with both strides equal to the line
length: the collapsed length `65536 * 65536` is `2 ^ 32`. -/
def via_xfer_wrapping_collapse : drm_via_dmablit_t :=
  { num_lines := 65536
    line_length := 65536
    fb_addr := 0
    fb_stride := 65536
    mem_addr := 0x10000
    mem_stride := 65536
    flags := 0
    to_fb := 1 }

/-- A request of 2048 lines with a memory stride of `2 ^ 21 + 16` bytes: the
product `2048 * (2 ^ 21 + 16)` is `2 ^ 32 + 32768`. -/
def via_xfer_wrapping_size : drm_via_dmablit_t :=
  { num_lines := 2048
    line_length := 2097168
    fb_addr := 0
    fb_stride := 2097184
    mem_addr := 0x10000
    mem_stride := 2097168
    flags := 0
    to_fb := 1 }

/-- A request of 4 lines whose line length and strides all have the bit pattern
`0xC0000000`: as a signed value the destination stride is `- 2 ^ 30`. -/
def via_xfer_negative_stride : drm_via_dmablit_t :=
  { num_lines := 4
    line_length := 0xC0000000
    fb_addr := 0
    fb_stride := 0xC0000000
    mem_addr := 0x10000
    mem_stride := 0xC0000000
    flags := 0
    to_fb := 1 }

/-- A contiguous request of 4096 lines of 8192 bytes (32 MiB), more than the
driver's limit. -/
def via_xfer_contiguous_32M : drm_via_dmablit_t :=
  { num_lines := 4096
    line_length := 8192
    fb_addr := 0
    fb_stride := 8192
    mem_addr := 0x10000
    mem_stride := 8192
    flags := 0
    to_fb := 1 }

/-- A contiguous request of one line of 32 bytes that starts 16 bytes before a
page boundary. -/
def via_xfer_straddling : drm_via_dmablit_t :=
  { num_lines := 1
    line_length := 32
    fb_addr := 0
    fb_stride := 32
    mem_addr := 0x10ff0
    mem_stride := 32
    flags := 0
    to_fb := 1 }

/-- Every allocation and the page pinning succeed. -/
def via_kernel.succeeds (k : via_kernel) : Prop :=
  k.pages_malloc = true ∧ k.hold_pages = true ∧ k.desc_pages_malloc = true ∧
    ∀ i, k.desc_page_malloc i = true

/-- The local variables of `via_map_blit_for_device` on entry to the loop over
the lines (lines 93-105), for a given content of the descriptor storage. -/
def via_map_state_init (descriptors : List via_desc_write) : via_map_state :=
  { cur_descriptor_page := 0
    num_descriptors_this_page := 0
    num_desc := 0
    next := 0 ||| VIA_DMA_DPR_EC
    descriptors := descriptors }

/-- The info as `via_build_sg_info` passes it to the populate pass for the
request `via_xfer_straddling`: two pages locked, two descriptors counted, one
fresh chunk of 256 descriptors allocated. -/
def via_sg_info_straddling : drm_via_sg_info_t :=
  { pages := true
    num_pages := 2
    desc_pages := some [true]
    num_desc_pages := 1
    num_desc := 2
    bounce_buffer := false
    chain_start := 0
    free_on_sequence := 0
    descriptors_per_page := 256
    aborted := false
    state := via_sg_state.dr_via_desc_pages_alloc
    descriptors := [] }

/-! ## The descriptor chain as the engine reads it -/

/-- The resources acquired in a sequence of events, in order. -/
def via_acquired (ev : List via_event) : List via_resource :=
  ev.filterMap (fun e => match e with
    | via_event.acquire r => some r
    | via_event.release _ => none)

/-- The resources released in a sequence of events, in order. -/
def via_released (ev : List via_event) : List via_resource :=
  ev.filterMap (fun e => match e with
    | via_event.acquire _ => none
    | via_event.release r => some r)

/-- A kernel in which everything succeeds except the allocation of descriptor
chunks. -/
def via_kernel_chunk_fails : via_kernel :=
  { via_kernel_ok with desc_page_malloc := fun _ => false }

/-! ## Tiling of a line by descriptors -/

/-- The stores `ws` (in the order of writing) tile the `len` bytes at source
address `mem` and device address `fb` in page-bounded segments: every store
has a size of at least one byte that does not cross the end of the page of its
source address, it reads the page array at the page of its source address and
holds that page's physical address plus the page offset, its device address is
`fb`, and the following stores tile the rest of the line from where it ends, in
the source and (as a `uint32_t`) in the device address. -/
def via_line_tiled (phys : via_phys) (first_addr : Nat) :
    List via_desc_write → Nat → Nat → Nat → Prop
  | [], _, _, len => len = 0
  | w :: rest, mem, fb, len =>
    1 ≤ w.desc.size ∧ VIA_PGOFF mem + w.desc.size ≤ PAGE_SIZE ∧ w.desc.size ≤ len ∧
      w.page_index = VIA_PFN mem - VIA_PFN first_addr ∧
      w.desc.mem_addr =
        (phys.page_phys (VIA_PFN mem - VIA_PFN first_addr) + VIA_PGOFF mem) % U32 ∧
      w.desc.dev_addr = fb ∧
      via_line_tiled phys first_addr rest (mem + w.desc.size) (add32 fb w.desc.size)
        (len - w.desc.size)

/-- Device address of line `i`: `fb_addr += fb_stride` applied `i` times. -/
def via_line_fb (fb stride : Nat) : Nat → Nat
  | 0 => fb
  | i + 1 => via_line_fb (add32 fb stride) stride i

/-! ## Repeated reservation -/

/-- The queue after three submissions, of which the first has completed and
the second is being executed. -/
def via_blitq_busy : drm_via_blitq_t :=
  { via_init_dmablit with
    cur_blit_handle := 3
    done_blit_handle := 1
    head := 3
    cur := 1
    num_free := 4
    num_outstanding := 1
    is_active := true
    blits := fun i => if i < 3 then some ⟨via_sg_info_zero, i + 1⟩ else none }

/-! ## The queue as a transition system -/

/-- An engine queue together with the bookkeeping that the statements about
runs need: `reserved` counts the slots that calls of `via_dmablit` have reserved
with `via_dmablit_grab_slot` and neither submitted nor released yet, `fired`
lists the handles of the infos handed to the engine so far and `retired` the
handles of the infos whose transfer was found done, both most recent first. -/
structure via_queue_state where
  blitq : drm_via_blitq_t
  reserved : Nat
  fired : List Nat
  retired : List Nat

/-- The state after `via_init_dmablit`. -/
def via_queue_init : via_queue_state :=
  { blitq := via_init_dmablit, reserved := 0, fired := [], retired := [] }

/-- The steps that change an engine queue: a reservation that finds a free
slot, the release of a reserved slot, the submission of a built info into a
reserved slot (lines 736-744), an invocation of the handler with some status
register and clock, one iteration of the reclamation task, and the expiry or
re-arming of the poll timer. -/
inductive via_action where
  | grab_slot
  | release_slot
  | submit (vsg : drm_via_sg_info_t)
  | handler (hw : via_csr) (ticks : Nat)
  | workqueue_step
  | poll_timer (pending : Bool)

/-- The handles of the infos fired by a sequence of effects, most recent
first. -/
def via_fired_handles : List via_effect → List Nat
  | [] => []
  | via_effect.fire (some b) :: rest => via_fired_handles rest ++ [b.handle]
  | _ :: rest => via_fired_handles rest

/-- The retire/abort part of a handler invocation on a state. -/
def via_apply_done (hw : via_csr) (ticks : Nat) (s : via_queue_state) : via_queue_state :=
  { s with
    blitq := (via_dmablit_handler_done s.blitq hw ticks).1
    retired :=
      (if via_done_transfer s.blitq hw then
        ((s.blitq.blits s.blitq.cur).map (fun b => b.handle)).toList
      else []) ++ s.retired }

/-- The dispatch part of a handler invocation on a state. -/
def via_apply_dispatch (ticks : Nat) (s : via_queue_state) : via_queue_state :=
  { s with
    blitq := (via_dmablit_handler_dispatch s.blitq ticks).1
    fired := via_fired_handles (via_dmablit_handler_dispatch s.blitq ticks).2 ++ s.fired }

/-- The effect of a step on a state; `none` when the step cannot be taken
(no free slot to reserve, no reserved slot to release or to submit into,
nothing to reclaim). -/
def via_apply : via_action → via_queue_state → Option via_queue_state
  | via_action.grab_slot, s =>
    if (via_dmablit_grab_slot s.blitq (-EINTR)).1 = 0 then
      some { s with
        blitq := (via_dmablit_grab_slot s.blitq (-EINTR)).2
        reserved := s.reserved + 1 }
    else none
  | via_action.release_slot, s =>
    if s.reserved = 0 then none
    else
      some { s with
        blitq := via_dmablit_release_slot s.blitq
        reserved := s.reserved - 1 }
  | via_action.submit vsg, s =>
    if s.reserved = 0 then none
    else
      some { s with
        blitq := (via_dmablit_submit s.blitq vsg).1
        reserved := s.reserved - 1 }
  | via_action.handler hw ticks, s =>
    some (via_apply_dispatch ticks (via_apply_done hw ticks s))
  | via_action.workqueue_step, s =>
    if s.blitq.serviced ≠ s.blitq.cur then
      some { s with blitq := (via_dmablit_workqueue_step s.blitq).1 }
    else none
  | via_action.poll_timer pending, s =>
    some { s with blitq := { s.blitq with poll_timer_pending := pending } }

/-- A run: the steps applied in order. -/
def via_run : List via_action → via_queue_state → Option via_queue_state
  | [], s => some s
  | a :: rest, s =>
    match via_apply a s with
    | none => none
    | some s1 => via_run rest s1

/-- The states that runs from the initial state reach. -/
def via_reachable (s : via_queue_state) : Prop :=
  ∃ actions, via_run actions via_queue_init = some s

/-- `1` while the engine executes a transfer, else `0`. -/
def via_active (blitq : drm_via_blitq_t) : Nat := if blitq.is_active then 1 else 0

/-- The number of slots awaiting reclamation, `(cur - serviced) mod capacity`. -/
def via_pending (blitq : drm_via_blitq_t) : Nat :=
  (blitq.cur + VIA_NUM_BLIT_SLOTS - blitq.serviced) % VIA_NUM_BLIT_SLOTS

/-- The number of submitted transfers that are not completed: the queued ones
and the one being executed. -/
def via_in_flight (blitq : drm_via_blitq_t) : Nat := blitq.num_outstanding + via_active blitq

/-- The handles `n, n-1, ..., 1` (as `uint32_t`), most recent first. -/
def via_handles : Nat → List Nat
  | 0 => []
  | n + 1 => ((n + 1) % U32) :: via_handles n

/-- The invariant of the reachable states. -/
def via_queue_inv (s : via_queue_state) : Prop :=
  s.blitq.head < VIA_NUM_BLIT_SLOTS ∧ s.blitq.cur < VIA_NUM_BLIT_SLOTS ∧
  s.blitq.serviced < VIA_NUM_BLIT_SLOTS ∧
  (s.blitq.aborting = true → s.blitq.is_active = true) ∧
  (s.blitq.head + VIA_NUM_BLIT_SLOTS - s.blitq.cur) % VIA_NUM_BLIT_SLOTS =
    via_in_flight s.blitq ∧
  s.blitq.num_free + s.reserved + via_in_flight s.blitq + via_pending s.blitq =
    VIA_NUM_BLIT_SLOTS - 1 ∧
  s.blitq.done_blit_handle < 2 ^ 32 ∧
  s.blitq.cur_blit_handle = (s.blitq.done_blit_handle + via_in_flight s.blitq) % 2 ^ 32 ∧
  (∀ j, j < via_in_flight s.blitq →
    ∃ b, s.blitq.blits ((s.blitq.cur + j) % VIA_NUM_BLIT_SLOTS) = some b ∧
      b.handle = (s.blitq.done_blit_handle + 1 + j) % 2 ^ 32) ∧
  (∀ j, j < via_pending s.blitq →
    ∃ b, s.blitq.blits ((s.blitq.serviced + j) % VIA_NUM_BLIT_SLOTS) = some b) ∧
  (∀ j, via_pending s.blitq + via_in_flight s.blitq ≤ j → j < VIA_NUM_BLIT_SLOTS →
    s.blitq.blits ((s.blitq.serviced + j) % VIA_NUM_BLIT_SLOTS) = none) ∧
  s.retired = via_handles s.retired.length ∧
  s.fired = via_handles s.fired.length ∧
  s.fired.length = s.retired.length + via_active s.blitq ∧
  s.blitq.done_blit_handle = s.retired.length % 2 ^ 32

/-- Two complete submissions with an engine that has not finished the first
transfer when the second one is submitted. -/
def via_actions_two_submitted : List via_action :=
  [via_action.grab_slot, via_action.submit via_sg_info_zero,
    via_action.handler ⟨false, false⟩ 0,
    via_action.grab_slot, via_action.submit via_sg_info_zero,
    via_action.handler ⟨false, false⟩ 0]

/-- The state after `via_actions_two_submitted`: handle 1 is being executed,
handle 2 is queued. -/
def via_queue_two_submitted : via_queue_state :=
  (via_run via_actions_two_submitted via_queue_init).getD via_queue_init

/-! ## `via_unmap_blit_from_device` (lines 60-80) -/

/-- A value of `desc_ptr`: the index at which `vsg->desc_pages` was read for the
chunk it points into, and its offset in descriptors from the start of that chunk
(`desc_ptr--` at the start of a chunk leaves the offset `-1`). -/
structure via_desc_ptr where
  desc_page : Nat
  desc_index : Int
deriving DecidableEq, Repr

/-- The local variables of `via_unmap_blit_from_device` that live across the
loop iterations, together with the reads made so far, most recent first:
`chunk_reads` lists the indices at which `vsg->desc_pages` was read and
`desc_reads` the descriptors whose `next` field was read. -/
structure via_unmap_state where
  cur_descriptor_page : Nat
  descriptor_this_page : Nat
  desc_ptr : via_desc_ptr
  next : Nat
  chunk_reads : List Nat
  desc_reads : List via_desc_ptr
deriving DecidableEq, Repr

/-- The value read by `desc_ptr->next`: the `next` field of the most recent
store to that descriptor, and 0 for a descriptor of the zero-filled storage
(`M_ZERO`) that was never stored to. -/
def via_desc_next (log : List via_desc_write) (p : via_desc_ptr) : Nat :=
  match log.find? (fun w =>
      decide (w.desc_page = p.desc_page) && decide ((w.desc_index : Int) = p.desc_index)) with
  | some w => w.desc.next
  | none => 0

/-- The initialisers of lines 62-67; `vsg->num_desc` is a non-negative `int`.
The initialiser of `desc_ptr` reads `vsg->desc_pages[cur_descriptor_page]`. -/
def via_unmap_state_init (vsg : drm_via_sg_info_t) : via_unmap_state :=
  let num_desc := vsg.num_desc
  let cur_descriptor_page := num_desc / vsg.descriptors_per_page
  let descriptor_this_page := num_desc % vsg.descriptors_per_page
  { cur_descriptor_page := cur_descriptor_page
    descriptor_this_page := descriptor_this_page
    desc_ptr := ⟨cur_descriptor_page, descriptor_this_page⟩
    next := vsg.chain_start
    chunk_reads := [cur_descriptor_page]
    desc_reads := [] }

/-- The body of the loop (lines 70-78): `descriptor_this_page-- == 0` compares
the value before the decrement; the two counters are `unsigned`. -/
def via_unmap_step (vsg : drm_via_sg_info_t) (st : via_unmap_state) : via_unmap_state :=
  let st1 : via_unmap_state :=
    if st.descriptor_this_page = 0 then
      let cur_descriptor_page := sub32 st.cur_descriptor_page 1
      let descriptor_this_page := sub32 vsg.descriptors_per_page 1
      { st with
        cur_descriptor_page := cur_descriptor_page
        descriptor_this_page := descriptor_this_page
        desc_ptr := ⟨cur_descriptor_page, descriptor_this_page⟩
        chunk_reads := cur_descriptor_page :: st.chunk_reads }
    else { st with descriptor_this_page := sub32 st.descriptor_this_page 1 }
  { st1 with
    next := via_desc_next vsg.descriptors st1.desc_ptr
    desc_reads := st1.desc_ptr :: st1.desc_reads
    desc_ptr := ⟨st1.desc_ptr.desc_page, st1.desc_ptr.desc_index - 1⟩ }

/-- The loop `while (num_desc--)` with `num_desc` iterations to go. -/
def via_unmap_loop (vsg : drm_via_sg_info_t) : Nat → via_unmap_state → via_unmap_state
  | 0, st => st
  | n + 1, st => via_unmap_loop vsg n (via_unmap_step vsg st)

/-- `via_unmap_blit_from_device(vsg)`: the local variables on return, with the
reads made. The function writes nothing. -/
def via_unmap_blit_from_device (vsg : drm_via_sg_info_t) : via_unmap_state :=
  via_unmap_loop vsg vsg.num_desc (via_unmap_state_init vsg)

/-- The descriptor at position `p` of the descriptor storage, counted in the
order of the stores of the populate pass: offset `p mod dpp` of chunk
`p / dpp`. -/
def via_desc_position (dpp p : Nat) : via_desc_ptr := ⟨p / dpp, (p % dpp : Nat)⟩

/-- The reads of a walk over exactly the stored descriptors, positions
`num_desc - 1` down to `0`, most recent first. -/
def via_unmap_reads_spec (num_desc dpp : Nat) : List via_desc_ptr :=
  (List.range num_desc).map (via_desc_position dpp)

/-- The position of the descriptor that the loop reads when `k` iterations are
still to go: position `k` as long as `desc_ptr` has not been reloaded from the
chunk array, position `k - 1` afterwards. -/
def via_unmap_read_position (num_desc dpp k : Nat) : Nat :=
  if dpp * (num_desc / dpp) < k then k else k - 1

/-- An info with 256 descriptors in one chunk of 256. -/
def via_sg_info_full_chunk : drm_via_sg_info_t :=
  { via_sg_info_zero with
    num_desc := 256
    descriptors_per_page := 256
    num_desc_pages := 1
    desc_pages := some [true] }

/-- The info that `via_build_sg_info` builds for `via_xfer_straddling`: two
descriptors in one chunk of 256. -/
def via_sg_info_straddling_built : drm_via_sg_info_t :=
  match via_build_sg_info via_kernel_ok via_sg_info_zero via_xfer_straddling with
  | some r => r.vsg
  | none => via_sg_info_zero

/-- A queue with one completed transfer awaiting reclamation: slot 0 holds the
info that `via_build_sg_info` built for `via_xfer_straddling` (two pinned pages,
one descriptor chunk), submitted with handle 1. -/
def via_blitq_reclaim : drm_via_blitq_t :=
  { via_init_dmablit with
    cur_blit_handle := 1
    done_blit_handle := 1
    head := 1
    cur := 1
    num_free := 6
    blits := fun i => if i = 0 then some ⟨via_sg_info_straddling_built, 1⟩ else none }

/-! ## Theorems -/

/-- C1: when the number of handles in flight `m = (c - d) mod 2^32` is at most
`2^23`, `via_dmablit_active` reports a handle `h` active exactly when
`1 ≤ (h - d) mod 2^32 ≤ m`; in particular every handle up to `2^23` behind the
completed handle `d` is reported inactive. -/
theorem via_dmablit_active_iff_in_flight (blitq : drm_via_blitq_t) (h : Nat) (wantQueue : Bool)
    (hm : sub32 blitq.cur_blit_handle blitq.done_blit_handle ≤ 2 ^ 23) :
    ((via_dmablit_active blitq h wantQueue).1 = true ↔
        (1 ≤ sub32 h blitq.done_blit_handle ∧
          sub32 h blitq.done_blit_handle ≤
            sub32 blitq.cur_blit_handle blitq.done_blit_handle)) ∧
    (∀ k, k ≤ 2 ^ 23 →
        (via_dmablit_active blitq (sub32 blitq.done_blit_handle k) wantQueue).1 = false) := by
  simp only [via_dmablit_active, via_dmablit_active_flag, sub32, U32] at *
  constructor
  · simp only [Bool.and_eq_true, decide_eq_true_eq]
    omega
  · intro k hk
    simp only [Bool.and_eq_false_iff, decide_eq_false_iff_not]
    omega

/-- Witness for `via_dmablit_active_iff_in_flight`: the queue after one
submission (`d = 0`, `c = 1`) and the handle `1`. -/
theorem via_dmablit_active_iff_in_flight_witness :
    sub32 1 0 ≤ 2 ^ 23 ∧
    ((via_dmablit_active (via_dmablit_submit via_init_dmablit via_sg_info_zero).1 1 true).1 = true ↔
        (1 ≤ sub32 1 (via_dmablit_submit via_init_dmablit via_sg_info_zero).1.done_blit_handle ∧
          sub32 1 (via_dmablit_submit via_init_dmablit via_sg_info_zero).1.done_blit_handle ≤
            sub32 (via_dmablit_submit via_init_dmablit via_sg_info_zero).1.cur_blit_handle
              (via_dmablit_submit via_init_dmablit via_sg_info_zero).1.done_blit_handle)) ∧
    (∀ k, k ≤ 2 ^ 23 →
        (via_dmablit_active (via_dmablit_submit via_init_dmablit via_sg_info_zero).1
          (sub32 (via_dmablit_submit via_init_dmablit via_sg_info_zero).1.done_blit_handle k) true).1 = false) :=
  ⟨by decide,
   via_dmablit_active_iff_in_flight (via_dmablit_submit via_init_dmablit via_sg_info_zero).1 1 true (by decide)⟩

/-- C2 (as stated, refuted): on the freshly initialised queue the handle `1` is
reported inactive, and after one submission, which increases `cur_blit_handle`
by one, the same handle is reported active. -/
theorem via_dmablit_active_flips_new_handle :
    (via_dmablit_active via_init_dmablit 1 false).1 = false ∧
    (via_dmablit_submit via_init_dmablit via_sg_info_zero).1.done_blit_handle =
      via_init_dmablit.done_blit_handle ∧
    (via_dmablit_submit via_init_dmablit via_sg_info_zero).1.cur_blit_handle =
      (via_init_dmablit.cur_blit_handle + 1) % 2 ^ 32 ∧
    (via_dmablit_active (via_dmablit_submit via_init_dmablit via_sg_info_zero).1 1 false).1 = true := by
  decide

/-- C2 (amended): increasing `cur_blit_handle` by one (modulo `2^32`) keeps
every inactive handle inactive, except possibly the handle that is issued by
that very increment. -/
theorem via_dmablit_active_stable_under_submit (blitq : drm_via_blitq_t) (h : Nat)
    (wantQueue : Bool) (hh : h < 2 ^ 32)
    (vsg : drm_via_sg_info_t) (hne : h ≠ (via_dmablit_submit blitq vsg).2)
    (hin : (via_dmablit_active blitq h wantQueue).1 = false) :
    (via_dmablit_active (via_dmablit_submit blitq vsg).1 h wantQueue).1 = false := by
  simp only [via_dmablit_active, via_dmablit_active_flag, via_dmablit_submit, sub32, add32, U32,
    Bool.and_eq_false_iff, decide_eq_false_iff_not] at *
  omega

/-- Witness for `via_dmablit_active_stable_under_submit`: handle `5` on the
freshly initialised queue. -/
theorem via_dmablit_active_stable_under_submit_witness :
    (via_dmablit_active via_init_dmablit 5 false).1 = false ∧
    (via_dmablit_active (via_dmablit_submit via_init_dmablit via_sg_info_zero).1 5 false).1 = false :=
  ⟨by decide,
   via_dmablit_active_stable_under_submit via_init_dmablit 5 false (by decide) via_sg_info_zero
     (by decide) (by decide)⟩

/-! ### Page arithmetic -/

theorem PAGE_SIZE_eq : PAGE_SIZE = 4096 := by decide

theorem VIA_PGOFF_eq (x : Nat) : VIA_PGOFF x = x % 4096 := by
  have h : PAGE_MASK = 2 ^ 12 - 1 := by decide
  rw [VIA_PGOFF, h, Nat.and_pow_two_sub_one_eq_mod]

theorem VIA_PFN_eq (x : Nat) : VIA_PFN x = x / 4096 := by
  rw [VIA_PFN, Nat.shiftRight_eq_div_pow]; rfl

theorem VIA_PGDN_eq (x : Nat) : VIA_PGDN x = x - x % 4096 := by
  have h := VIA_PGOFF_eq x
  rw [VIA_PGOFF] at h
  rw [VIA_PGDN, h]

/-! ### The geometry walk: number of descriptors -/

theorem via_map_store_num_desc (phys : via_phys) (dpp first_addr cur_mem cur_fb rem : Nat)
    (st : via_map_state) :
    (via_map_store phys dpp first_addr cur_mem cur_fb rem st).num_desc = st.num_desc := by
  unfold via_map_store
  simp only []
  split <;> rfl

theorem via_map_store_length (phys : via_phys) (dpp first_addr cur_mem cur_fb rem : Nat)
    (st : via_map_state) :
    (via_map_store phys dpp first_addr cur_mem cur_fb rem st).descriptors.length =
      st.descriptors.length + 1 := by
  unfold via_map_store
  simp only []
  split <;> simp

/-- The inner loop terminates within `line_len` iterations and adds to
`num_desc` the number of pages the line touches; the populate pass stores as
many descriptors, the count pass none. -/
theorem via_map_line_num_desc (phys : via_phys) (dpp mode first_addr : Nat) :
    ∀ (fuel line_len cur_mem cur_fb : Nat) (st : via_map_state), line_len ≤ fuel →
      ∃ st', via_map_line phys dpp mode first_addr fuel line_len cur_mem cur_fb st = some st' ∧
        st'.num_desc = st.num_desc + (if line_len = 0 then 0 else pages_touched cur_mem line_len) ∧
        (mode = 1 → st'.descriptors.length =
          st.descriptors.length + (if line_len = 0 then 0 else pages_touched cur_mem line_len)) ∧
        (mode ≠ 1 → st'.descriptors = st.descriptors) := by
  intro fuel
  induction fuel with
  | zero =>
    intro line_len cur_mem cur_fb st hle
    have h0 : line_len = 0 := by omega
    subst h0
    exact ⟨st, by simp [via_map_line], by simp, by simp, by simp⟩
  | succ fuel ih =>
    intro line_len cur_mem cur_fb st hle
    by_cases hz : line_len = 0
    · subst hz
      exact ⟨st, by simp [via_map_line], by simp, by simp, by simp⟩
    · have hpos : line_len > 0 := by omega
      rw [via_map_line, if_pos hpos]
      simp only [PAGE_SIZE_eq, VIA_PGOFF_eq]
      have hrem : 1 ≤ min (4096 - cur_mem % 4096) line_len := by
        have := Nat.mod_lt cur_mem (show 4096 > 0 by decide)
        omega
      obtain ⟨st', hrun, hnum, hlen, hdesc⟩ :=
        ih (line_len - min (4096 - cur_mem % 4096) line_len)
          (cur_mem + min (4096 - cur_mem % 4096) line_len)
          (add32 cur_fb (min (4096 - cur_mem % 4096) line_len))
          { (if mode = 1 then
              via_map_store phys dpp first_addr cur_mem cur_fb
                (min (4096 - cur_mem % 4096) line_len) st
             else st) with
            num_desc := (if mode = 1 then
              via_map_store phys dpp first_addr cur_mem cur_fb
                (min (4096 - cur_mem % 4096) line_len) st
             else st).num_desc + 1 }
          (by omega)
      refine ⟨st', hrun, ?_, ?_, ?_⟩
      · rw [hnum]
        have hn : (if mode = 1 then
              via_map_store phys dpp first_addr cur_mem cur_fb
                (min (4096 - cur_mem % 4096) line_len) st
             else st).num_desc = st.num_desc := by
          split
          · exact via_map_store_num_desc ..
          · rfl
        simp only [hn, pages_touched, VIA_PFN_eq, if_neg hz]
        split <;> omega
      · intro hm
        rw [hlen hm]
        simp only [hm, if_true, via_map_store_length, pages_touched, VIA_PFN_eq, if_neg hz]
        split <;> omega
      · intro hm
        rw [hdesc hm]
        simp only [if_neg hm]

/-- The outer loop terminates and adds to `num_desc`, for every line, the
number of pages that line touches. -/
theorem via_map_lines_num_desc (phys : via_phys) (dpp mode first_addr : Nat)
    (xfer : drm_via_dmablit_t) :
    ∀ (lines mem_addr fb_addr : Nat) (st : via_map_state),
      ∃ st', via_map_lines phys dpp mode first_addr xfer lines mem_addr fb_addr st = some st' ∧
        st'.num_desc = st.num_desc +
          ∑ i in Finset.range lines,
            line_descriptors (mem_addr + i * xfer.mem_stride) xfer.line_length ∧
        (mode = 1 → st'.descriptors.length = st.descriptors.length +
          ∑ i in Finset.range lines,
            line_descriptors (mem_addr + i * xfer.mem_stride) xfer.line_length) ∧
        (mode ≠ 1 → st'.descriptors = st.descriptors) := by
  intro lines
  induction lines with
  | zero =>
    intro mem_addr fb_addr st
    exact ⟨st, by simp [via_map_lines], by simp, by simp, by simp⟩
  | succ lines ih =>
    intro mem_addr fb_addr st
    obtain ⟨st1, h1, hn1, hl1, hd1⟩ :=
      via_map_line_num_desc phys dpp mode first_addr xfer.line_length xfer.line_length
        mem_addr fb_addr st (le_refl _)
    obtain ⟨st2, h2, hn2, hl2, hd2⟩ :=
      ih (mem_addr + xfer.mem_stride) (add32 fb_addr xfer.fb_stride) st1
    have hsum : ∑ i in Finset.range (lines + 1),
          line_descriptors (mem_addr + i * xfer.mem_stride) xfer.line_length =
        line_descriptors mem_addr xfer.line_length +
          ∑ i in Finset.range lines,
            line_descriptors (mem_addr + xfer.mem_stride + i * xfer.mem_stride)
              xfer.line_length := by
      rw [Finset.sum_range_succ', add_comm]
      congr 1
      · simp
      · apply Finset.sum_congr rfl
        intro i _
        congr 1
        ring
    refine ⟨st2, ?_, ?_, ?_, ?_⟩
    · rw [via_map_lines, h1]
      exact h2
    · rw [hn2, hn1, hsum, line_descriptors]
      omega
    · intro hm
      rw [hl2 hm, hl1 hm, hsum, line_descriptors]
      omega
    · intro hm
      rw [hd2 hm, hd1 hm]

/-- Both passes of `via_map_blit_for_device` return: `num_desc` is the number
of descriptors of all lines, the populate pass stores that many descriptors and
the count pass changes nothing but `num_desc`. -/
theorem via_map_blit_for_device_returns (phys : via_phys) (xfer : drm_via_dmablit_t)
    (vsg : drm_via_sg_info_t) :
    ∃ st0 st1 : via_map_state,
      via_map_blit_for_device phys xfer vsg 0 = some { vsg with num_desc := st0.num_desc } ∧
      via_map_blit_for_device phys xfer vsg 1 = some { vsg with
        descriptors := st1.descriptors
        chain_start := st1.next
        state := via_sg_state.dr_via_device_mapped
        num_desc := st1.num_desc } ∧
      st0.num_desc = ∑ i in Finset.range xfer.num_lines,
        line_descriptors (xfer.mem_addr + i * xfer.mem_stride) xfer.line_length ∧
      st1.num_desc = st0.num_desc ∧
      st1.descriptors.length = vsg.descriptors.length + st0.num_desc ∧
      via_map_lines phys vsg.descriptors_per_page 1 (VIA_PGDN xfer.mem_addr) xfer
        xfer.num_lines xfer.mem_addr xfer.fb_addr
        (via_map_state_init vsg.descriptors) = some st1 := by
  obtain ⟨st0, h0, hn0, -, hd0⟩ :=
    via_map_lines_num_desc phys vsg.descriptors_per_page 0 (VIA_PGDN xfer.mem_addr) xfer
      xfer.num_lines xfer.mem_addr xfer.fb_addr
      { cur_descriptor_page := 0, num_descriptors_this_page := 0, num_desc := 0,
        next := 0 ||| VIA_DMA_DPR_EC, descriptors := vsg.descriptors }
  obtain ⟨st1, h1, hn1, hl1, -⟩ :=
    via_map_lines_num_desc phys vsg.descriptors_per_page 1 (VIA_PGDN xfer.mem_addr) xfer
      xfer.num_lines xfer.mem_addr xfer.fb_addr
      { cur_descriptor_page := 0, num_descriptors_this_page := 0, num_desc := 0,
        next := 0 ||| VIA_DMA_DPR_EC, descriptors := vsg.descriptors }
  have hl1 := hl1 rfl
  simp only [Nat.zero_add] at hn0 hn1 hl1
  refine ⟨st0, st1, ?_, ?_, hn0, ?_, ?_, h1⟩
  · simp only [via_map_blit_for_device, h0]
    rfl
  · simp only [via_map_blit_for_device, h1]
    rfl
  · rw [hn1, hn0]
  · rw [hl1, hn0]

/-- C3: for a geometry with line length `L ≥ 1`, `via_map_blit_for_device`
returns, in the count pass (`mode = 0`) and in the populate pass (`mode = 1`)
alike, with `num_desc` equal to the sum over the lines `i < N` of
`VIA_PFN(a + i*s + L - 1) - VIA_PFN(a + i*s) + 1`; the count pass stores no
descriptor and the populate pass stores exactly `num_desc` descriptors; a
single 64-byte line that starts 32 bytes before a page boundary yields 2. -/
theorem via_map_blit_for_device_num_desc (phys : via_phys) (xfer : drm_via_dmablit_t)
    (vsg : drm_via_sg_info_t) (hL : 1 ≤ xfer.line_length) :
    (∃ vsg0 vsg1,
      via_map_blit_for_device phys xfer vsg 0 = some vsg0 ∧
      via_map_blit_for_device phys xfer vsg 1 = some vsg1 ∧
      vsg0.num_desc = ∑ i in Finset.range xfer.num_lines,
        (VIA_PFN (xfer.mem_addr + i * xfer.mem_stride + xfer.line_length - 1) -
          VIA_PFN (xfer.mem_addr + i * xfer.mem_stride) + 1) ∧
      vsg1.num_desc = vsg0.num_desc ∧
      vsg0.descriptors = vsg.descriptors ∧
      vsg1.descriptors.length = vsg.descriptors.length + vsg0.num_desc) ∧
    (xfer.num_lines = 1 → xfer.line_length = 64 → VIA_PGOFF xfer.mem_addr = PAGE_SIZE - 32 →
      (via_map_blit_for_device phys xfer vsg 0).map (fun v => v.num_desc) = some 2) := by
  obtain ⟨st0, st1, e0, e1, hn0, hn1, hl1, -⟩ := via_map_blit_for_device_returns phys xfer vsg
  have hne : xfer.line_length ≠ 0 := by omega
  simp only [line_descriptors, if_neg hne, pages_touched] at hn0
  constructor
  · exact ⟨_, _, e0, e1, hn0, hn1, rfl, hl1⟩
  · intro hN hlen hoff
    rw [e0, Option.map_some', hn0, hN, hlen]
    simp only [Finset.sum_range_one, VIA_PFN_eq]
    rw [VIA_PGOFF_eq, PAGE_SIZE_eq] at hoff
    simp only [Nat.zero_mul, Nat.add_zero]
    congr 1
    omega

/-- Witness for `via_map_blit_for_device_num_desc`: one 64-byte line starting at
address `0x10fe0`, 32 bytes before a page boundary. -/
theorem via_map_blit_for_device_num_desc_witness :
    (∃ vsg0 vsg1,
      via_map_blit_for_device ⟨fun i => 0x100000 + 4096 * i, fun c => 0x200000 + 4096 * c⟩
        ⟨1, 64, 0, 64, 0x10fe0, 64, 0, 1⟩
        ⟨true, 2, some [true], 1, 2, false, 0, 0, 256, false, via_sg_state.dr_via_desc_pages_alloc, []⟩
        0 = some vsg0 ∧
      via_map_blit_for_device ⟨fun i => 0x100000 + 4096 * i, fun c => 0x200000 + 4096 * c⟩
        ⟨1, 64, 0, 64, 0x10fe0, 64, 0, 1⟩
        ⟨true, 2, some [true], 1, 2, false, 0, 0, 256, false, via_sg_state.dr_via_desc_pages_alloc, []⟩
        1 = some vsg1 ∧
      vsg0.num_desc = ∑ i in Finset.range 1,
        (VIA_PFN (0x10fe0 + i * 64 + 64 - 1) - VIA_PFN (0x10fe0 + i * 64) + 1) ∧
      vsg1.num_desc = vsg0.num_desc ∧
      vsg0.descriptors = [] ∧
      vsg1.descriptors.length = 0 + vsg0.num_desc) ∧
    ((1 : Nat) = 1 → (64 : Nat) = 64 → VIA_PGOFF 0x10fe0 = PAGE_SIZE - 32 →
      (via_map_blit_for_device ⟨fun i => 0x100000 + 4096 * i, fun c => 0x200000 + 4096 * c⟩
        ⟨1, 64, 0, 64, 0x10fe0, 64, 0, 1⟩
        ⟨true, 2, some [true], 1, 2, false, 0, 0, 256, false, via_sg_state.dr_via_desc_pages_alloc, []⟩
        0).map (fun v => v.num_desc) = some 2) :=
  via_map_blit_for_device_num_desc ⟨fun i => 0x100000 + 4096 * i, fun c => 0x200000 + 4096 * c⟩
    ⟨1, 64, 0, 64, 0x10fe0, 64, 0, 1⟩
    ⟨true, 2, some [true], 1, 2, false, 0, 0, 256, false, via_sg_state.dr_via_desc_pages_alloc, []⟩
    (by decide)

/-! ### Validation -/

/-- C8 (code evaluated at the failing input): the request of 65536 lines of
65536 bytes with both strides 65536 has positive line length and line count and
is accepted; the geometry that is walked afterwards has line length 0 and the
count pass yields 0 descriptors. -/
theorem via_build_sg_info_accepts_empty_collapse :
    via_xfer_wrapping_collapse.wf ∧
    0 < via_xfer_wrapping_collapse.num_lines ∧ 0 < via_xfer_wrapping_collapse.line_length ∧
    (via_build_sg_info via_kernel_ok via_sg_info_zero via_xfer_wrapping_collapse).map
      (fun r => (r.ret, r.xfer.num_lines, r.xfer.line_length, r.vsg.num_desc)) =
      some (0, 1, 0, 0) := by
  decide

/-- C7 (code evaluated at the failing inputs): the accepted request of 65536
lines of 65536 bytes makes `via_lock_all_dma_pages` compute `num_pages = 2 ^ 20`,
more than `2048*2048*4 / PAGE_SIZE + 1`; the accepted request of 2048 lines of
stride `2 ^ 21 + 16` has an exact product `num_lines * mem_stride` above
`2048*2048*4`. -/
theorem via_build_sg_info_page_bound_fails :
    via_xfer_wrapping_collapse.wf ∧
    (via_build_sg_info via_kernel_ok via_sg_info_zero via_xfer_wrapping_collapse).map
      (fun r => (r.ret, r.xfer.num_lines, r.xfer.mem_stride, r.vsg.num_pages)) =
      some (0, 1, 0, 1048576) ∧
    2048 * 2048 * 4 / PAGE_SIZE + 1 < 1048576 ∧
    via_xfer_wrapping_size.wf ∧
    via_build_sg_info_validate via_xfer_wrapping_size = (0, via_xfer_wrapping_size) ∧
    2048 * 2048 * 4 < via_xfer_wrapping_size.num_lines * via_xfer_wrapping_size.mem_stride := by
  decide

/-- C10 (code evaluated at the failing input): for the request of 4 lines with
line length and strides `0xC0000000`, every check other than the stride check
passes (on the request as submitted and on the geometry after the collapse), the
magnitude `2 ^ 30` of the signed destination stride is below the line length, and
validation accepts the request. -/
theorem via_build_sg_info_accepts_short_negative_stride :
    via_xfer_negative_stride.wf ∧
    ¬ via_zero_size via_xfer_negative_stride ∧
    ¬ via_stride_gap_too_large via_xfer_negative_stride ∧
    ¬ via_too_large via_xfer_negative_stride ∧
    ¬ via_too_large (via_collapse via_xfer_negative_stride) ∧
    ¬ via_bad_alignment via_xfer_negative_stride ∧
    ¬ via_bad_alignment (via_collapse via_xfer_negative_stride) ∧
    (via_xfer_negative_stride.fb_stride : Int) - 2 ^ 32 = - 2 ^ 30 ∧
    abs32 via_xfer_negative_stride.fb_stride = 2 ^ 30 ∧
    abs32 via_xfer_negative_stride.fb_stride < via_xfer_negative_stride.line_length ∧
    (via_build_sg_info_validate via_xfer_negative_stride).1 = 0 ∧
    (via_build_sg_info via_kernel_ok via_sg_info_zero via_xfer_negative_stride).map
      (fun r => r.ret) = some 0 := by
  decide

/-- C9 (as stated, refuted): the contiguous 32 MiB request is rejected with
`-EINVAL` and the request is left with one line of 33554432 bytes instead of the
4096 lines of 8192 bytes it had on entry. -/
theorem via_build_sg_info_einval_modifies_request :
    via_xfer_contiguous_32M.wf ∧
    (via_build_sg_info via_kernel_ok via_sg_info_zero via_xfer_contiguous_32M).map
      (fun r => (r.ret, r.xfer.num_lines, r.xfer.line_length, r.xfer.mem_stride,
        r.xfer.fb_stride)) =
      some (-EINVAL, 1, 33554432, 33554432, 33554432) ∧
    via_xfer_contiguous_32M.num_lines = 4096 ∧
    via_xfer_contiguous_32M.line_length = 8192 := by
  decide

/-- C4 (as stated, refuted): the accepted contiguous request of one 32-byte
line that starts 16 bytes before a page boundary is collapsed to one line of 32
bytes and gets 2 descriptors, while `⌈32 / PAGE_SIZE⌉ = 1`. -/
theorem via_build_sg_info_straddling_two_descriptors :
    via_xfer_straddling.wf ∧
    via_xfer_straddling.mem_stride = via_xfer_straddling.line_length ∧
    via_xfer_straddling.fb_stride = via_xfer_straddling.line_length ∧
    (via_build_sg_info via_kernel_ok via_sg_info_zero via_xfer_straddling).map
      (fun r => (r.ret, r.xfer.num_lines, r.xfer.line_length, r.vsg.num_desc)) =
      some (0, 1, 32, 2) ∧
    (via_xfer_straddling.line_length * via_xfer_straddling.num_lines + PAGE_SIZE - 1) /
      PAGE_SIZE = 1 := by
  decide

theorem via_build_sg_info_validate_ret (xfer : drm_via_dmablit_t) :
    (via_build_sg_info_validate xfer).1 = 0 ∨ (via_build_sg_info_validate xfer).1 = -EINVAL := by
  unfold via_build_sg_info_validate
  simp only []
  split_ifs <;> simp

theorem via_lock_all_dma_pages_ret (k : via_kernel) (vsg : drm_via_sg_info_t)
    (xfer : drm_via_dmablit_t) :
    (via_lock_all_dma_pages k vsg xfer).1 = 0 ∨
    (via_lock_all_dma_pages k vsg xfer).1 = -ENOMEM ∨
    (via_lock_all_dma_pages k vsg xfer).1 = -EACCES := by
  unfold via_lock_all_dma_pages
  simp only []
  split_ifs <;> simp

theorem via_alloc_desc_pages_ret (k : via_kernel) (vsg : drm_via_sg_info_t) :
    (via_alloc_desc_pages k vsg).1 = 0 ∨ (via_alloc_desc_pages k vsg).1 = -ENOMEM := by
  unfold via_alloc_desc_pages
  simp only []
  split_ifs <;> simp

theorem via_build_sg_info_returns (k : via_kernel) (vsg : drm_via_sg_info_t)
    (xfer : drm_via_dmablit_t) :
    ∃ r, via_build_sg_info k vsg xfer = some r ∧
      r.xfer = (via_build_sg_info_validate xfer).2 ∧
      ((via_build_sg_info_validate xfer).1 ≠ 0 →
        r.ret = (via_build_sg_info_validate xfer).1 ∧ r.events = [] ∧
        r.vsg = { vsg with bounce_buffer := false, state := via_sg_state.dr_via_sg_init }) ∧
      ((via_build_sg_info_validate xfer).1 = 0 →
        r.ret = 0 ∨ r.ret = -ENOMEM ∨ r.ret = -EACCES) := by
  unfold via_build_sg_info
  simp only []
  by_cases hv : (via_build_sg_info_validate xfer).1 = 0
  · simp only [hv, ne_eq, not_true_eq_false, if_false]
    have hl := via_lock_all_dma_pages_ret k
      { vsg with bounce_buffer := false, state := via_sg_state.dr_via_sg_init }
      (via_build_sg_info_validate xfer).2
    by_cases hlk : (via_lock_all_dma_pages k
      { vsg with bounce_buffer := false, state := via_sg_state.dr_via_sg_init }
      (via_build_sg_info_validate xfer).2).1 = 0
    · simp only [hlk, ne_eq, not_true_eq_false, if_false]
      obtain ⟨st0, st1, e0, e1, -⟩ := via_map_blit_for_device_returns k.phys
        (via_build_sg_info_validate xfer).2
        (via_lock_all_dma_pages k
          { vsg with bounce_buffer := false, state := via_sg_state.dr_via_sg_init }
          (via_build_sg_info_validate xfer).2).2.1
      rw [e0]
      simp only []
      have ha := via_alloc_desc_pages_ret k
        { (via_lock_all_dma_pages k
          { vsg with bounce_buffer := false, state := via_sg_state.dr_via_sg_init }
          (via_build_sg_info_validate xfer).2).2.1 with num_desc := st0.num_desc }
      by_cases hal : (via_alloc_desc_pages k
        { (via_lock_all_dma_pages k
          { vsg with bounce_buffer := false, state := via_sg_state.dr_via_sg_init }
          (via_build_sg_info_validate xfer).2).2.1 with num_desc := st0.num_desc }).1 = 0
      · simp only [hal, ne_eq, not_true_eq_false, if_false]
        obtain ⟨-, st1', -, e1', -⟩ := via_map_blit_for_device_returns k.phys
          (via_build_sg_info_validate xfer).2
          (via_alloc_desc_pages k
            { (via_lock_all_dma_pages k
              { vsg with bounce_buffer := false, state := via_sg_state.dr_via_sg_init }
              (via_build_sg_info_validate xfer).2).2.1 with num_desc := st0.num_desc }).2.1
        rw [e1']
        exact ⟨_, rfl, rfl, fun h => h.elim, fun _ => Or.inl rfl⟩
      · simp only [hal, ne_eq, not_false_eq_true, if_true]
        refine ⟨_, rfl, rfl, fun h => h.elim, fun _ => ?_⟩
        rcases ha with ha | ha
        · exact absurd ha hal
        · exact Or.inr (Or.inl ha)
    · simp only [hlk, ne_eq, not_false_eq_true, if_true]
      refine ⟨_, rfl, rfl, fun h => h.elim, fun _ => ?_⟩
      rcases hl with hl | hl | hl
      · exact absurd hl hlk
      · exact Or.inr (Or.inl hl)
      · exact Or.inr (Or.inr hl)
  · simp only [hv, ne_eq, not_false_eq_true, if_true]
    exact ⟨_, rfl, rfl, fun _ => ⟨rfl, rfl, rfl⟩, fun h => h.elim⟩

theorem via_lock_all_dma_pages_ok (k : via_kernel) (vsg : drm_via_sg_info_t)
    (xfer : drm_via_dmablit_t) (hk : k.succeeds) :
    (via_lock_all_dma_pages k vsg xfer).1 = 0 ∧
    (via_lock_all_dma_pages k vsg xfer).2.1.num_pages =
      VIA_PFN (xfer.mem_addr + sub32 (mul32 xfer.num_lines xfer.mem_stride) 1) -
        VIA_PFN xfer.mem_addr + 1 := by
  obtain ⟨h1, h2, -, -⟩ := hk
  unfold via_lock_all_dma_pages
  simp only [h1, h2]
  exact ⟨rfl, rfl⟩

theorem via_alloc_desc_chunks_ok (k : via_kernel) (hk : k.succeeds) :
    ∀ n i chunks, (via_alloc_desc_chunks k n i chunks).1 = true := by
  intro n
  induction n with
  | zero => intro i chunks; rfl
  | succ n ih =>
    intro i chunks
    rw [via_alloc_desc_chunks, if_pos (hk.2.2.2 i)]
    exact ih _ _

theorem via_alloc_desc_pages_ok (k : via_kernel) (vsg : drm_via_sg_info_t) (hk : k.succeeds) :
    (via_alloc_desc_pages k vsg).1 = 0 ∧
    (via_alloc_desc_pages k vsg).2.1.descriptors_per_page = 256 ∧
    (via_alloc_desc_pages k vsg).2.1.num_desc_pages = (vsg.num_desc + 256 - 1) / 256 ∧
    (via_alloc_desc_pages k vsg).2.1.descriptors = [] ∧
    (via_alloc_desc_pages k vsg).2.1.num_pages = vsg.num_pages ∧
    (via_alloc_desc_pages k vsg).2.1.num_desc = vsg.num_desc := by
  have h3 := hk.2.2.1
  have hc := via_alloc_desc_chunks_ok k hk ((vsg.num_desc + 256 - 1) / 256) 0
    (List.replicate ((vsg.num_desc + 256 - 1) / 256) false)
  have hdpp : PAGE_SIZE / sizeof_descriptor = 256 := by decide
  unfold via_alloc_desc_pages
  simp only [h3, hdpp, hc]
  exact ⟨rfl, rfl, rfl, rfl, rfl, rfl⟩

/-- What the two passes of `via_map_blit_for_device` leave in the info. -/
theorem via_map_blit_for_device_fields (phys : via_phys) (xfer : drm_via_dmablit_t)
    (vsg : drm_via_sg_info_t) :
    ∃ (vsg0 vsg1 : drm_via_sg_info_t) (st1 : via_map_state),
      via_map_blit_for_device phys xfer vsg 0 = some vsg0 ∧
      via_map_blit_for_device phys xfer vsg 1 = some vsg1 ∧
      vsg0 = { vsg with num_desc := vsg0.num_desc } ∧
      vsg0.num_desc = ∑ i in Finset.range xfer.num_lines,
        line_descriptors (xfer.mem_addr + i * xfer.mem_stride) xfer.line_length ∧
      vsg1 = { vsg with
        descriptors := st1.descriptors
        chain_start := st1.next
        state := via_sg_state.dr_via_device_mapped
        num_desc := vsg0.num_desc } ∧
      via_map_lines phys vsg.descriptors_per_page 1 (VIA_PGDN xfer.mem_addr) xfer
        xfer.num_lines xfer.mem_addr xfer.fb_addr
        (via_map_state_init vsg.descriptors) = some st1 ∧
      st1.num_desc = vsg0.num_desc := by
  obtain ⟨st0, st1, e0, e1, hn0, hn1, -, hrun⟩ := via_map_blit_for_device_returns phys xfer vsg
  refine ⟨_, _, st1, e0, e1, rfl, hn0, ?_, hrun, hn1⟩
  rw [hn1]

/-- An accepted request whose kernel calls all succeed is built: the function
returns 0 with the request as validation leaves it, `num_pages` as computed by
`via_lock_all_dma_pages`, `num_desc` as counted, and the descriptors stored by
the populate pass into fresh descriptor storage of 256 descriptors per chunk. -/
theorem via_build_sg_info_ok (k : via_kernel) (vsg : drm_via_sg_info_t)
    (xfer : drm_via_dmablit_t) (hk : k.succeeds)
    (hv : (via_build_sg_info_validate xfer).1 = 0) :
    ∃ (r : via_build_result) (st1 : via_map_state),
      via_build_sg_info k vsg xfer = some r ∧ r.ret = 0 ∧
      r.xfer = (via_build_sg_info_validate xfer).2 ∧
      r.vsg.num_pages =
        VIA_PFN (r.xfer.mem_addr + sub32 (mul32 r.xfer.num_lines r.xfer.mem_stride) 1) -
          VIA_PFN r.xfer.mem_addr + 1 ∧
      r.vsg.num_desc = ∑ i in Finset.range r.xfer.num_lines,
        line_descriptors (r.xfer.mem_addr + i * r.xfer.mem_stride) r.xfer.line_length ∧
      r.vsg.descriptors_per_page = 256 ∧
      r.vsg.num_desc_pages = (r.vsg.num_desc + 256 - 1) / 256 ∧
      via_map_lines k.phys 256 1 (VIA_PGDN r.xfer.mem_addr) r.xfer r.xfer.num_lines
        r.xfer.mem_addr r.xfer.fb_addr (via_map_state_init []) = some st1 ∧
      r.vsg.descriptors = st1.descriptors ∧
      r.vsg.chain_start = st1.next ∧
      r.vsg.state = via_sg_state.dr_via_device_mapped := by
  unfold via_build_sg_info
  simp only [hv, ne_eq, not_true_eq_false, if_false]
  generalize (via_build_sg_info_validate xfer).2 = x
  generalize ({ vsg with bounce_buffer := false, state := via_sg_state.dr_via_sg_init } :
    drm_via_sg_info_t) = vsgI
  obtain ⟨hl1, hl2⟩ := via_lock_all_dma_pages_ok k vsgI x hk
  rcases hL : via_lock_all_dma_pages k vsgI x with ⟨retL, vsgL, evL⟩
  rw [hL] at hl1 hl2
  simp only at hl1 hl2
  subst hl1
  simp only [if_false]
  obtain ⟨vsg0, -, -, e0, -, h00, hn0, -, -⟩ := via_map_blit_for_device_fields k.phys x vsgL
  rw [e0]
  simp only []
  obtain ⟨ha1, ha2, ha3, ha4, ha5, ha6⟩ := via_alloc_desc_pages_ok k vsg0 hk
  rcases hA : via_alloc_desc_pages k vsg0 with ⟨retA, vsgA, evA⟩
  rw [hA] at ha1 ha2 ha3 ha4 ha5 ha6
  simp only at ha1 ha2 ha3 ha4 ha5 ha6
  subst ha1
  simp only [if_false]
  obtain ⟨vsg0', vsg1, st1, -, e1, -, hn0', h11, hrun, -⟩ :=
    via_map_blit_for_device_fields k.phys x vsgA
  rw [e1]
  refine ⟨_, st1, rfl, rfl, rfl, ?_⟩
  simp only []
  rw [ha2, ha4] at hrun
  have hnp : vsg0.num_pages = vsgL.num_pages := by rw [h00]
  have hnd : vsg1.num_desc = vsg0.num_desc := by rw [h11, hn0', hn0]
  have hdp : vsg1.descriptors_per_page = 256 := by rw [h11]; exact ha2
  have hndp : vsg1.num_desc_pages = (vsg0.num_desc + 256 - 1) / 256 := by rw [h11]; exact ha3
  have hpg : vsg1.num_pages = vsgA.num_pages := by rw [h11]
  have hds : vsg1.descriptors = st1.descriptors := by rw [h11]
  have hcs : vsg1.chain_start = st1.next := by rw [h11]
  have hst : vsg1.state = via_sg_state.dr_via_device_mapped := by rw [h11]
  refine ⟨?_, ?_, hdp, ?_, hrun, hds, hcs, hst⟩
  · rw [hpg, ha5, hnp, hl2]
  · rw [hnd, hn0]
  · rw [hndp, hnd]
theorem via_collapse_addresses (xfer : drm_via_dmablit_t) :
    (via_collapse xfer).mem_addr = xfer.mem_addr ∧ (via_collapse xfer).fb_addr = xfer.fb_addr ∧
    (via_collapse xfer).flags = xfer.flags ∧ (via_collapse xfer).to_fb = xfer.to_fb := by
  unfold via_collapse
  split <;> exact ⟨rfl, rfl, rfl, rfl⟩

theorem via_collapse_of_not (xfer : drm_via_dmablit_t)
    (h : ¬ (xfer.mem_stride = xfer.line_length ∧ xfer.fb_stride = xfer.line_length)) :
    via_collapse xfer = xfer := by
  unfold via_collapse
  rw [if_neg h]

theorem via_build_sg_info_validate_xfer (xfer : drm_via_dmablit_t) :
    ((via_zero_size xfer ∨ via_stride_gap_too_large xfer) →
      via_build_sg_info_validate xfer = (-EINVAL, xfer)) ∧
    (¬ (via_zero_size xfer ∨ via_stride_gap_too_large xfer) →
      (via_build_sg_info_validate xfer).2 = via_collapse xfer) := by
  unfold via_build_sg_info_validate
  simp only []
  constructor
  · intro h
    split_ifs <;> first | rfl | tauto
  · intro h
    split_ifs <;> first | rfl | tauto

/-- C9 (amended): `via_build_sg_info` returns, and whenever it returns `-EINVAL`
no resource was acquired, the info is the one passed in with the state set to
`dr_via_sg_init` and the bounce buffer pointer cleared, and the request keeps
its addresses, flags and direction; its geometry fields are those on entry when
the zero-size or the stride-gap check rejected it or when one of the strides
differs from the line length, and otherwise those of the single-line collapse of
the geometry on entry. -/
theorem via_build_sg_info_einval_no_resources (k : via_kernel) (vsg : drm_via_sg_info_t)
    (xfer : drm_via_dmablit_t) :
    ∃ r, via_build_sg_info k vsg xfer = some r ∧
      (r.ret = -EINVAL →
        r.events = [] ∧
        r.vsg.state = via_sg_state.dr_via_sg_init ∧
        r.vsg = { vsg with bounce_buffer := false, state := via_sg_state.dr_via_sg_init } ∧
        r.xfer.mem_addr = xfer.mem_addr ∧ r.xfer.fb_addr = xfer.fb_addr ∧
        r.xfer.flags = xfer.flags ∧ r.xfer.to_fb = xfer.to_fb ∧
        ((via_zero_size xfer ∨ via_stride_gap_too_large xfer) → r.xfer = xfer) ∧
        (¬ (xfer.mem_stride = xfer.line_length ∧ xfer.fb_stride = xfer.line_length) →
          r.xfer = xfer) ∧
        (¬ (via_zero_size xfer ∨ via_stride_gap_too_large xfer) → r.xfer = via_collapse xfer)) := by
  obtain ⟨r, hr, hx, hne, heq⟩ := via_build_sg_info_returns k vsg xfer
  refine ⟨r, hr, fun hret => ?_⟩
  have hv : (via_build_sg_info_validate xfer).1 ≠ 0 := by
    intro h0
    rcases heq h0 with h | h | h <;> rw [h] at hret <;> revert hret <;> decide
  obtain ⟨-, hev, hvsg⟩ := hne hv
  obtain ⟨hrej, hacc⟩ := via_build_sg_info_validate_xfer xfer
  have hcol := via_collapse_addresses xfer
  have hsame : (via_zero_size xfer ∨ via_stride_gap_too_large xfer) → r.xfer = xfer := by
    intro h
    rw [hx, hrej h]
  have hcoll : ¬ (via_zero_size xfer ∨ via_stride_gap_too_large xfer) →
      r.xfer = via_collapse xfer := by
    intro h
    rw [hx, hacc h]
  refine ⟨hev, ?_, hvsg, ?_, ?_, ?_, ?_, hsame, ?_, hcoll⟩
  · rw [hvsg]
  · by_cases h : via_zero_size xfer ∨ via_stride_gap_too_large xfer
    · rw [hsame h]
    · rw [hcoll h]; exact hcol.1
  · by_cases h : via_zero_size xfer ∨ via_stride_gap_too_large xfer
    · rw [hsame h]
    · rw [hcoll h]; exact hcol.2.1
  · by_cases h : via_zero_size xfer ∨ via_stride_gap_too_large xfer
    · rw [hsame h]
    · rw [hcoll h]; exact hcol.2.2.1
  · by_cases h : via_zero_size xfer ∨ via_stride_gap_too_large xfer
    · rw [hsame h]
    · rw [hcoll h]; exact hcol.2.2.2
  · intro hnc
    by_cases h : via_zero_size xfer ∨ via_stride_gap_too_large xfer
    · exact hsame h
    · rw [hcoll h]; exact via_collapse_of_not xfer hnc

/-- Witness for `via_build_sg_info_einval_no_resources`: the contiguous 32 MiB
request is rejected with `-EINVAL`, nothing was acquired, and the request is
left collapsed. -/
theorem via_build_sg_info_einval_no_resources_witness :
    ∃ r, via_build_sg_info via_kernel_ok via_sg_info_zero via_xfer_contiguous_32M = some r ∧
      r.ret = -EINVAL ∧ r.events = [] ∧ r.vsg.state = via_sg_state.dr_via_sg_init ∧
      r.xfer.mem_addr = 0x10000 ∧ r.xfer = via_collapse via_xfer_contiguous_32M := by
  obtain ⟨r, hr, h⟩ :=
    via_build_sg_info_einval_no_resources via_kernel_ok via_sg_info_zero via_xfer_contiguous_32M
  have hret : (via_build_sg_info via_kernel_ok via_sg_info_zero via_xfer_contiguous_32M).map
      (fun r => r.ret) = some (-EINVAL) := by decide
  rw [hr] at hret
  have hret := Option.some.inj hret
  obtain ⟨h1, h2, -, h4, -, -, -, -, -, h10⟩ := h hret
  exact ⟨r, hr, hret, h1, h2, h4, h10 (by decide)⟩

/-- C4 (amended): for a request with both strides equal to the line length `L`
and `L * N < 2 ^ 32` that validation accepts and whose kernel calls succeed,
`via_build_sg_info` returns 0 with the geometry collapsed to one line of `L * N`
bytes, and `num_desc` is the number of pages that these bytes touch from the
source address on, `⌈(VIA_PGOFF(mem_addr) + L * N) / PAGE_SIZE⌉`; this is
`⌈L * N / PAGE_SIZE⌉` for a page-aligned source address and otherwise that
number or one more. -/
theorem via_build_sg_info_contiguous_num_desc (k : via_kernel) (vsg : drm_via_sg_info_t)
    (xfer : drm_via_dmablit_t) (hk : k.succeeds)
    (hms : xfer.mem_stride = xfer.line_length) (hfs : xfer.fb_stride = xfer.line_length)
    (hno : xfer.line_length * xfer.num_lines < 2 ^ 32)
    (hv : (via_build_sg_info_validate xfer).1 = 0) :
    ∃ r, via_build_sg_info k vsg xfer = some r ∧ r.ret = 0 ∧
      r.xfer.num_lines = 1 ∧
      r.xfer.line_length = xfer.line_length * xfer.num_lines ∧
      r.vsg.num_desc =
        VIA_PFN (xfer.mem_addr + xfer.line_length * xfer.num_lines - 1) -
          VIA_PFN xfer.mem_addr + 1 ∧
      r.vsg.num_desc =
        (VIA_PGOFF xfer.mem_addr + xfer.line_length * xfer.num_lines + PAGE_SIZE - 1) /
          PAGE_SIZE ∧
      (VIA_PGOFF xfer.mem_addr = 0 →
        r.vsg.num_desc = (xfer.line_length * xfer.num_lines + PAGE_SIZE - 1) / PAGE_SIZE) ∧
      (xfer.line_length * xfer.num_lines + PAGE_SIZE - 1) / PAGE_SIZE ≤ r.vsg.num_desc ∧
      r.vsg.num_desc ≤ (xfer.line_length * xfer.num_lines + PAGE_SIZE - 1) / PAGE_SIZE + 1 := by
  obtain ⟨r, -, hr, hret, hx, -, hnd, -⟩ := via_build_sg_info_ok k vsg xfer hk hv
  have hnz : ¬ (via_zero_size xfer ∨ via_stride_gap_too_large xfer) := by
    intro h
    rw [(via_build_sg_info_validate_xfer xfer).1 h] at hv
    have hE : (-EINVAL : Int) ≠ 0 := by decide
    exact hE hv
  rw [(via_build_sg_info_validate_xfer xfer).2 hnz] at hx
  have hcol : via_collapse xfer = { xfer with
      mem_stride := xfer.line_length * xfer.num_lines
      line_length := xfer.line_length * xfer.num_lines
      fb_stride := xfer.line_length * xfer.num_lines
      num_lines := 1 } := by
    unfold via_collapse
    rw [if_pos ⟨hms, hfs⟩]
    simp only [hms, mul32, U32, Nat.mod_eq_of_lt hno]
  rw [hcol] at hx
  have hpos : 1 ≤ xfer.line_length * xfer.num_lines := by
    have h1 : ¬ via_zero_size xfer := fun h => hnz (Or.inl h)
    unfold via_zero_size at h1
    have h2 : 1 ≤ xfer.line_length := by omega
    have h3 : 1 ≤ xfer.num_lines := by omega
    exact Nat.mul_le_mul h2 h3
  have hne : xfer.line_length * xfer.num_lines ≠ 0 := by omega
  rw [hx] at hnd
  simp only [Finset.sum_range_one, Nat.zero_mul, Nat.add_zero, line_descriptors, if_neg hne,
    pages_touched] at hnd
  refine ⟨r, hr, hret, ?_, ?_, hnd, ?_, ?_, ?_, ?_⟩
  · rw [hx]
  · rw [hx]
  all_goals
    rw [hnd]
    simp only [VIA_PFN_eq, VIA_PGOFF_eq, PAGE_SIZE_eq]
    omega

/-- Witness for `via_build_sg_info_contiguous_num_desc`: the contiguous 32-byte
request that starts 16 bytes before a page boundary. -/
theorem via_build_sg_info_contiguous_num_desc_witness :
    ∃ r, via_build_sg_info via_kernel_ok via_sg_info_zero via_xfer_straddling = some r ∧
      r.ret = 0 ∧ r.xfer.num_lines = 1 ∧ r.xfer.line_length = 32 * 1 ∧
      r.vsg.num_desc = VIA_PFN (0x10ff0 + 32 * 1 - 1) - VIA_PFN 0x10ff0 + 1 ∧
      r.vsg.num_desc = (VIA_PGOFF 0x10ff0 + 32 * 1 + PAGE_SIZE - 1) / PAGE_SIZE ∧
      (VIA_PGOFF 0x10ff0 = 0 → r.vsg.num_desc = (32 * 1 + PAGE_SIZE - 1) / PAGE_SIZE) ∧
      (32 * 1 + PAGE_SIZE - 1) / PAGE_SIZE ≤ r.vsg.num_desc ∧
      r.vsg.num_desc ≤ (32 * 1 + PAGE_SIZE - 1) / PAGE_SIZE + 1 :=
  via_build_sg_info_contiguous_num_desc via_kernel_ok via_sg_info_zero via_xfer_straddling
    ⟨rfl, rfl, rfl, fun _ => rfl⟩ (by decide) (by decide) (by decide) (by decide)

/-! ### The populate pass: what is stored -/

/-- The store made for one segment: the fields of the descriptor and the place
it goes to. -/
theorem via_map_store_descriptors (phys : via_phys) (dpp first_addr cur_mem cur_fb rem : Nat)
    (st : via_map_state) :
    ∃ w, (via_map_store phys dpp first_addr cur_mem cur_fb rem st).descriptors =
        w :: st.descriptors ∧
      w.desc_page = st.cur_descriptor_page ∧
      w.desc_index = st.num_descriptors_this_page ∧
      w.page_index = VIA_PFN cur_mem - VIA_PFN first_addr ∧
      w.desc.mem_addr = (phys.page_phys (VIA_PFN cur_mem - VIA_PFN first_addr) +
        VIA_PGOFF cur_mem) % U32 ∧
      w.desc.dev_addr = cur_fb ∧
      w.desc.size = rem ∧
      w.desc.next = st.next % U32 := by
  unfold via_map_store
  simp only []
  split <;> exact ⟨_, rfl, rfl, rfl, rfl, rfl, rfl, rfl, rfl⟩

theorem via_map_line_zero (phys : via_phys) (dpp mode first_addr fuel cur_mem cur_fb : Nat)
    (st : via_map_state) :
    via_map_line phys dpp mode first_addr fuel 0 cur_mem cur_fb st = some st := by
  cases fuel <;> simp [via_map_line]

/-- The most recent store of a non-empty line of the populate pass reads the
page array at the page of the last byte of the line. -/
theorem via_map_line_last_store (phys : via_phys) (dpp first_addr : Nat) :
    ∀ (fuel line_len cur_mem cur_fb : Nat) (st : via_map_state), 1 ≤ line_len →
      line_len ≤ fuel →
      ∃ st' w rest, via_map_line phys dpp 1 first_addr fuel line_len cur_mem cur_fb st = some st' ∧
        st'.descriptors = w :: rest ∧
        w.page_index = VIA_PFN (cur_mem + line_len - 1) - VIA_PFN first_addr := by
  intro fuel
  induction fuel with
  | zero => intro line_len cur_mem cur_fb st h1 h2; omega
  | succ fuel ih =>
    intro line_len cur_mem cur_fb st h1 h2
    have hpos : line_len > 0 := by omega
    rw [via_map_line, if_pos hpos]
    simp only [PAGE_SIZE_eq, VIA_PGOFF_eq, if_true]
    have hmod := Nat.mod_lt cur_mem (show 4096 > 0 by decide)
    by_cases hlast : line_len - min (4096 - cur_mem % 4096) line_len = 0
    · rw [hlast, via_map_line_zero]
      obtain ⟨w, hw, -, -, hpi, -⟩ := via_map_store_descriptors phys dpp first_addr cur_mem cur_fb
        (min (4096 - cur_mem % 4096) line_len) st
      refine ⟨_, w, st.descriptors, rfl, hw, ?_⟩
      rw [hpi, VIA_PFN_eq, VIA_PFN_eq, VIA_PFN_eq]
      congr 1
      omega
    · obtain ⟨st', w, rest, hrun, hd, hpi⟩ :=
        ih (line_len - min (4096 - cur_mem % 4096) line_len)
          (cur_mem + min (4096 - cur_mem % 4096) line_len)
          (add32 cur_fb (min (4096 - cur_mem % 4096) line_len))
          { via_map_store phys dpp first_addr cur_mem cur_fb
              (min (4096 - cur_mem % 4096) line_len) st with
            num_desc := (via_map_store phys dpp first_addr cur_mem cur_fb
              (min (4096 - cur_mem % 4096) line_len) st).num_desc + 1 }
          (by omega) (by omega)
      refine ⟨st', w, rest, hrun, hd, ?_⟩
      rw [hpi]
      congr 2
      omega

/-- The most recent store of the populate pass over at least one non-empty line
reads the page array at the page of the last byte of the last line. -/
theorem via_map_lines_last_store (phys : via_phys) (dpp first_addr : Nat)
    (xfer : drm_via_dmablit_t) (hL : 1 ≤ xfer.line_length) :
    ∀ (lines mem_addr fb_addr : Nat) (st : via_map_state),
      ∃ st' w rest,
        via_map_lines phys dpp 1 first_addr xfer (lines + 1) mem_addr fb_addr st = some st' ∧
        st'.descriptors = w :: rest ∧
        w.page_index =
          VIA_PFN (mem_addr + lines * xfer.mem_stride + xfer.line_length - 1) -
            VIA_PFN first_addr := by
  intro lines
  induction lines with
  | zero =>
    intro mem_addr fb_addr st
    obtain ⟨st', w, rest, hrun, hd, hpi⟩ :=
      via_map_line_last_store phys dpp first_addr xfer.line_length xfer.line_length mem_addr
        fb_addr st hL (le_refl _)
    refine ⟨st', w, rest, ?_, hd, ?_⟩
    · rw [via_map_lines, hrun]
      simp only [via_map_lines]
    · rw [hpi]; simp
  | succ lines ih =>
    intro mem_addr fb_addr st
    obtain ⟨st1, h1, -⟩ :=
      via_map_line_num_desc phys dpp 1 first_addr xfer.line_length xfer.line_length
        mem_addr fb_addr st (le_refl _)
    obtain ⟨st', w, rest, hrun, hd, hpi⟩ :=
      ih (mem_addr + xfer.mem_stride) (add32 fb_addr xfer.fb_stride) st1
    refine ⟨st', w, rest, ?_, hd, ?_⟩
    · rw [via_map_lines, h1]
      exact hrun
    · rw [hpi]
      congr 3
      ring

/-- C6 (code evaluated at the failing input): the request of 2048 lines with
memory stride and line length `2 ^ 21 + 16` passes validation because the
product `num_lines * mem_stride` wraps to 32768; `via_lock_all_dma_pages` gets
`num_pages = 8`, and the populate pass stores a descriptor for which it reads
the page array at index 1048583. -/
theorem via_build_sg_info_page_index_out_of_range :
    via_xfer_wrapping_size.wf ∧
    ∃ r w, via_build_sg_info via_kernel_ok via_sg_info_zero via_xfer_wrapping_size = some r ∧
      r.ret = 0 ∧ r.vsg.num_pages = 8 ∧ w ∈ r.vsg.descriptors ∧ w.page_index = 1048583 ∧
      r.vsg.num_pages ≤ w.page_index := by
  refine ⟨by decide, ?_⟩
  have hv : via_build_sg_info_validate via_xfer_wrapping_size = (0, via_xfer_wrapping_size) := by
    decide
  obtain ⟨r, st1, hr, hret, hx, hnp, -, -, -, hrun, hds, -⟩ :=
    via_build_sg_info_ok via_kernel_ok via_sg_info_zero via_xfer_wrapping_size
      ⟨rfl, rfl, rfl, fun _ => rfl⟩ (by rw [hv])
  rw [hv] at hx
  simp only at hx
  rw [hx] at hnp hrun
  obtain ⟨st', w, rest, hrun', hd, hpi⟩ :=
    via_map_lines_last_store via_kernel_ok.phys 256 (VIA_PGDN via_xfer_wrapping_size.mem_addr)
      via_xfer_wrapping_size (by decide) 2047 via_xfer_wrapping_size.mem_addr
      via_xfer_wrapping_size.fb_addr (via_map_state_init [])
  have hN : via_xfer_wrapping_size.num_lines = 2047 + 1 := by decide
  rw [hN, hrun'] at hrun
  have hst : st' = st1 := Option.some.inj hrun
  have hnp8 : r.vsg.num_pages = 8 := by rw [hnp]; decide
  have hpi' : w.page_index = 1048583 := by rw [hpi]; decide
  refine ⟨r, w, hr, hret, hnp8, ?_, hpi', ?_⟩
  · rw [hds, ← hst, hd]
    exact List.mem_cons_self _ _
  · rw [hnp8, hpi']
    decide

/-! ### The populate pass: the chain -/

/-- Every store of a line of the populate pass reads the page array at the page
of a byte of that line. -/
theorem via_map_line_page_indices (phys : via_phys) (dpp first_addr : Nat) :
    ∀ (fuel line_len cur_mem cur_fb : Nat) (st st' : via_map_state),
      via_map_line phys dpp 1 first_addr fuel line_len cur_mem cur_fb st = some st' →
      ∀ w ∈ st'.descriptors, w ∈ st.descriptors ∨
        ∃ m, cur_mem ≤ m ∧ m < cur_mem + line_len ∧
          w.page_index = VIA_PFN m - VIA_PFN first_addr := by
  intro fuel
  induction fuel with
  | zero =>
    intro line_len cur_mem cur_fb st st' hrun w hw
    rw [via_map_line] at hrun
    split at hrun
    · exact absurd hrun (by simp)
    · rw [← Option.some.inj hrun] at hw; exact Or.inl hw
  | succ fuel ih =>
    intro line_len cur_mem cur_fb st st' hrun w hw
    rw [via_map_line] at hrun
    split at hrun
    · rename_i hpos
      simp only [if_true, PAGE_SIZE_eq, VIA_PGOFF_eq] at hrun
      have hmod := Nat.mod_lt cur_mem (show 4096 > 0 by decide)
      obtain ⟨w0, hw0, -, -, hpi, -⟩ := via_map_store_descriptors phys dpp first_addr cur_mem
        cur_fb (min (4096 - cur_mem % 4096) line_len) st
      rcases ih _ _ _ _ _ hrun w hw with h | ⟨m, hm1, hm2, hm3⟩
      · simp only [hw0, List.mem_cons] at h
        rcases h with h | h
        · exact Or.inr ⟨cur_mem, le_refl _, by omega, by rw [h, hpi]⟩
        · exact Or.inl h
      · exact Or.inr ⟨m, by omega, by omega, hm3⟩
    · rw [← Option.some.inj hrun] at hw; exact Or.inl hw

/-- Every store of the populate pass reads the page array at the page of a byte
of one of the lines. -/
theorem via_map_lines_page_indices (phys : via_phys) (dpp first_addr : Nat)
    (xfer : drm_via_dmablit_t) :
    ∀ (lines mem_addr fb_addr : Nat) (st st' : via_map_state),
      via_map_lines phys dpp 1 first_addr xfer lines mem_addr fb_addr st = some st' →
      ∀ w ∈ st'.descriptors, w ∈ st.descriptors ∨
        ∃ i m, i < lines ∧ mem_addr + i * xfer.mem_stride ≤ m ∧
          m < mem_addr + i * xfer.mem_stride + xfer.line_length ∧
          w.page_index = VIA_PFN m - VIA_PFN first_addr := by
  intro lines
  induction lines with
  | zero =>
    intro mem_addr fb_addr st st' hrun w hw
    rw [via_map_lines] at hrun
    rw [← Option.some.inj hrun] at hw; exact Or.inl hw
  | succ lines ih =>
    intro mem_addr fb_addr st st' hrun w hw
    rw [via_map_lines] at hrun
    split at hrun
    · exact absurd hrun (by simp)
    · rename_i st1 h1
      rcases ih _ _ _ _ hrun w hw with h | ⟨i, m, hi, hm1, hm2, hm3⟩
      · rcases via_map_line_page_indices phys dpp first_addr _ _ _ _ _ _ h1 w h with
          h | ⟨m, hm1, hm2, hm3⟩
        · exact Or.inl h
        · exact Or.inr ⟨0, m, by omega, by simpa using hm1, by simpa using hm2, hm3⟩
      · refine Or.inr ⟨i + 1, m, by omega, ?_, ?_, hm3⟩
        · rw [Nat.add_mul, Nat.one_mul]; omega
        · rw [Nat.add_mul, Nat.one_mul]; omega

/-- What validation establishes about the geometry it accepts. -/
theorem via_build_sg_info_validate_accepts (xfer : drm_via_dmablit_t)
    (hv : (via_build_sg_info_validate xfer).1 = 0) :
    ¬ via_zero_size xfer ∧ ¬ via_stride_gap_too_large xfer ∧
    (via_build_sg_info_validate xfer).2 = via_collapse xfer ∧
    ¬ via_too_large (via_collapse xfer) ∧ ¬ via_bad_stride (via_collapse xfer) ∧
    ¬ via_bad_alignment (via_collapse xfer) ∧ 1 ≤ (via_collapse xfer).num_lines := by
  have hE : (-EINVAL : Int) ≠ 0 := by decide
  unfold via_build_sg_info_validate at hv ⊢
  simp only [] at hv ⊢
  split_ifs at hv ⊢ with h1 h2 h3 h4 h5
  all_goals first
    | exact absurd hv hE
    | skip
  refine ⟨h1, h2, rfl, h3, h4, h5, ?_⟩
  unfold via_collapse
  unfold via_zero_size at h1
  split
  · exact le_refl _
  · omega

/-- Without wraparound of `num_lines * mem_stride` the populate pass of an
accepted request reads the page array only at indices below `num_pages`. -/
theorem via_build_sg_info_page_index_in_range (k : via_kernel) (vsg : drm_via_sg_info_t)
    (xfer : drm_via_dmablit_t) (hk : k.succeeds)
    (hv : (via_build_sg_info_validate xfer).1 = 0)
    (hnw : (via_collapse xfer).num_lines * (via_collapse xfer).mem_stride < 2 ^ 32) :
    ∃ r, via_build_sg_info k vsg xfer = some r ∧ r.ret = 0 ∧
      ∀ w ∈ r.vsg.descriptors, w.page_index < r.vsg.num_pages := by
  obtain ⟨-, -, hx', -, hstride, -, hN⟩ := via_build_sg_info_validate_accepts xfer hv
  obtain ⟨r, st1, hr, hret, hx, hnp, -, -, -, hrun, hds, -⟩ :=
    via_build_sg_info_ok k vsg xfer hk hv
  rw [hx'] at hx
  refine ⟨r, hr, hret, fun w hw => ?_⟩
  rw [hds] at hw
  rw [hx] at hnp hrun
  rcases via_map_lines_page_indices _ _ _ _ _ _ _ _ _ hrun w hw with h | ⟨i, m, hi, hm1, hm2, hm3⟩
  · simp [via_map_state_init] at h
  · unfold via_bad_stride at hstride
    have hs : (via_collapse xfer).line_length ≤ (via_collapse xfer).mem_stride := by omega
    have hmul : (i + 1) * (via_collapse xfer).mem_stride ≤
        (via_collapse xfer).num_lines * (via_collapse xfer).mem_stride :=
      Nat.mul_le_mul_right _ (by omega)
    rw [Nat.add_mul, Nat.one_mul] at hmul
    rw [hnp, hm3]
    simp only [VIA_PFN_eq, VIA_PGDN_eq, mul32, sub32, U32, Nat.mod_eq_of_lt hnw] at *
    omega

/-- Without wraparound in the collapse, and all other checks passing, the
stride check accepts exactly the requests whose source stride and destination
stride magnitude are at least the line length. -/
theorem via_build_sg_info_validate_stride (xfer : drm_via_dmablit_t)
    (h1 : ¬ via_zero_size xfer) (h2 : ¬ via_stride_gap_too_large xfer)
    (h3 : ¬ via_too_large (via_collapse xfer)) (h4 : ¬ via_bad_alignment (via_collapse xfer))
    (hno : xfer.line_length * xfer.num_lines < 2 ^ 32) :
    ((via_build_sg_info_validate xfer).1 = 0 ↔
      (abs32 xfer.fb_stride ≥ xfer.line_length ∧ xfer.mem_stride ≥ xfer.line_length)) ∧
    ((via_build_sg_info_validate xfer).1 = -EINVAL ↔
      (abs32 xfer.fb_stride < xfer.line_length ∨ xfer.mem_stride < xfer.line_length)) := by
  have hE : (-EINVAL : Int) ≠ 0 := by decide
  have hbad : via_bad_stride (via_collapse xfer) ↔ via_bad_stride xfer := by
    by_cases hc : xfer.mem_stride = xfer.line_length ∧ xfer.fb_stride = xfer.line_length
    · have hcol : via_collapse xfer = { xfer with
          mem_stride := xfer.line_length * xfer.num_lines
          line_length := xfer.line_length * xfer.num_lines
          fb_stride := xfer.line_length * xfer.num_lines
          num_lines := 1 } := by
        unfold via_collapse
        rw [if_pos hc]
        simp only [hc.1, mul32, U32, Nat.mod_eq_of_lt hno]
      rw [hcol] at h3 ⊢
      unfold via_zero_size at h1
      have hle : xfer.line_length ≤ xfer.line_length * xfer.num_lines :=
        Nat.le_mul_of_pos_right _ (by omega)
      simp only [via_too_large, via_bad_stride, mul32, abs32, U32, hc.1, hc.2] at *
      rw [Nat.one_mul, Nat.mod_eq_of_lt hno] at h3
      constructor
      · intro h
        rw [if_pos (by omega)] at h
        omega
      · intro h
        rw [if_pos (by omega)] at h
        omega
    · rw [via_collapse_of_not xfer hc]
  unfold via_build_sg_info_validate
  simp only [h1, h2, h3, h4, if_false]
  unfold via_bad_stride at hbad
  by_cases hb : via_bad_stride (via_collapse xfer)
  · simp only [hb, if_true]
    have := hbad.1 hb
    constructor
    · constructor
      · intro h; exact absurd h hE
      · intro h; omega
    · constructor
      · intro _; omega
      · intro _; trivial
  · simp only [hb, if_false]
    have hn : ¬ (xfer.mem_stride < xfer.line_length ∨ abs32 xfer.fb_stride < xfer.line_length) :=
      fun h => hb (hbad.2 h)
    constructor
    · constructor
      · intro _; omega
      · intro _; trivial
    · constructor
      · intro h; exact absurd h.symm hE
      · intro h; omega

/-! ### Rollback of a failed build -/

theorem via_alloc_desc_chunks_spec (k : via_kernel) :
    ∀ (n i : Nat) (chunks : List Bool),
      ∃ j, j ≤ n ∧
        (via_alloc_desc_chunks k n i chunks).2.2 =
          (List.range j).map (fun t => via_event.acquire (via_resource.desc_page (i + t))) ∧
        (∀ t, t < chunks.length → (via_alloc_desc_chunks k n i chunks).2.1.getD t false =
          (decide (i ≤ t ∧ t < i + j) || chunks.getD t false)) ∧
        ((via_alloc_desc_chunks k n i chunks).1 = true ↔ j = n) ∧
        (∀ t, t < j → k.desc_page_malloc (i + t) = true) ∧
        (j < n → k.desc_page_malloc (i + j) = false) := by
  intro n
  induction n with
  | zero =>
    intro i chunks
    refine ⟨0, le_refl _, rfl, ?_, ?_, ?_, ?_⟩
    · intro t _
      simp [via_alloc_desc_chunks]
    · simp [via_alloc_desc_chunks]
    · intro t ht; omega
    · intro h; omega
  | succ n ih =>
    intro i chunks
    by_cases hm : k.desc_page_malloc i = true
    · obtain ⟨j, hj, hev, hget, hok, hall, hfail⟩ := ih (i + 1) (chunks.set i true)
      refine ⟨j + 1, by omega, ?_, ?_, ?_, ?_, ?_⟩
      · rw [via_alloc_desc_chunks, if_pos hm]
        simp only [hev, List.range_succ_eq_map, List.map_cons, List.map_map]
        congr 1
        apply List.map_congr_left
        intro t _
        simp only [Function.comp, Nat.succ_eq_add_one]
        congr 2
        omega
      · intro t ht
        rw [via_alloc_desc_chunks, if_pos hm]
        simp only []
        rw [hget t (by simpa using ht)]
        simp only [List.getD_eq_getElem?_getD, List.getElem?_set]
        by_cases hti : i = t
        · subst hti
          simp [ht]
        · simp only [hti, if_false]
          congr 1
          apply decide_eq_decide.2
          omega
      · rw [via_alloc_desc_chunks, if_pos hm]
        simp only []
        rw [hok]
        omega
      · intro t ht
        cases t with
        | zero => simpa using hm
        | succ t =>
          have := hall t (by omega)
          rw [show i + (t + 1) = i + 1 + t by omega]
          exact this
      · intro hlt
        have := hfail (by omega)
        rw [show i + (j + 1) = i + 1 + j by omega]
        exact this
    · refine ⟨0, by omega, ?_, ?_, ?_, ?_, ?_⟩
      · rw [via_alloc_desc_chunks, if_neg hm]
        rfl
      · intro t _
        rw [via_alloc_desc_chunks, if_neg hm]
        simp
      · rw [via_alloc_desc_chunks, if_neg hm]
        simp
      · intro t ht; omega
      · intro _
        simpa using hm

theorem filterMap_range_prefix {α : Type} (f : Nat → Bool) (g : Nat → α) :
    ∀ (n j : Nat), j ≤ n → (∀ t, t < n → f t = decide (t < j)) →
      (List.range n).filterMap (fun t => if f t then some (g t) else none) =
        (List.range j).map g := by
  intro n
  induction n with
  | zero =>
    intro j hj _
    have : j = 0 := by omega
    subst this
    rfl
  | succ n ih =>
    intro j hj hf
    rw [List.range_succ, List.filterMap_append]
    by_cases hjn : j = n + 1
    · subst hjn
      rw [ih n (le_refl _) (fun t ht => by rw [hf t (by omega)]; simp; omega)]
      have : f n = true := by rw [hf n (by omega)]; simp
      simp [this, List.range_succ]
    · rw [ih j (by omega) (fun t ht => hf t (by omega))]
      have : f n = false := by rw [hf n (by omega)]; simp; omega
      simp [this]

@[simp]
theorem via_acquired_append (a b : List via_event) :
    via_acquired (a ++ b) = via_acquired a ++ via_acquired b := by
  simp [via_acquired]

@[simp]
theorem via_released_append (a b : List via_event) :
    via_released (a ++ b) = via_released a ++ via_released b := by
  simp [via_released]

@[simp]
theorem via_acquired_map_acquire (f : Nat → via_resource) (l : List Nat) :
    via_acquired (l.map (fun i => via_event.acquire (f i))) = l.map f := by
  induction l with
  | nil => rfl
  | cons x l ih => simp_all [via_acquired]

@[simp]
theorem via_released_map_acquire (f : Nat → via_resource) (l : List Nat) :
    via_released (l.map (fun i => via_event.acquire (f i))) = [] := by
  induction l with
  | nil => rfl
  | cons x l ih => simp_all [via_released]

@[simp]
theorem via_acquired_map_release (f : Nat → via_resource) (l : List Nat) :
    via_acquired (l.map (fun i => via_event.release (f i))) = [] := by
  induction l with
  | nil => rfl
  | cons x l ih => simp_all [via_acquired]

@[simp]
theorem via_released_map_release (f : Nat → via_resource) (l : List Nat) :
    via_released (l.map (fun i => via_event.release (f i))) = l.map f := by
  induction l with
  | nil => rfl
  | cons x l ih => simp_all [via_released]

@[simp]
theorem via_acquired_cons_acquire (r : via_resource) (l : List via_event) :
    via_acquired (via_event.acquire r :: l) = r :: via_acquired l := by
  simp [via_acquired]

@[simp]
theorem via_acquired_cons_release (r : via_resource) (l : List via_event) :
    via_acquired (via_event.release r :: l) = via_acquired l := by
  simp [via_acquired]

@[simp]
theorem via_released_cons_acquire (r : via_resource) (l : List via_event) :
    via_released (via_event.acquire r :: l) = via_released l := by
  simp [via_released]

@[simp]
theorem via_released_cons_release (r : via_resource) (l : List via_event) :
    via_released (via_event.release r :: l) = r :: via_released l := by
  simp [via_released]

/-- The outcomes of `via_lock_all_dma_pages` by stage. -/
theorem via_lock_all_dma_pages_stages (k : via_kernel) (vsg : drm_via_sg_info_t)
    (xfer : drm_via_dmablit_t) :
    (via_lock_all_dma_pages k vsg xfer).2.1.bounce_buffer = vsg.bounce_buffer ∧
    (k.pages_malloc = false →
      (via_lock_all_dma_pages k vsg xfer).1 = -ENOMEM ∧
      (via_lock_all_dma_pages k vsg xfer).2.1.state = vsg.state ∧
      (via_lock_all_dma_pages k vsg xfer).2.2 = []) ∧
    (k.pages_malloc = true → k.hold_pages = false →
      (via_lock_all_dma_pages k vsg xfer).1 = -EACCES ∧
      (via_lock_all_dma_pages k vsg xfer).2.1.state = via_sg_state.dr_via_pages_alloc ∧
      (via_lock_all_dma_pages k vsg xfer).2.2 = [via_event.acquire via_resource.pages_array]) ∧
    (k.pages_malloc = true → k.hold_pages = true →
      (via_lock_all_dma_pages k vsg xfer).1 = 0 ∧
      (via_lock_all_dma_pages k vsg xfer).2.1.state = via_sg_state.dr_via_pages_locked ∧
      (via_lock_all_dma_pages k vsg xfer).2.2 =
        via_event.acquire via_resource.pages_array ::
          (List.range (via_lock_all_dma_pages k vsg xfer).2.1.num_pages).map
            (fun i => via_event.acquire (via_resource.pinned_page i))) := by
  unfold via_lock_all_dma_pages
  simp only []
  refine ⟨?_, ?_, ?_, ?_⟩
  · split_ifs <;> rfl
  · intro h; simp [h]
  · intro h1 h2; simp [h1, h2]
  · intro h1 h2; simp [h1, h2]

/-- The outcomes of `via_alloc_desc_pages` by stage; `j` is the number of chunks
allocated before the first failing allocation. -/
theorem via_alloc_desc_pages_stages (k : via_kernel) (vsg : drm_via_sg_info_t) :
    (via_alloc_desc_pages k vsg).2.1.bounce_buffer = vsg.bounce_buffer ∧
    (via_alloc_desc_pages k vsg).2.1.num_pages = vsg.num_pages ∧
    (via_alloc_desc_pages k vsg).2.1.num_desc_pages = (vsg.num_desc + 256 - 1) / 256 ∧
    (k.desc_pages_malloc = false →
      (via_alloc_desc_pages k vsg).1 = -ENOMEM ∧
      (via_alloc_desc_pages k vsg).2.1.state = vsg.state ∧
      (via_alloc_desc_pages k vsg).2.2 = []) ∧
    (k.desc_pages_malloc = true →
      ∃ j, j ≤ (via_alloc_desc_pages k vsg).2.1.num_desc_pages ∧
        (via_alloc_desc_pages k vsg).2.1.state = via_sg_state.dr_via_desc_pages_alloc ∧
        (via_alloc_desc_pages k vsg).2.2 =
          via_event.acquire via_resource.desc_pages_array ::
            (List.range j).map (fun i => via_event.acquire (via_resource.desc_page i)) ∧
        ((List.range (via_alloc_desc_pages k vsg).2.1.num_desc_pages).filterMap (fun i =>
            if ((via_alloc_desc_pages k vsg).2.1.desc_pages.getD []).getD i false then
              some (via_event.release (via_resource.desc_page i))
            else none) =
          (List.range j).map (fun i => via_event.release (via_resource.desc_page i))) ∧
        ((via_alloc_desc_pages k vsg).1 = 0 ↔ j = (via_alloc_desc_pages k vsg).2.1.num_desc_pages) ∧
        ((via_alloc_desc_pages k vsg).1 ≠ 0 → (via_alloc_desc_pages k vsg).1 = -ENOMEM) ∧
        (∀ t, t < j → k.desc_page_malloc t = true) ∧
        (j < (via_alloc_desc_pages k vsg).2.1.num_desc_pages → k.desc_page_malloc j = false)) := by
  have hdpp : PAGE_SIZE / sizeof_descriptor = 256 := by decide
  have hE : (-ENOMEM : Int) ≠ 0 := by decide
  unfold via_alloc_desc_pages
  simp only [hdpp]
  generalize (vsg.num_desc + 256 - 1) / 256 = N
  obtain ⟨j, hj, hev, hget, hok, hall, hfail⟩ :=
    via_alloc_desc_chunks_spec k N 0 (List.replicate N false)
  simp only [Nat.zero_add] at hev hall hfail
  refine ⟨?_, ?_, ?_, ?_, ?_⟩
  · split_ifs <;> rfl
  · split_ifs <;> rfl
  · split_ifs <;> rfl
  · intro h; simp [h]
  · intro h
    simp only [h, Bool.not_true, Bool.false_eq_true, if_false]
    refine ⟨j, ?_, ?_, ?_, ?_, ?_, ?_, ?_, ?_⟩
    · split_ifs <;> exact hj
    · split_ifs <;> rfl
    · split_ifs <;> simp only [hev]
    · have hfm := filterMap_range_prefix
        (fun i => (via_alloc_desc_chunks k N 0 (List.replicate N false)).2.1.getD i false)
        (fun i => via_event.release (via_resource.desc_page i)) N j hj
        (fun t ht => by
          beta_reduce
          rw [hget t (by simpa using ht)]
          simp [List.getD_eq_getElem?_getD, ht])
      split_ifs <;> simpa using hfm
    · split_ifs with hc
      · simp only [true_iff]
        exact hok.1 hc
      · constructor
        · intro h0; exact absurd h0 hE
        · intro hjn; exact absurd (hok.2 hjn) hc
    · split_ifs with hc
      · intro h0; exact absurd rfl h0
      · intro _; rfl
    · exact hall
    · intro hlt
      have : j < N := by
        split_ifs at hlt <;> exact hlt
      exact hfail this

/-- What `via_free_sg_info` releases, by lifecycle state, and what it leaves. -/
theorem via_free_sg_info_spec (vsg : drm_via_sg_info_t) :
    (via_free_sg_info vsg).1.state = via_sg_state.dr_via_sg_init ∧
    (via_free_sg_info vsg).1.bounce_buffer = false ∧
    (via_free_sg_info vsg).1.num_pages = vsg.num_pages ∧
    (via_free_sg_info vsg).1.num_desc_pages = vsg.num_desc_pages ∧
    (vsg.bounce_buffer = false →
      (vsg.state = via_sg_state.dr_via_sg_init → (via_free_sg_info vsg).2 = []) ∧
      (vsg.state = via_sg_state.dr_via_pages_alloc →
        (via_free_sg_info vsg).2 = [via_event.release via_resource.pages_array]) ∧
      (vsg.state = via_sg_state.dr_via_pages_locked →
        (via_free_sg_info vsg).2 =
          (List.range vsg.num_pages).map (fun i => via_event.release (via_resource.pinned_page i))
            ++ [via_event.release via_resource.pages_array]) ∧
      (vsg.state = via_sg_state.dr_via_desc_pages_alloc →
        (via_free_sg_info vsg).2 =
          (List.range vsg.num_desc_pages).filterMap (fun i =>
            if (vsg.desc_pages.getD []).getD i false then
              some (via_event.release (via_resource.desc_page i))
            else none) ++ [via_event.release via_resource.desc_pages_array] ++
          (List.range vsg.num_pages).map (fun i => via_event.release (via_resource.pinned_page i))
            ++ [via_event.release via_resource.pages_array])) := by
  unfold via_free_sg_info
  refine ⟨rfl, rfl, rfl, rfl, fun hb => ⟨?_, ?_, ?_, ?_⟩⟩
  all_goals
    intro hs
    simp [hs, hb, via_sg_state.level]

theorem via_resources_nodup (p j : Nat) :
    (via_resource.pages_array ::
      ((List.range p).map (fun i => via_resource.pinned_page i) ++
        via_resource.desc_pages_array ::
          (List.range j).map (fun i => via_resource.desc_page i))).Nodup := by
  have h1 : ((List.range p).map (fun i => via_resource.pinned_page i)).Nodup :=
    (List.nodup_range p).map (fun a b h => by injection h)
  have h2 : ((List.range j).map (fun i => via_resource.desc_page i)).Nodup :=
    (List.nodup_range j).map (fun a b h => by injection h)
  rw [List.nodup_cons]
  constructor
  · simp
  · rw [List.nodup_append]
    refine ⟨h1, ?_, ?_⟩
    · rw [List.nodup_cons]
      exact ⟨by simp, h2⟩
    · intro a ha hb
      simp only [List.mem_map, List.mem_range, List.mem_cons] at ha hb
      obtain ⟨i, -, rfl⟩ := ha
      rcases hb with hb | ⟨t, -, hb⟩
      · exact absurd hb (by simp)
      · exact absurd hb (by simp)

@[simp]
theorem via_acquired_nil : via_acquired [] = [] := rfl

@[simp]
theorem via_released_nil : via_released [] = [] := rfl

theorem perm_rollback {α : Type} (A B : List α) (a b : α) :
    (B ++ b :: (A ++ [a])).Perm (a :: (A ++ b :: B)) := by
  have h1 : (B ++ b :: (A ++ [a])).Perm (b :: (A ++ [a]) ++ B) := List.perm_append_comm
  have h2 : (b :: (A ++ [a]) ++ B).Perm (a :: (A ++ b :: B)) := by
    have h3 : (b :: (A ++ [a]) ++ B).Perm (b :: B ++ (A ++ [a])) := by
      have := @List.perm_append_comm _ (A ++ [a]) B
      simpa using this.cons b
    refine h3.trans ?_
    have h4 : (b :: B ++ (A ++ [a])).Perm ((b :: B ++ A) ++ [a]) := by
      simp
    refine h4.trans ?_
    refine (List.perm_append_singleton a (b :: B ++ A)).trans ?_
    refine List.Perm.cons a ?_
    exact List.perm_append_comm
  exact h1.trans h2

/-- C11: for an accepted request and any outcome of the kernel calls,
`via_build_sg_info` returns; when it fails, the resources released by its
`via_free_sg_info` call are exactly the resources acquired before the failure,
each once, the state is `dr_via_sg_init`, and a further `via_free_sg_info`
releases nothing. By stage: a failing allocation of the page array has acquired
nothing; failing page pinning, the page array; a failing allocation of the chunk
array, the page array and the `num_pages` pinned pages; a failing allocation of
chunk `j`, in addition the chunk array and the chunks before `j`. -/
theorem via_build_sg_info_rollback (k : via_kernel) (vsg : drm_via_sg_info_t)
    (xfer : drm_via_dmablit_t) (hv : (via_build_sg_info_validate xfer).1 = 0) :
    ∃ r, via_build_sg_info k vsg xfer = some r ∧
      (r.ret ≠ 0 →
        r.vsg.state = via_sg_state.dr_via_sg_init ∧
        (via_released r.events).Perm (via_acquired r.events) ∧
        (via_acquired r.events).Nodup ∧
        (via_free_sg_info r.vsg).2 = [] ∧
        (via_free_sg_info r.vsg).1.state = via_sg_state.dr_via_sg_init) ∧
      (k.pages_malloc = false → r.ret = -ENOMEM ∧ via_acquired r.events = []) ∧
      (k.pages_malloc = true → k.hold_pages = false →
        r.ret = -EACCES ∧ via_acquired r.events = [via_resource.pages_array]) ∧
      (k.pages_malloc = true → k.hold_pages = true → k.desc_pages_malloc = false →
        r.ret = -ENOMEM ∧
        via_acquired r.events = via_resource.pages_array ::
          (List.range r.vsg.num_pages).map (fun i => via_resource.pinned_page i)) ∧
      (k.pages_malloc = true → k.hold_pages = true → k.desc_pages_malloc = true →
        ∀ j, j < r.vsg.num_desc_pages → (∀ t, t < j → k.desc_page_malloc t = true) →
          k.desc_page_malloc j = false →
          r.ret = -ENOMEM ∧
          via_acquired r.events = via_resource.pages_array ::
            ((List.range r.vsg.num_pages).map (fun i => via_resource.pinned_page i) ++
              via_resource.desc_pages_array ::
                (List.range j).map (fun i => via_resource.desc_page i))) := by
  have hE1 : (-ENOMEM : Int) ≠ 0 := by decide
  have hE2 : (-EACCES : Int) ≠ 0 := by decide
  unfold via_build_sg_info
  simp only [hv, ne_eq, not_true_eq_false, if_false]
  generalize (via_build_sg_info_validate xfer).2 = x
  obtain ⟨vsgI, hI⟩ : ∃ v : drm_via_sg_info_t,
      v = { vsg with bounce_buffer := false, state := via_sg_state.dr_via_sg_init } := ⟨_, rfl⟩
  rw [← hI]
  have hIb : vsgI.bounce_buffer = false := by rw [hI]
  have hIs : vsgI.state = via_sg_state.dr_via_sg_init := by rw [hI]
  clear hI
  obtain ⟨lb, l1, l2, l3⟩ := via_lock_all_dma_pages_stages k vsgI x
  rcases hL : via_lock_all_dma_pages k vsgI x with ⟨retL, vsgL, evL⟩
  rw [hL] at lb l1 l2 l3
  simp only at lb l1 l2 l3
  rw [hIb] at lb
  obtain ⟨fL1, -, -, -, fL5⟩ := via_free_sg_info_spec vsgL
  obtain ⟨fLa, fLb, -, -⟩ := fL5 lb
  have hidem : ∀ v : drm_via_sg_info_t, (via_free_sg_info (via_free_sg_info v).1).2 = [] ∧
      (via_free_sg_info (via_free_sg_info v).1).1.state = via_sg_state.dr_via_sg_init := by
    intro v
    obtain ⟨a1, a2, -, -, -⟩ := via_free_sg_info_spec v
    obtain ⟨b1, -, -, -, b5⟩ := via_free_sg_info_spec (via_free_sg_info v).1
    exact ⟨(b5 a2).1 a1, b1⟩
  cases hpm : k.pages_malloc with
  | false =>
    obtain ⟨e1, e2, e3⟩ := l1 hpm
    subst e1 e3
    rw [hIs] at e2
    simp only [hE1, not_false_eq_true, if_true]
    refine ⟨_, rfl, ?_, ?_, ?_, ?_, ?_⟩
    · intro _
      refine ⟨fL1, ?_, ?_, (hidem vsgL).1, (hidem vsgL).2⟩
      · simp [fLa e2]
      · simp [fLa e2]
    · intro _
      simp [fLa e2]
    · intro h; exact absurd h (by simp)
    · intro h; exact absurd h (by simp)
    · intro h; exact absurd h (by simp)
  | true =>
    cases hhp : k.hold_pages with
    | false =>
      obtain ⟨e1, e2, e3⟩ := l2 hpm hhp
      subst e1 e3
      simp only [hE2, not_false_eq_true, if_true]
      refine ⟨_, rfl, ?_, ?_, ?_, ?_, ?_⟩
      · intro _
        refine ⟨fL1, ?_, ?_, (hidem vsgL).1, (hidem vsgL).2⟩
        · simp [fLb e2]
        · simp [fLb e2]
      · intro h; exact absurd h (by simp)
      · intro _ _
        simp [fLb e2]
      · intro _ h; exact absurd h (by simp)
      · intro _ h; exact absurd h (by simp)
    | true =>
      obtain ⟨e1, e2, e3⟩ := l3 hpm hhp
      subst e1
      simp only [not_true_eq_false, if_false]
      obtain ⟨vsg0, -, -, e0, -, h00, -⟩ := via_map_blit_for_device_fields k.phys x vsgL
      rw [e0]
      simp only []
      have h0s : vsg0.state = via_sg_state.dr_via_pages_locked := by rw [h00]; exact e2
      have h0b : vsg0.bounce_buffer = false := by rw [h00]; exact lb
      have h0p : vsg0.num_pages = vsgL.num_pages := by rw [h00]
      obtain ⟨ab, ap, -, a1, a2⟩ := via_alloc_desc_pages_stages k vsg0
      rcases hA : via_alloc_desc_pages k vsg0 with ⟨retA, vsgA, evA⟩
      rw [hA] at ab ap a1 a2
      simp only at ab ap a1 a2
      rw [h0b] at ab
      rw [h0p] at ap
      obtain ⟨fA1, -, fA3, fA4, fA5⟩ := via_free_sg_info_spec vsgA
      obtain ⟨-, -, fAc, fAd⟩ := fA5 ab
      have hnd0 := via_resources_nodup vsgL.num_pages
      cases hdm : k.desc_pages_malloc with
      | false =>
        obtain ⟨d1, d2, d3⟩ := a1 hdm
        subst d1 d3
        rw [h0s] at d2
        simp only [hE1, not_false_eq_true, if_true]
        refine ⟨_, rfl, ?_, ?_, ?_, ?_, ?_⟩
        · intro _
          refine ⟨fA1, ?_, ?_, (hidem vsgA).1, (hidem vsgA).2⟩
          · simp only [fAc d2, e3, ap]
            simp only [via_released_append, via_acquired_append, via_released_cons_acquire,
              via_acquired_cons_acquire, via_released_map_acquire, via_acquired_map_acquire,
              via_released_map_release, via_acquired_map_release, via_released_cons_release,
              via_acquired_cons_release, via_acquired_nil, via_released_nil, List.append_nil,
              List.nil_append, List.cons_append]
            exact List.perm_append_singleton _ _
          · simp only [fAc d2, e3, ap]
            simp only [via_acquired_append, via_acquired_cons_acquire, via_acquired_map_acquire,
              via_acquired_map_release, via_acquired_cons_release, via_acquired_nil,
              List.append_nil, List.nil_append, List.cons_append]
            have := hnd0 0
            rw [List.nodup_cons] at this ⊢
            rw [List.nodup_append] at this
            exact ⟨fun h => this.1 (List.mem_append_left _ h), this.2.1⟩
        · intro h; exact absurd h (by simp)
        · intro _ h; exact absurd h (by simp)
        · intro _ _ _
          simp [fAc d2, e3, ap, fA3]
        · intro _ _ h; exact absurd h (by simp)
      | true =>
        obtain ⟨j0, hj0, d2, d3, d4, d5, d6, d7, d8⟩ := a2 hdm
        subst d3
        by_cases hret : retA = 0
        · subst hret
          simp only [not_true_eq_false, if_false]
          obtain ⟨vsg0', vsg1, st1, -, e1, -, -, h11, -⟩ :=
            via_map_blit_for_device_fields k.phys x vsgA
          rw [e1]
          have h1p : vsg1.num_desc_pages = vsgA.num_desc_pages := by rw [h11]
          have hj0n : j0 = vsgA.num_desc_pages := d5.1 rfl
          refine ⟨_, rfl, ?_, ?_, ?_, ?_, ?_⟩
          · intro h; exact absurd rfl h
          · intro h; exact absurd h (by simp)
          · intro _ h; exact absurd h (by simp)
          · intro _ _ h; exact absurd h (by simp)
          · intro _ _ _ j hj hall hfail
            simp only [h1p] at hj
            have := d7 j (by omega)
            rw [hfail] at this
            exact absurd this (by simp)
        · have hretA := d6 hret
          subst hretA
          simp only [hE1, not_false_eq_true, if_true]
          refine ⟨_, rfl, ?_, ?_, ?_, ?_, ?_⟩
          · intro _
            refine ⟨fA1, ?_, ?_, (hidem vsgA).1, (hidem vsgA).2⟩
            · simp only [fAd d2, d4, e3, ap]
              simp only [via_released_append, via_acquired_append, via_released_cons_acquire,
                via_acquired_cons_acquire, via_released_map_acquire, via_acquired_map_acquire,
                via_released_map_release, via_acquired_map_release, via_released_cons_release,
                via_acquired_cons_release, via_acquired_nil, via_released_nil, List.append_nil,
                List.nil_append, List.cons_append, List.append_assoc]
              exact perm_rollback _ _ _ _
            · simp only [fAd d2, d4, e3, ap]
              simp only [via_acquired_append, via_acquired_cons_acquire, via_acquired_map_acquire,
                via_acquired_map_release, via_acquired_cons_release, via_acquired_nil,
                List.append_nil, List.nil_append, List.cons_append, List.append_assoc]
              exact hnd0 j0
          · intro h; exact absurd h (by simp)
          · intro _ h; exact absurd h (by simp)
          · intro _ _ h; exact absurd h (by simp)
          · intro _ _ _ j hj hall hfail
            simp only [fA4] at hj
            have hjj : j0 = j := by
              rcases Nat.lt_trichotomy j0 j with h | h | h
              · have h1 := hall j0 h
                have h2 := d8 (by omega)
                rw [h1] at h2
                exact absurd h2 (by simp)
              · exact h
              · have h1 := d7 j h
                rw [hfail] at h1
                exact absurd h1 (by simp)
            subst hjj
            simp only [fAd d2, d4, e3, ap, fA3]
            simp

/-- Witness for `via_build_sg_info_rollback`: the straddling 32-byte request
with a kernel whose first descriptor chunk allocation fails. -/
theorem via_build_sg_info_rollback_witness :
    ∃ r, via_build_sg_info via_kernel_chunk_fails via_sg_info_zero via_xfer_straddling = some r ∧
      r.ret = -ENOMEM ∧
      r.vsg.state = via_sg_state.dr_via_sg_init ∧
      (via_released r.events).Perm (via_acquired r.events) ∧
      via_acquired r.events =
        [via_resource.pages_array, via_resource.pinned_page 0, via_resource.pinned_page 1,
          via_resource.desc_pages_array] ∧
      (via_free_sg_info r.vsg).2 = [] := by
  obtain ⟨r, hr, h1, -, -, -, h5⟩ :=
    via_build_sg_info_rollback via_kernel_chunk_fails via_sg_info_zero via_xfer_straddling
      (by decide)
  have hev : (via_build_sg_info via_kernel_chunk_fails via_sg_info_zero via_xfer_straddling).map
      (fun r => (r.ret, r.vsg.num_pages, r.vsg.num_desc_pages)) = some (-ENOMEM, 2, 1) := by
    decide
  rw [hr] at hev
  simp only [Option.map_some', Option.some.injEq, Prod.mk.injEq] at hev
  obtain ⟨hret, hnp, hndp⟩ := hev
  have hne : r.ret ≠ 0 := by rw [hret]; decide
  obtain ⟨a1, a2, -, a4, -⟩ := h1 hne
  obtain ⟨-, b2⟩ := h5 rfl rfl rfl 0 (by omega) (fun t ht => by omega) rfl
  refine ⟨r, hr, hret, a1, a2, ?_, a4⟩
  rw [b2, hnp]
  rfl

/-! ### The populate pass: tiling of the lines -/

theorem via_line_tiled_sum (phys : via_phys) (first_addr : Nat) :
    ∀ (ws : List via_desc_write) (mem fb len : Nat),
      via_line_tiled phys first_addr ws mem fb len →
      (ws.map (fun w => w.desc.size)).sum = len := by
  intro ws
  induction ws with
  | nil => intro mem fb len h; simpa [via_line_tiled] using h.symm
  | cons w rest ih =>
    intro mem fb len h
    obtain ⟨-, -, hle, -, -, -, hrest⟩ := h
    have := ih _ _ _ hrest
    simp only [List.map_cons, List.sum_cons, this]
    omega

theorem via_line_fb_eq (stride : Nat) :
    ∀ (i fb : Nat), fb < 2 ^ 32 → via_line_fb fb stride i = (fb + i * stride) % 2 ^ 32 := by
  intro i
  induction i with
  | zero =>
    intro fb h
    rw [via_line_fb]
    omega
  | succ i ih =>
    intro fb h
    rw [via_line_fb, ih (add32 fb stride) (by unfold add32 U32; omega)]
    unfold add32 U32
    rw [Nat.add_mul, Nat.one_mul]
    omega

/-- The stores of one line of the populate pass tile the line. -/
theorem via_map_line_tiled (phys : via_phys) (dpp first_addr : Nat) :
    ∀ (fuel line_len cur_mem cur_fb : Nat) (st : via_map_state), line_len ≤ fuel →
      ∃ st' ws, via_map_line phys dpp 1 first_addr fuel line_len cur_mem cur_fb st = some st' ∧
        st'.descriptors = ws.reverse ++ st.descriptors ∧
        via_line_tiled phys first_addr ws cur_mem cur_fb line_len := by
  intro fuel
  induction fuel with
  | zero =>
    intro line_len cur_mem cur_fb st hle
    have h0 : line_len = 0 := by omega
    subst h0
    exact ⟨st, [], by simp [via_map_line], by simp, rfl⟩
  | succ fuel ih =>
    intro line_len cur_mem cur_fb st hle
    by_cases hz : line_len = 0
    · subst hz
      exact ⟨st, [], by simp [via_map_line], by simp, rfl⟩
    · have hpos : line_len > 0 := by omega
      rw [via_map_line, if_pos hpos]
      simp only [if_true]
      have hmod := Nat.mod_lt cur_mem (show 4096 > 0 by decide)
      obtain ⟨w, hw, -, -, hpi, hma, hda, hsz, -⟩ :=
        via_map_store_descriptors phys dpp first_addr cur_mem cur_fb
          (min (PAGE_SIZE - VIA_PGOFF cur_mem) line_len) st
      obtain ⟨st', ws, hrun, hd, ht⟩ :=
        ih (line_len - min (PAGE_SIZE - VIA_PGOFF cur_mem) line_len)
          (cur_mem + min (PAGE_SIZE - VIA_PGOFF cur_mem) line_len)
          (add32 cur_fb (min (PAGE_SIZE - VIA_PGOFF cur_mem) line_len))
          { via_map_store phys dpp first_addr cur_mem cur_fb
              (min (PAGE_SIZE - VIA_PGOFF cur_mem) line_len) st with
            num_desc := (via_map_store phys dpp first_addr cur_mem cur_fb
              (min (PAGE_SIZE - VIA_PGOFF cur_mem) line_len) st).num_desc + 1 }
          (by rw [PAGE_SIZE_eq, VIA_PGOFF_eq]; omega)
      refine ⟨st', w :: ws, hrun, ?_, ?_⟩
      · rw [hd]
        simp only [hw, List.reverse_cons, List.append_assoc, List.singleton_append]
      · refine ⟨?_, ?_, ?_, hpi, hma, hda, ?_⟩
        · rw [hsz, PAGE_SIZE_eq, VIA_PGOFF_eq]; omega
        · rw [hsz, PAGE_SIZE_eq, VIA_PGOFF_eq]; omega
        · rw [hsz]; omega
        · rw [hsz]; exact ht

/-- The stores of the populate pass split into the stores of the lines, each
of which tiles its line. -/
theorem via_map_lines_tiled (phys : via_phys) (dpp first_addr : Nat)
    (xfer : drm_via_dmablit_t) :
    ∀ (n mem_addr fb_addr : Nat) (st : via_map_state),
      ∃ (st' : via_map_state) (lines : List (List via_desc_write)),
        via_map_lines phys dpp 1 first_addr xfer n mem_addr fb_addr st = some st' ∧
        lines.length = n ∧
        st'.descriptors = lines.flatten.reverse ++ st.descriptors ∧
        ∀ i, i < n →
          via_line_tiled phys first_addr (lines.getD i [])
            (mem_addr + i * xfer.mem_stride) (via_line_fb fb_addr xfer.fb_stride i)
            xfer.line_length := by
  intro n
  induction n with
  | zero =>
    intro mem_addr fb_addr st
    exact ⟨st, [], by simp [via_map_lines], rfl, by simp, fun i hi => by omega⟩
  | succ n ih =>
    intro mem_addr fb_addr st
    obtain ⟨st1, ws, h1, hd1, ht1⟩ :=
      via_map_line_tiled phys dpp first_addr xfer.line_length xfer.line_length mem_addr fb_addr
        st (le_refl _)
    obtain ⟨st2, lines, h2, hl2, hd2, ht2⟩ :=
      ih (mem_addr + xfer.mem_stride) (add32 fb_addr xfer.fb_stride) st1
    refine ⟨st2, ws :: lines, ?_, ?_, ?_, ?_⟩
    · rw [via_map_lines, h1]
      exact h2
    · simp [hl2]
    · rw [hd2, hd1]
      simp
    · intro i hi
      cases i with
      | zero => simpa [via_line_fb] using ht1
      | succ i =>
        have := ht2 i (by omega)
        rw [show mem_addr + (i + 1) * xfer.mem_stride =
          mem_addr + xfer.mem_stride + i * xfer.mem_stride by ring]
        simpa [via_line_fb] using this

theorem sum_join_sizes (L : Nat) :
    ∀ (lines : List (List via_desc_write)),
      (∀ i, i < lines.length → ((lines.getD i []).map (fun w => w.desc.size)).sum = L) →
      (lines.flatten.map (fun w => w.desc.size)).sum = lines.length * L := by
  intro lines
  induction lines with
  | nil => intro _; simp
  | cons ws lines ih =>
    intro h
    have h0 := h 0 (by simp)
    have hrest := ih (fun i hi => by
      have := h (i + 1) (by simpa using hi)
      simpa using this)
    simp only [List.getD_cons_zero] at h0
    simp only [List.flatten_cons, List.map_append, List.sum_append, h0, hrest, List.length_cons]
    ring

/-- C18: the populate pass returns, and the descriptors it stores split, in
the order of writing, into one group per line; the group of line `i` tiles the
`line_length` bytes at source address `mem_addr + i * mem_stride` and device
address `(fb_addr + i * fb_stride) mod 2^32` in page-bounded segments (each of
size at least 1, none crossing a page boundary, each starting where the
previous one ended), the sizes of a group sum to `line_length`, and all sizes
together to `num_lines * line_length`. -/
theorem via_map_blit_for_device_tiles (phys : via_phys) (xfer : drm_via_dmablit_t)
    (vsg : drm_via_sg_info_t) (hfb : xfer.fb_addr < 2 ^ 32) :
    ∃ (vsg1 : drm_via_sg_info_t) (lines : List (List via_desc_write)),
      via_map_blit_for_device phys xfer vsg 1 = some vsg1 ∧
      lines.length = xfer.num_lines ∧
      vsg1.descriptors = lines.flatten.reverse ++ vsg.descriptors ∧
      (∀ i, i < xfer.num_lines →
        via_line_tiled phys (VIA_PGDN xfer.mem_addr) (lines.getD i [])
          (xfer.mem_addr + i * xfer.mem_stride)
          ((xfer.fb_addr + i * xfer.fb_stride) % 2 ^ 32) xfer.line_length ∧
        ((lines.getD i []).map (fun w => w.desc.size)).sum = xfer.line_length) ∧
      (lines.flatten.map (fun w => w.desc.size)).sum = xfer.num_lines * xfer.line_length := by
  obtain ⟨st', lines, hrun, hlen, hd, ht⟩ :=
    via_map_lines_tiled phys vsg.descriptors_per_page (VIA_PGDN xfer.mem_addr) xfer
      xfer.num_lines xfer.mem_addr xfer.fb_addr (via_map_state_init vsg.descriptors)
  obtain ⟨vsg0, vsg1, st1, -, e1, -, -, h11, hrun1, -⟩ :=
    via_map_blit_for_device_fields phys xfer vsg
  rw [hrun] at hrun1
  have hst : st' = st1 := Option.some.inj hrun1
  have hds : vsg1.descriptors = st1.descriptors := by rw [h11]
  have hall : ∀ i, i < xfer.num_lines →
      via_line_tiled phys (VIA_PGDN xfer.mem_addr) (lines.getD i [])
        (xfer.mem_addr + i * xfer.mem_stride)
        ((xfer.fb_addr + i * xfer.fb_stride) % 2 ^ 32) xfer.line_length ∧
      ((lines.getD i []).map (fun w => w.desc.size)).sum = xfer.line_length := by
    intro i hi
    have h := ht i hi
    rw [via_line_fb_eq _ _ _ hfb] at h
    exact ⟨h, via_line_tiled_sum _ _ _ _ _ _ h⟩
  refine ⟨vsg1, lines, e1, hlen, ?_, hall, ?_⟩
  · rw [hds, ← hst, hd]
    rfl
  · rw [← hlen]
    exact sum_join_sizes _ lines (fun i hi => (hall i (by omega)).2)

/-- Witness for `via_map_blit_for_device_tiles`: the populate pass for the
32-byte request that straddles a page boundary. -/
theorem via_map_blit_for_device_tiles_witness :
    ∃ (vsg1 : drm_via_sg_info_t) (lines : List (List via_desc_write)),
      via_map_blit_for_device via_kernel_ok.phys via_xfer_straddling via_sg_info_straddling 1 =
        some vsg1 ∧
      lines.length = 1 ∧
      vsg1.descriptors = lines.flatten.reverse ++ [] ∧
      (lines.flatten.map (fun w => w.desc.size)).sum = 1 * 32 := by
  obtain ⟨vsg1, lines, h1, h2, h3, -, h5⟩ :=
    via_map_blit_for_device_tiles via_kernel_ok.phys via_xfer_straddling via_sg_info_straddling
      (by decide)
  exact ⟨vsg1, lines, h1, h2, h3, h5⟩

/-! ### The completion handler -/

/-- C14: when the handler finds the current transfer done (the engine is
active and the hardware reports transfer done, or an abort is pending and the
hardware no longer reports descriptor enable), then in that invocation the info
at the old slot `cur` gets `aborted` = the previous `aborting`, no other slot
changes, `done_blit_handle` increases by one modulo `2^32`, `cur` advances by
one modulo the capacity, the transfer-done flag is cleared once, `aborting`
becomes 0, the reclamation task is enqueued exactly once while the slot keeps
its info and `serviced` its value (nothing is torn down inline), and `head`,
`serviced`, `num_free` and `cur_blit_handle` are unchanged. -/
theorem via_dmablit_handler_retires (blitq : drm_via_blitq_t) (hw : via_csr) (ticks : Nat)
    (hcur : blitq.cur < VIA_NUM_BLIT_SLOTS)
    (hdone : (blitq.is_active = true ∧ hw.transfer_done = true) ∨
      (blitq.aborting = true ∧ hw.descriptor_enable = false)) :
    via_done_transfer blitq hw = true ∧
    (via_dmablit_handler blitq hw ticks).1.blits blitq.cur =
      (blitq.blits blitq.cur).map
        (fun b => { b with vsg := { b.vsg with aborted := blitq.aborting } }) ∧
    (∀ i, i ≠ blitq.cur → (via_dmablit_handler blitq hw ticks).1.blits i = blitq.blits i) ∧
    (via_dmablit_handler blitq hw ticks).1.done_blit_handle =
      (blitq.done_blit_handle + 1) % 2 ^ 32 ∧
    (via_dmablit_handler blitq hw ticks).1.cur = (blitq.cur + 1) % VIA_NUM_BLIT_SLOTS ∧
    (via_dmablit_handler blitq hw ticks).1.aborting = false ∧
    (via_dmablit_handler blitq hw ticks).2.count via_effect.clear_transfer_done = 1 ∧
    (via_dmablit_handler blitq hw ticks).2.count via_effect.enqueue_workqueue = 1 ∧
    (via_dmablit_handler blitq hw ticks).2.count (via_effect.wakeup_blit_queue blitq.cur) = 1 ∧
    (via_dmablit_handler blitq hw ticks).2.count via_effect.abort = 0 ∧
    (via_dmablit_handler blitq hw ticks).1.head = blitq.head ∧
    (via_dmablit_handler blitq hw ticks).1.serviced = blitq.serviced ∧
    (via_dmablit_handler blitq hw ticks).1.num_free = blitq.num_free ∧
    (via_dmablit_handler blitq hw ticks).1.cur_blit_handle = blitq.cur_blit_handle := by
  have hd : via_done_transfer blitq hw = true := by
    unfold via_done_transfer
    rcases hdone with ⟨h1, h2⟩ | ⟨h1, h2⟩
    · simp [h1, h2]
    · cases hact : blitq.is_active <;> simp [h1, h2]
  have hcur' : (if blitq.cur + 1 ≥ VIA_NUM_BLIT_SLOTS then 0 else blitq.cur + 1) =
      (blitq.cur + 1) % VIA_NUM_BLIT_SLOTS := by
    unfold VIA_NUM_BLIT_SLOTS at *
    split <;> omega
  refine ⟨hd, ?_⟩
  unfold via_dmablit_handler via_dmablit_handler_done via_dmablit_handler_dispatch
  simp only [hd, if_true, Bool.not_false, hcur']
  cases hno : decide (blitq.num_outstanding ≠ 0) <;>
    cases hpt : blitq.poll_timer_pending <;>
    simp_all [add32, U32, List.count_cons]

/-- Witness for `via_dmablit_handler_retires`: the busy queue, the hardware
reporting transfer done. -/
theorem via_dmablit_handler_retires_witness :
    (via_dmablit_handler via_blitq_busy ⟨true, true⟩ 5).1.done_blit_handle = (1 + 1) % 2 ^ 32 ∧
    (via_dmablit_handler via_blitq_busy ⟨true, true⟩ 5).1.cur = (1 + 1) % VIA_NUM_BLIT_SLOTS ∧
    (via_dmablit_handler via_blitq_busy ⟨true, true⟩ 5).2.count via_effect.enqueue_workqueue = 1 :=
  have h := via_dmablit_handler_retires via_blitq_busy ⟨true, true⟩ 5 (by decide)
    (Or.inl ⟨rfl, rfl⟩)
  ⟨h.2.2.2.1, h.2.2.2.2.1, h.2.2.2.2.2.2.2.1⟩

/-- C15: after the handler returns, an idle engine has nothing queued. When
the engine is idle after the retire/abort part and a transfer is queued, the
handler fires the info at slot `cur`, sets `is_active`, decrements
`num_outstanding` by exactly one, sets the deadline to `ticks + DRM_HZ` and
leaves the poll timer armed; when nothing is queued it fires nothing, leaves the
poll timer stopped and switches the engine off; when the engine is active it
does none of this. -/
theorem via_dmablit_handler_dispatches (blitq : drm_via_blitq_t) (hw : via_csr) (ticks : Nat) :
    ((via_dmablit_handler blitq hw ticks).1.is_active = false →
      (via_dmablit_handler blitq hw ticks).1.num_outstanding = 0) ∧
    ((via_dmablit_handler_done blitq hw ticks).1.is_active = false →
      (via_dmablit_handler_done blitq hw ticks).1.num_outstanding > 0 →
        (via_dmablit_handler blitq hw ticks).2 =
          (via_dmablit_handler_done blitq hw ticks).2 ++
            via_effect.fire ((via_dmablit_handler_done blitq hw ticks).1.blits
              (via_dmablit_handler_done blitq hw ticks).1.cur) ::
            (if (via_dmablit_handler_done blitq hw ticks).1.poll_timer_pending then []
              else [via_effect.callout_reset]) ∧
        (via_dmablit_handler blitq hw ticks).1.is_active = true ∧
        (via_dmablit_handler blitq hw ticks).1.num_outstanding + 1 =
          (via_dmablit_handler_done blitq hw ticks).1.num_outstanding ∧
        (via_dmablit_handler blitq hw ticks).1.end_ = ticks + DRM_HZ ∧
        (via_dmablit_handler blitq hw ticks).1.poll_timer_pending = true ∧
        (via_dmablit_handler blitq hw ticks).1.cur =
          (via_dmablit_handler_done blitq hw ticks).1.cur) ∧
    ((via_dmablit_handler_done blitq hw ticks).1.is_active = false →
      (via_dmablit_handler_done blitq hw ticks).1.num_outstanding = 0 →
        (via_dmablit_handler blitq hw ticks).2 =
          (via_dmablit_handler_done blitq hw ticks).2 ++
            (if (via_dmablit_handler_done blitq hw ticks).1.poll_timer_pending then
              [via_effect.callout_stop] else []) ++ [via_effect.engine_off] ∧
        (via_dmablit_handler blitq hw ticks).1.is_active = false ∧
        (via_dmablit_handler blitq hw ticks).1.poll_timer_pending = false) ∧
    ((via_dmablit_handler_done blitq hw ticks).1.is_active = true →
      (via_dmablit_handler blitq hw ticks).2 = (via_dmablit_handler_done blitq hw ticks).2 ∧
      (via_dmablit_handler blitq hw ticks).1 = (via_dmablit_handler_done blitq hw ticks).1) ∧
    (∀ b, via_effect.fire b ∉ (via_dmablit_handler_done blitq hw ticks).2) := by
  have hnofire : ∀ b, via_effect.fire b ∉ (via_dmablit_handler_done blitq hw ticks).2 := by
    intro b
    unfold via_dmablit_handler_done
    simp only []
    split_ifs <;> simp
  refine ⟨?_, ?_, ?_, ?_, hnofire⟩
  · unfold via_dmablit_handler via_dmablit_handler_dispatch
    simp only []
    generalize (via_dmablit_handler_done blitq hw ticks).1 = q1
    cases hact : q1.is_active <;> by_cases hno : q1.num_outstanding = 0 <;> simp [hact, hno]
  · intro h1 h2
    unfold via_dmablit_handler via_dmablit_handler_dispatch
    simp only []
    generalize (via_dmablit_handler_done blitq hw ticks).1 = q1 at *
    generalize (via_dmablit_handler_done blitq hw ticks).2 = e1 at *
    have h3 : q1.num_outstanding ≠ 0 := by omega
    cases hpt : q1.poll_timer_pending <;> simp [h1, h3, hpt] <;> omega
  · intro h1 h2
    unfold via_dmablit_handler via_dmablit_handler_dispatch
    simp only []
    generalize (via_dmablit_handler_done blitq hw ticks).1 = q1 at *
    generalize (via_dmablit_handler_done blitq hw ticks).2 = e1 at *
    cases hpt : q1.poll_timer_pending <;> simp [h1, h2, hpt]
  · intro h1
    unfold via_dmablit_handler via_dmablit_handler_dispatch
    simp only []
    generalize (via_dmablit_handler_done blitq hw ticks).1 = q1 at *
    generalize (via_dmablit_handler_done blitq hw ticks).2 = e1 at *
    simp [h1]

/-! ### The reclamation task -/

theorem via_dmablit_workqueue_loop_drains :
    ∀ (fuel : Nat) (blitq : drm_via_blitq_t), blitq.serviced < VIA_NUM_BLIT_SLOTS →
      blitq.cur < VIA_NUM_BLIT_SLOTS →
      (blitq.cur + VIA_NUM_BLIT_SLOTS - blitq.serviced) % VIA_NUM_BLIT_SLOTS ≤ fuel →
      ∃ q rs, via_dmablit_workqueue_loop fuel blitq = some (q, rs) ∧
        rs = (List.range ((blitq.cur + VIA_NUM_BLIT_SLOTS - blitq.serviced) %
            VIA_NUM_BLIT_SLOTS)).map (fun j =>
          (⟨(blitq.serviced + j) % VIA_NUM_BLIT_SLOTS,
            blitq.blits ((blitq.serviced + j) % VIA_NUM_BLIT_SLOTS),
            via_blit_teardown (blitq.blits ((blitq.serviced + j) % VIA_NUM_BLIT_SLOTS))⟩ :
              via_reclaimed)) ∧
        q.serviced = blitq.cur ∧
        q.num_free = blitq.num_free +
          (blitq.cur + VIA_NUM_BLIT_SLOTS - blitq.serviced) % VIA_NUM_BLIT_SLOTS ∧
        q.cur = blitq.cur ∧ q.head = blitq.head ∧
        q.num_outstanding = blitq.num_outstanding ∧
        q.cur_blit_handle = blitq.cur_blit_handle ∧
        q.done_blit_handle = blitq.done_blit_handle ∧
        q.is_active = blitq.is_active ∧ q.aborting = blitq.aborting := by
  intro fuel
  induction fuel with
  | zero =>
    intro blitq hs hc hn
    have heq : blitq.serviced = blitq.cur := by
      unfold VIA_NUM_BLIT_SLOTS at *
      omega
    refine ⟨blitq, [], ?_, ?_, heq, ?_, rfl, rfl, rfl, rfl, rfl, rfl, rfl⟩
    · simp [via_dmablit_workqueue_loop, heq]
    · simp [heq, VIA_NUM_BLIT_SLOTS]
    · simp [heq, VIA_NUM_BLIT_SLOTS]
  | succ fuel ih =>
    intro blitq hs hc hn
    by_cases heq : blitq.serviced = blitq.cur
    · refine ⟨blitq, [], ?_, ?_, heq, ?_, rfl, rfl, rfl, rfl, rfl, rfl, rfl⟩
      · simp [via_dmablit_workqueue_loop, heq]
      · simp [heq, VIA_NUM_BLIT_SLOTS]
      · simp [heq, VIA_NUM_BLIT_SLOTS]
    · have hs1 : (via_dmablit_workqueue_step blitq).1.serviced =
          (blitq.serviced + 1) % VIA_NUM_BLIT_SLOTS := by
        unfold via_dmablit_workqueue_step VIA_NUM_BLIT_SLOTS at *
        simp only []
        split <;> omega
      have hc1 : (via_dmablit_workqueue_step blitq).1.cur = blitq.cur := rfl
      have hn1 : ((via_dmablit_workqueue_step blitq).1.cur + VIA_NUM_BLIT_SLOTS -
          (via_dmablit_workqueue_step blitq).1.serviced) % VIA_NUM_BLIT_SLOTS + 1 =
          (blitq.cur + VIA_NUM_BLIT_SLOTS - blitq.serviced) % VIA_NUM_BLIT_SLOTS := by
        rw [hs1, hc1]
        unfold VIA_NUM_BLIT_SLOTS at *
        omega
      obtain ⟨q, rs, hrun, hrs, h1, h2, h3, h4, h5, h6, h7, h8, h9⟩ :=
        ih (via_dmablit_workqueue_step blitq).1
          (by rw [hs1]; exact Nat.mod_lt _ (by decide)) hc (by omega)
      refine ⟨q, (via_dmablit_workqueue_step blitq).2 :: rs, ?_, ?_, ?_, ?_, ?_, ?_, ?_, ?_, ?_,
        ?_, ?_⟩
      · rw [via_dmablit_workqueue_loop, if_pos heq, hrun]
      · rw [← hn1, List.range_succ_eq_map, List.map_cons, List.map_map, hrs]
        congr 1
        · simp [via_dmablit_workqueue_step, VIA_NUM_BLIT_SLOTS, Nat.mod_eq_of_lt hs]
          rw [Nat.mod_eq_of_lt (by unfold VIA_NUM_BLIT_SLOTS at hs; exact hs)]
          simp
        · apply List.map_congr_left
          intro j hj
          have hj' := List.mem_range.1 hj
          have hidx : ((via_dmablit_workqueue_step blitq).1.serviced + j) % VIA_NUM_BLIT_SLOTS =
              (blitq.serviced + (j + 1)) % VIA_NUM_BLIT_SLOTS := by
            rw [hs1]
            unfold VIA_NUM_BLIT_SLOTS
            omega
          have hne : (blitq.serviced + (j + 1)) % VIA_NUM_BLIT_SLOTS ≠ blitq.serviced := by
            unfold VIA_NUM_BLIT_SLOTS at *
            omega
          have hb : (via_dmablit_workqueue_step blitq).1.blits
              ((blitq.serviced + (j + 1)) % VIA_NUM_BLIT_SLOTS) =
              blitq.blits ((blitq.serviced + (j + 1)) % VIA_NUM_BLIT_SLOTS) := by
            simp [via_dmablit_workqueue_step, hne]
          simp only [Function.comp, hidx, hb, Nat.succ_eq_add_one]
      · exact h1.trans rfl
      · rw [h2, ← hn1]
        simp only [via_dmablit_workqueue_step]
        omega
      · exact h3.trans rfl
      · rw [h4]; rfl
      · rw [h5]; rfl
      · rw [h6]; rfl
      · rw [h7]; rfl
      · rw [h8]; rfl
      · rw [h9]; rfl

/-- What `via_free_sg_info` releases for an info whose descriptor storage is
allocated (states `dr_via_device_mapped` and `dr_via_desc_pages_alloc`): every
non-null descriptor chunk, the chunk array, every pinned page, the page array,
and the bounce buffer when there is one. -/
theorem via_free_sg_info_mapped (vsg : drm_via_sg_info_t)
    (hs : vsg.state = via_sg_state.dr_via_device_mapped ∨
      vsg.state = via_sg_state.dr_via_desc_pages_alloc) :
    (via_free_sg_info vsg).2 =
      (List.range vsg.num_desc_pages).filterMap (fun i =>
        if (vsg.desc_pages.getD []).getD i false then
          some (via_event.release (via_resource.desc_page i))
        else none) ++ [via_event.release via_resource.desc_pages_array] ++
      (List.range vsg.num_pages).map (fun i => via_event.release (via_resource.pinned_page i))
        ++ [via_event.release via_resource.pages_array] ++
      (if vsg.bounce_buffer then [via_event.release via_resource.bounce_buffer] else []) := by
  unfold via_free_sg_info
  rcases hs with hs | hs <;> simp [hs, via_sg_state.level]

theorem via_released_filterMap_release (c : Nat → Bool) (f : Nat → via_resource)
    (l : List Nat) :
    via_released (l.filterMap (fun i => if c i then some (via_event.release (f i)) else none)) =
      l.filterMap (fun i => if c i then some (f i) else none) := by
  induction l with
  | nil => rfl
  | cons x l ih =>
    cases hc : c x
    · simp only [List.filterMap_cons, hc, Bool.false_eq_true, if_false]
      exact ih
    · simp only [List.filterMap_cons, hc, if_true, via_released_cons_release, ih]

/-- Every resource that `via_free_sg_info` releases is released once. -/
theorem via_free_sg_info_released_nodup (vsg : drm_via_sg_info_t) :
    (via_released (via_free_sg_info vsg).2).Nodup := by
  have hD : ((List.range vsg.num_desc_pages).filterMap (fun i =>
      if (vsg.desc_pages.getD []).getD i false then some (via_resource.desc_page i)
      else none)).Nodup := by
    apply List.Nodup.filterMap _ (List.nodup_range _)
    intro a a' b hb hb'
    split_ifs at hb hb' <;> simp_all
    rw [← hb'] at hb
    injection hb
  have hP : ((List.range vsg.num_pages).map (fun i => via_resource.pinned_page i)).Nodup :=
    (List.nodup_range _).map (fun a b h => by injection h)
  have hmemD : ∀ r, r ∈ (List.range vsg.num_desc_pages).filterMap (fun i =>
      if (vsg.desc_pages.getD []).getD i false then some (via_resource.desc_page i)
      else none) → ∃ i, r = via_resource.desc_page i := by
    intro r hr
    obtain ⟨i, -, hi⟩ := List.mem_filterMap.1 hr
    split_ifs at hi
    exact ⟨i, (Option.some.inj hi).symm⟩
  have hmemP : ∀ r, r ∈ (List.range vsg.num_pages).map (fun i => via_resource.pinned_page i) →
      ∃ i, r = via_resource.pinned_page i := by
    intro r hr
    obtain ⟨i, -, hi⟩ := List.mem_map.1 hr
    exact ⟨i, hi.symm⟩
  have hT : ((((List.range vsg.num_desc_pages).filterMap (fun i =>
          if (vsg.desc_pages.getD []).getD i false then some (via_resource.desc_page i)
          else none) ++ [via_resource.desc_pages_array]) ++
        (List.range vsg.num_pages).map (fun i => via_resource.pinned_page i) ++
        [via_resource.pages_array]) ++ [via_resource.bounce_buffer]).Nodup := by
    simp only [List.nodup_append, List.nodup_cons, List.not_mem_nil, not_false_eq_true,
      List.nodup_nil, and_true, List.mem_singleton, List.mem_append, hD, hP, true_and]
    refine ⟨⟨⟨?_, ?_⟩, ?_⟩, ?_⟩
    · intro a ha hb
      simp only [List.mem_singleton] at hb
      obtain ⟨i, hi⟩ := hmemD a ha
      rw [hi] at hb
      cases hb
    · intro a ha hb
      simp only [List.mem_append, List.mem_singleton] at ha
      obtain ⟨j, hj⟩ := hmemP a hb
      rcases ha with ha | ha
      · obtain ⟨i, hi⟩ := hmemD a ha
        rw [hi] at hj
        cases hj
      · rw [ha] at hj
        cases hj
    · intro a ha hb
      simp only [List.mem_append, List.mem_singleton] at ha hb
      rcases ha with (ha | ha) | ha
      · obtain ⟨i, hi⟩ := hmemD a ha
        rw [hi] at hb
        cases hb
      · rw [ha] at hb
        cases hb
      · obtain ⟨i, hi⟩ := hmemP a ha
        rw [hi] at hb
        cases hb
    · intro a ha hb
      simp only [List.mem_append, List.mem_singleton] at ha hb
      rcases ha with ((ha | ha) | ha) | ha
      · obtain ⟨i, hi⟩ := hmemD a ha
        rw [hi] at hb
        cases hb
      · rw [ha] at hb
        cases hb
      · obtain ⟨i, hi⟩ := hmemP a ha
        rw [hi] at hb
        cases hb
      · rw [ha] at hb
        cases hb
  refine List.Nodup.sublist ?_ hT
  unfold via_free_sg_info
  simp only [via_released_append]
  refine List.Sublist.append (List.Sublist.append (List.Sublist.append ?_ ?_) ?_) ?_
  · by_cases h3 : vsg.state.level ≥ 3
    · simp only [h3, if_true, via_released_append, via_released_filterMap_release,
        via_released_cons_release, via_released_nil]
      exact List.Sublist.refl _
    · simp only [h3, if_false, via_released_nil]
      exact List.nil_sublist _
  · by_cases h2 : vsg.state.level ≥ 2
    · simp only [h2, if_true, via_released_map_release]
      exact List.Sublist.refl _
    · simp only [h2, if_false, via_released_nil]
      exact List.nil_sublist _
  · by_cases h1 : vsg.state.level ≥ 1
    · simp only [h1, if_true, via_released_cons_release, via_released_nil]
      exact List.Sublist.refl _
    · simp only [h1, if_false, via_released_nil]
      exact List.nil_sublist _
  · cases hb : vsg.bounce_buffer
    · simp only [Bool.false_eq_true, if_false, via_released_nil]
      exact List.nil_sublist _
    · simp only [if_true, via_released_cons_release, via_released_nil]
      exact List.Sublist.refl _

/-- The slots of the queue after the loop of `via_dmablit_workqueue`: the
drained slots hold no live info, the others are untouched. -/
theorem via_dmablit_workqueue_loop_blits :
    ∀ (fuel : Nat) (blitq : drm_via_blitq_t), blitq.serviced < VIA_NUM_BLIT_SLOTS →
      blitq.cur < VIA_NUM_BLIT_SLOTS →
      ∀ q rs, via_dmablit_workqueue_loop fuel blitq = some (q, rs) →
        (∀ j, j < (blitq.cur + VIA_NUM_BLIT_SLOTS - blitq.serviced) % VIA_NUM_BLIT_SLOTS →
          q.blits ((blitq.serviced + j) % VIA_NUM_BLIT_SLOTS) = none) ∧
        (∀ i, (∀ j, j < (blitq.cur + VIA_NUM_BLIT_SLOTS - blitq.serviced) %
              VIA_NUM_BLIT_SLOTS → i ≠ (blitq.serviced + j) % VIA_NUM_BLIT_SLOTS) →
          q.blits i = blitq.blits i) ∧
        q.end_ = blitq.end_ ∧ q.poll_timer_pending = blitq.poll_timer_pending := by
  intro fuel
  induction fuel with
  | zero =>
    intro blitq hs hc q rs hrun
    rw [via_dmablit_workqueue_loop] at hrun
    by_cases heq : blitq.serviced = blitq.cur
    · rw [if_neg (by simpa using heq)] at hrun
      cases hrun
      refine ⟨?_, fun _ _ => rfl, rfl, rfl⟩
      intro j hj
      unfold VIA_NUM_BLIT_SLOTS at *
      omega
    · rw [if_pos heq] at hrun
      cases hrun
  | succ fuel ih =>
    intro blitq hs hc q rs hrun
    rw [via_dmablit_workqueue_loop] at hrun
    by_cases heq : blitq.serviced = blitq.cur
    · rw [if_neg (by simpa using heq)] at hrun
      cases hrun
      refine ⟨?_, fun _ _ => rfl, rfl, rfl⟩
      intro j hj
      unfold VIA_NUM_BLIT_SLOTS at *
      omega
    · rw [if_pos heq] at hrun
      have hs1 : (via_dmablit_workqueue_step blitq).1.serviced =
          (blitq.serviced + 1) % VIA_NUM_BLIT_SLOTS := by
        unfold via_dmablit_workqueue_step VIA_NUM_BLIT_SLOTS at *
        simp only []
        split <;> omega
      have hc1 : (via_dmablit_workqueue_step blitq).1.cur = blitq.cur := rfl
      have hb1 : ∀ i, (via_dmablit_workqueue_step blitq).1.blits i =
          if i = blitq.serviced then none else blitq.blits i := fun _ => rfl
      cases hl : via_dmablit_workqueue_loop fuel (via_dmablit_workqueue_step blitq).1 with
      | none => rw [hl] at hrun; cases hrun
      | some p =>
        obtain ⟨q1, rs1⟩ := p
        rw [hl] at hrun
        simp only [Option.some.injEq, Prod.mk.injEq] at hrun
        obtain ⟨hq, -⟩ := hrun
        subst hq
        obtain ⟨i1, i2, i3, i4⟩ := ih (via_dmablit_workqueue_step blitq).1
          (by rw [hs1]; exact Nat.mod_lt _ (by decide)) hc q1 rs1 hl
        rw [hs1, hc1] at i1 i2
        unfold VIA_NUM_BLIT_SLOTS at *
        refine ⟨?_, ?_, i3.trans rfl, i4.trans rfl⟩
        · intro j hj
          by_cases hj0 : j = 0
          · subst hj0
            have e : (blitq.serviced + 0) % 8 = blitq.serviced := by omega
            rw [e, i2 blitq.serviced (fun j hj => by omega), hb1, if_pos rfl]
          · have e : (blitq.serviced + j) % 8 = ((blitq.serviced + 1) % 8 + (j - 1)) % 8 := by
              omega
            rw [e]
            exact i1 (j - 1) (by omega)
        · intro i hi
          have hne : i ≠ blitq.serviced := by
            have := hi 0 (by omega)
            omega
          rw [i2 i (fun j hj => by
            have := hi (j + 1) (by omega)
            omega), hb1, if_neg hne]

theorem via_acquired_filterMap_release (c : Nat → Bool) (f : Nat → via_resource)
    (l : List Nat) :
    via_acquired (l.filterMap (fun i => if c i then some (via_event.release (f i)) else none)) =
      [] := by
  induction l with
  | nil => rfl
  | cons x l ih =>
    cases hc : c x
    · simp only [List.filterMap_cons, hc, Bool.false_eq_true, if_false]
      exact ih
    · simp only [List.filterMap_cons, hc, if_true, via_acquired_cons_release, ih]

/-- The teardown `via_free_sg_info` acquires nothing. -/
theorem via_free_sg_info_acquires_nothing (vsg : drm_via_sg_info_t) :
    via_acquired (via_free_sg_info vsg).2 = [] := by
  unfold via_free_sg_info
  simp only [via_acquired_append]
  have e1 : via_acquired (if vsg.state.level ≥ 3 then
      (List.range vsg.num_desc_pages).filterMap (fun i =>
        if (vsg.desc_pages.getD []).getD i false then
          some (via_event.release (via_resource.desc_page i))
        else none) ++ [via_event.release via_resource.desc_pages_array]
      else []) = [] := by
    split_ifs
    · simp only [via_acquired_append, via_acquired_filterMap_release,
        via_acquired_cons_release, via_acquired_nil, List.append_nil]
    · rfl
  have e2 : via_acquired (if vsg.state.level ≥ 2 then
      (List.range vsg.num_pages).map (fun i => via_event.release (via_resource.pinned_page i))
      else []) = [] := by
    split_ifs
    · exact via_acquired_map_release _ _
    · rfl
  have e3 : via_acquired (if vsg.state.level ≥ 1 then
      [via_event.release via_resource.pages_array] else []) = [] := by
    split_ifs <;> rfl
  have e4 : via_acquired (if vsg.bounce_buffer then
      [via_event.release via_resource.bounce_buffer] else []) = [] := by
    split_ifs <;> rfl
  rw [e1, e2, e3, e4]
  rfl

theorem via_blit_teardown_nodup (cur_sg : Option via_blit) :
    (via_released (via_blit_teardown cur_sg)).Nodup := by
  cases cur_sg with
  | none => exact List.nodup_nil
  | some b => exact via_free_sg_info_released_nodup b.vsg

/-- C16: from a queue state with `serviced` and `cur` below the capacity, and
without concurrent events, `via_dmablit_workqueue` terminates after exactly
`(cur - serviced) mod capacity` iterations; iteration `j` takes the info of
slot `(serviced + j) mod capacity` and tears it down, so the drained slots are
pairwise distinct and in ring order from the old `serviced`; afterwards
`serviced = cur`, `num_free` has grown by the number of iterations, and `cur`,
`head`, `num_outstanding`, both handle counters and the engine flags are
unchanged. The teardown of a drained info is what `via_free_sg_info` releases
for it, each resource once: for an info with descriptor storage, every
non-null descriptor chunk, the chunk array, every pinned page, the page array
and the bounce buffer if there is one; nothing is released for a slot without
a live info. After the run no drained slot refers to a live info any more and
every other slot is as before. -/
theorem via_dmablit_workqueue_drains (blitq : drm_via_blitq_t)
    (hs : blitq.serviced < VIA_NUM_BLIT_SLOTS) (hc : blitq.cur < VIA_NUM_BLIT_SLOTS) :
    ∃ q rs, via_dmablit_workqueue blitq = some (q, rs) ∧
      rs.length = (blitq.cur + VIA_NUM_BLIT_SLOTS - blitq.serviced) % VIA_NUM_BLIT_SLOTS ∧
      rs = (List.range ((blitq.cur + VIA_NUM_BLIT_SLOTS - blitq.serviced) %
          VIA_NUM_BLIT_SLOTS)).map (fun j =>
        (⟨(blitq.serviced + j) % VIA_NUM_BLIT_SLOTS,
          blitq.blits ((blitq.serviced + j) % VIA_NUM_BLIT_SLOTS),
          via_blit_teardown (blitq.blits ((blitq.serviced + j) % VIA_NUM_BLIT_SLOTS))⟩ :
            via_reclaimed)) ∧
      (rs.map (fun r => r.slot)).Nodup ∧
      q.serviced = blitq.cur ∧
      q.num_free = blitq.num_free + rs.length ∧
      q.cur = blitq.cur ∧ q.head = blitq.head ∧
      q.num_outstanding = blitq.num_outstanding ∧
      q.cur_blit_handle = blitq.cur_blit_handle ∧
      q.done_blit_handle = blitq.done_blit_handle ∧
      q.is_active = blitq.is_active ∧ q.aborting = blitq.aborting ∧
      (∀ r ∈ rs,
        r.blit = blitq.blits r.slot ∧
        (via_released r.released).Nodup ∧ via_acquired r.released = [] ∧
        (r.blit = none → r.released = []) ∧
        ∀ b, r.blit = some b →
          r.released = (via_free_sg_info b.vsg).2 ∧
          ((b.vsg.state = via_sg_state.dr_via_device_mapped ∨
              b.vsg.state = via_sg_state.dr_via_desc_pages_alloc) →
            r.released =
              (List.range b.vsg.num_desc_pages).filterMap (fun i =>
                if (b.vsg.desc_pages.getD []).getD i false then
                  some (via_event.release (via_resource.desc_page i))
                else none) ++ [via_event.release via_resource.desc_pages_array] ++
              (List.range b.vsg.num_pages).map (fun i =>
                via_event.release (via_resource.pinned_page i))
                ++ [via_event.release via_resource.pages_array] ++
              (if b.vsg.bounce_buffer then [via_event.release via_resource.bounce_buffer]
                else []))) ∧
      (∀ j, j < rs.length → q.blits ((blitq.serviced + j) % VIA_NUM_BLIT_SLOTS) = none) ∧
      (∀ i, (∀ j, j < rs.length → i ≠ (blitq.serviced + j) % VIA_NUM_BLIT_SLOTS) →
        q.blits i = blitq.blits i) ∧
      q.end_ = blitq.end_ ∧ q.poll_timer_pending = blitq.poll_timer_pending := by
  have hlt : (blitq.cur + VIA_NUM_BLIT_SLOTS - blitq.serviced) % VIA_NUM_BLIT_SLOTS ≤
      VIA_NUM_BLIT_SLOTS := le_of_lt (Nat.mod_lt _ (by decide))
  obtain ⟨q, rs, hrun, hrs, h1, h2, h3, h4, h5, h6, h7, h8, h9⟩ :=
    via_dmablit_workqueue_loop_drains VIA_NUM_BLIT_SLOTS blitq hs hc hlt
  obtain ⟨b1, b2, b3, b4⟩ :=
    via_dmablit_workqueue_loop_blits VIA_NUM_BLIT_SLOTS blitq hs hc q rs hrun
  have hlen : rs.length =
      (blitq.cur + VIA_NUM_BLIT_SLOTS - blitq.serviced) % VIA_NUM_BLIT_SLOTS := by
    rw [hrs]; simp
  refine ⟨q, rs, hrun, hlen, hrs, ?_, h1, ?_, h3, h4, h5, h6, h7, h8, h9, ?_, ?_, ?_, b3, b4⟩
  · rw [hrs, List.map_map]
    apply List.Nodup.map_on _ (List.nodup_range _)
    intro x hx y hy hxy
    have hx' := List.mem_range.1 hx
    have hy' := List.mem_range.1 hy
    simp only [Function.comp] at hxy
    unfold VIA_NUM_BLIT_SLOTS at *
    omega
  · rw [h2, hlen]
  · intro r hr
    rw [hrs] at hr
    obtain ⟨j, -, hj⟩ := List.mem_map.1 hr
    subst hj
    simp only []
    refine ⟨trivial, via_blit_teardown_nodup _, ?_, ?_, ?_⟩
    · cases hb : blitq.blits ((blitq.serviced + j) % VIA_NUM_BLIT_SLOTS) with
      | none => rfl
      | some b => exact via_free_sg_info_acquires_nothing b.vsg
    · intro hn
      rw [hn]
      rfl
    · intro b hb
      rw [hb]
      exact ⟨rfl, fun hst => via_free_sg_info_mapped b.vsg hst⟩
  · intro j hj
    exact b1 j (by rw [← hlen]; exact hj)
  · intro i hi
    exact b2 i (fun j hj => hi j (by rw [hlen]; exact hj))

/-- Witness for `via_dmablit_workqueue_drains`: one completed transfer in
slot 0, whose info owns one descriptor chunk, the chunk array, two pinned pages
and the page array; the task drains slot 0, releases exactly these and leaves
the slot without a live info. -/
theorem via_dmablit_workqueue_drains_witness :
    via_blitq_reclaim.serviced < VIA_NUM_BLIT_SLOTS ∧
    via_blitq_reclaim.cur < VIA_NUM_BLIT_SLOTS ∧
    ∃ q rs, via_dmablit_workqueue via_blitq_reclaim = some (q, rs) ∧
      rs = [⟨0, some ⟨via_sg_info_straddling_built, 1⟩,
        [via_event.release (via_resource.desc_page 0),
          via_event.release via_resource.desc_pages_array,
          via_event.release (via_resource.pinned_page 0),
          via_event.release (via_resource.pinned_page 1),
          via_event.release via_resource.pages_array]⟩] ∧
      q.serviced = 1 ∧ q.num_free = 7 ∧ q.cur = 1 ∧ q.head = 1 ∧
      q.blits 0 = none ∧ ∀ i, i ≠ 0 → q.blits i = via_blitq_reclaim.blits i := by
  obtain ⟨q, rs, h1, h2, h3, -, h5, h6, h7, h8, -, -, -, -, -, -, h15, h16, -⟩ :=
    via_dmablit_workqueue_drains via_blitq_reclaim (by decide) (by decide)
  have hlen : rs.length = 1 := h2
  rw [hlen] at h6 h15 h16
  refine ⟨by decide, by decide, q, rs, h1, ?_, h5, h6, h7, h8, h15 0 (by decide), ?_⟩
  · rw [h3]
    decide
  · intro i hi
    apply h16 i
    intro j hj
    have hj0 : j = 0 := by omega
    subst hj0
    exact hi

/-! ### Slot reservation -/

theorem via_queue_init_inv : via_queue_inv via_queue_init := by
  unfold via_queue_inv via_queue_init via_init_dmablit via_in_flight via_active via_pending
    VIA_NUM_BLIT_SLOTS
  simp only []
  refine ⟨by omega, by omega, by omega, by simp, by simp, by simp, by omega, by simp, ?_, ?_, ?_,
    rfl, rfl, by simp, by simp⟩
  · intro j hj; simp at hj
  · intro j hj; simp at hj
  · intro j _ _; trivial

theorem via_inv_grab (s s' : via_queue_state) (hinv : via_queue_inv s)
    (h : via_apply via_action.grab_slot s = some s') : via_queue_inv s' := by
  simp only [via_apply, via_dmablit_grab_slot] at h
  by_cases h0 : s.blitq.num_free = 0
  · simp [h0, EINTR, EAGAIN] at h
  · simp only [h0, if_false, if_true] at h
    have h := Option.some.inj h
    subst h
    unfold via_queue_inv via_in_flight via_active via_pending at *
    simp only [] at *
    obtain ⟨h1, h2, h3, h4, h5, h6, h7, h8, h9, h10, h11, h12, h13, h14, h15⟩ := hinv
    exact ⟨h1, h2, h3, h4, h5, by omega, h7, h8, h9, h10, h11, h12, h13, h14, h15⟩

theorem via_inv_release (s s' : via_queue_state) (hinv : via_queue_inv s)
    (h : via_apply via_action.release_slot s = some s') : via_queue_inv s' := by
  simp only [via_apply, via_dmablit_release_slot] at h
  by_cases h0 : s.reserved = 0
  · simp [h0] at h
  · simp only [h0, if_false] at h
    have h := Option.some.inj h
    subst h
    unfold via_queue_inv via_in_flight via_active via_pending at *
    simp only [] at *
    obtain ⟨h1, h2, h3, h4, h5, h6, h7, h8, h9, h10, h11, h12, h13, h14, h15⟩ := hinv
    exact ⟨h1, h2, h3, h4, h5, by omega, h7, h8, h9, h10, h11, h12, h13, h14, h15⟩

theorem via_inv_poll_timer (s s' : via_queue_state) (pending : Bool) (hinv : via_queue_inv s)
    (h : via_apply (via_action.poll_timer pending) s = some s') : via_queue_inv s' := by
  simp only [via_apply] at h
  have h := Option.some.inj h
  subst h
  exact hinv

theorem via_inv_submit (s s' : via_queue_state) (vsg : drm_via_sg_info_t) (hinv : via_queue_inv s)
    (h : via_apply (via_action.submit vsg) s = some s') : via_queue_inv s' := by
  simp only [via_apply] at h
  by_cases h0 : s.reserved = 0
  · simp [h0] at h
  · simp only [h0, if_false] at h
    have h := Option.some.inj h
    subst h
    obtain ⟨⟨cbh, dbh, sv, hd, cu, nf, no, en, ab, ia, bl, pt⟩, rsv, fired, retired⟩ := s
    unfold via_queue_inv via_in_flight via_active via_pending via_dmablit_submit add32 U32
      VIA_NUM_BLIT_SLOTS at *
    simp only [] at *
    obtain ⟨h1, h2, h3, h4, h5, h6, h7, h8, h9, h10, h11, h12, h13, h14, h15⟩ := hinv
    generalize hact : (if ia = true then 1 else 0) = act at *
    have hhd : (if hd + 1 ≥ 8 then 0 else hd + 1) = (hd + 1) % 8 := by
      split_ifs <;> omega
    rw [hhd]
    refine ⟨by omega, h2, h3, h4, by omega, by omega, h7, by omega, ?_, ?_, ?_, h12, h13, h14,
      h15⟩
    · intro j hj
      by_cases hjl : j < no + act
      · rw [if_neg (by omega)]
        exact h9 j hjl
      · rw [if_pos (by omega)]
        exact ⟨_, rfl, by simp only []; omega⟩
    · intro j hj
      rw [if_neg (by omega)]
      exact h10 j hj
    · intro j hj hj8
      rw [if_neg (by omega)]
      exact h11 j (by omega) hj8

theorem via_inv_workqueue_step (s s' : via_queue_state) (hinv : via_queue_inv s)
    (h : via_apply via_action.workqueue_step s = some s') : via_queue_inv s' := by
  simp only [via_apply] at h
  by_cases h0 : s.blitq.serviced = s.blitq.cur
  · simp [h0] at h
  · simp only [ne_eq, h0, not_false_eq_true, if_true] at h
    have h := Option.some.inj h
    subst h
    obtain ⟨⟨cbh, dbh, sv, hd, cu, nf, no, en, ab, ia, bl, pt⟩, rsv, fired, retired⟩ := s
    unfold via_queue_inv via_in_flight via_active via_pending via_dmablit_workqueue_step
      VIA_NUM_BLIT_SLOTS at *
    simp only [] at *
    obtain ⟨h1, h2, h3, h4, h5, h6, h7, h8, h9, h10, h11, h12, h13, h14, h15⟩ := hinv
    generalize hact : (if ia = true then 1 else 0) = act at *
    have hsv : (if sv + 1 ≥ 8 then 0 else sv + 1) = (sv + 1) % 8 := by
      split_ifs <;> omega
    rw [hsv]
    refine ⟨h1, h2, by omega, h4, h5, by omega, h7, h8, ?_, ?_, ?_, h12, h13, h14, h15⟩
    · intro j hj
      rw [if_neg (by omega)]
      exact h9 j hj
    · intro j hj
      rw [if_neg (by omega)]
      have e : ((sv + 1) % 8 + j) % 8 = (sv + (j + 1)) % 8 := by omega
      rw [e]
      exact h10 (j + 1) (by omega)
    · intro j hj hj8
      by_cases hi : ((sv + 1) % 8 + j) % 8 = sv
      · rw [if_pos hi]
      · rw [if_neg hi]
        have e : ((sv + 1) % 8 + j) % 8 = (sv + (j + 1)) % 8 := by omega
        rw [e]
        exact h11 (j + 1) (by omega) (by omega)

theorem via_fired_handles_dispatch (blitq : drm_via_blitq_t) (ticks : Nat) :
    via_fired_handles (via_dmablit_handler_dispatch blitq ticks).2 =
      if !blitq.is_active && decide (blitq.num_outstanding ≠ 0) then
        ((blitq.blits blitq.cur).map (fun b => b.handle)).toList
      else [] := by
  unfold via_dmablit_handler_dispatch
  cases hia : blitq.is_active
  · by_cases hno : blitq.num_outstanding = 0
    · cases hp : blitq.poll_timer_pending <;> simp [hno, via_fired_handles]
    · cases hp : blitq.poll_timer_pending <;>
        cases hb : blitq.blits blitq.cur <;> simp [hno, hb, via_fired_handles]
  · simp [via_fired_handles]

theorem via_inv_dispatch (s : via_queue_state) (ticks : Nat) (hinv : via_queue_inv s) :
    via_queue_inv (via_apply_dispatch ticks s) := by
  unfold via_apply_dispatch
  rw [via_fired_handles_dispatch]
  obtain ⟨⟨cbh, dbh, sv, hd, cu, nf, no, en, ab, ia, bl, pt⟩, rsv, fired, retired⟩ := s
  unfold via_queue_inv via_in_flight via_active via_pending via_dmablit_handler_dispatch
    VIA_NUM_BLIT_SLOTS at *
  simp only [] at *
  obtain ⟨h1, h2, h3, h4, h5, h6, h7, h8, h9, h10, h11, h12, h13, h14, h15⟩ := hinv
  cases ia
  · simp only [Bool.false_eq_true, if_false, Nat.add_zero] at h5 h6 h8 h9 h11 h14
    by_cases hno : no = 0
    · subst hno
      simp only [Bool.not_false, ne_eq, not_true_eq_false, if_false, if_true, decide_False,
        Bool.and_false, List.nil_append, Bool.false_eq_true, Nat.add_zero]
      exact ⟨h1, h2, h3, fun h => Bool.noConfusion (h4 h), h5, h6, h7, h8, h9, h10, h11, h12, h13, h14, h15⟩
    · obtain ⟨b, hb, hbh⟩ := h9 0 (by omega)
      have hcu : (cu + 0) % 8 = cu := by omega
      rw [hcu] at hb
      simp only [Bool.not_false, ne_eq, hno, not_false_eq_true, if_true, decide_True,
        Bool.and_true, hb, Option.map_some', Option.toList_some, List.singleton_append,
        List.length_cons]
      refine ⟨h1, h2, h3, fun _ => trivial, by omega, by omega, h7, by omega, ?_, h10, ?_, h12,
        ?_, by omega, h15⟩
      · intro j hj
        exact h9 j (by omega)
      · intro j hj hj8
        exact h11 j (by omega) hj8
      · rw [via_handles, ← h13]
        congr 1
        rw [hbh]
        unfold U32
        omega
  · simp only [Bool.not_true, if_false, Bool.false_and, List.nil_append, Bool.false_eq_true]
    exact ⟨h1, h2, h3, fun _ => trivial, h5, h6, h7, h8, h9, h10, h11, h12, h13, h14, h15⟩

theorem via_done_transfer_active (blitq : drm_via_blitq_t) (hw : via_csr)
    (hab : blitq.aborting = true → blitq.is_active = true)
    (h : via_done_transfer blitq hw = true) : blitq.is_active = true := by
  unfold via_done_transfer at h
  cases hia : blitq.is_active
  · cases hb : blitq.aborting
    · simp [hia, hb] at h
    · have := hab hb
      rw [hia] at this
      exact this
  · rfl

theorem via_inv_done (s : via_queue_state) (hw : via_csr) (ticks : Nat)
    (hinv : via_queue_inv s) : via_queue_inv (via_apply_done hw ticks s) := by
  unfold via_apply_done via_dmablit_handler_done
  by_cases hdt : via_done_transfer s.blitq hw = true
  · have hia := via_done_transfer_active s.blitq hw hinv.2.2.2.1 hdt
    simp only [hdt, if_true]
    clear hdt
    obtain ⟨⟨cbh, dbh, sv, hd, cu, nf, no, en, ab, ia, bl, pt⟩, rsv, fired, retired⟩ := s
    unfold via_queue_inv via_in_flight via_active via_pending add32 U32
      VIA_NUM_BLIT_SLOTS at *
    simp only [] at *
    subst hia
    obtain ⟨h1, h2, h3, h4, h5, h6, h7, h8, h9, h10, h11, h12, h13, h14, h15⟩ := hinv
    simp only [if_true] at h5 h6 h8 h9 h11 h14
    have hcu1 : (if cu + 1 ≥ 8 then 0 else cu + 1) = (cu + 1) % 8 := by
      split_ifs <;> omega
    rw [hcu1]
    obtain ⟨b, hb, hbh⟩ := h9 0 (by omega)
    have hcu : (cu + 0) % 8 = cu := by omega
    rw [hcu] at hb
    simp only [hb, Option.map_some', Option.toList_some, List.singleton_append,
      List.length_cons, Bool.false_eq_true, if_false, Nat.add_zero]
    refine ⟨h1, by omega, h3, fun h => h.elim, by omega, by omega, by omega, by omega,
      ?_, ?_, ?_, ?_, h13, by omega, by omega⟩
    · intro j hj
      rw [if_neg (by omega)]
      have e : ((cu + 1) % 8 + j) % 8 = (cu + (j + 1)) % 8 := by omega
      rw [e]
      obtain ⟨b', hb', hbh'⟩ := h9 (j + 1) (by omega)
      exact ⟨b', hb', by rw [hbh']; omega⟩
    · intro j hj
      by_cases hjp : (sv + j) % 8 = cu
      · rw [if_pos hjp]
        exact ⟨_, rfl⟩
      · rw [if_neg hjp]
        exact h10 j (by omega)
    · intro j hj hj8
      rw [if_neg (by omega)]
      exact h11 j (by omega) hj8
    · rw [via_handles, ← h12]
      congr 1
      rw [hbh]
      unfold U32
      omega
  · simp only [hdt, if_false, List.nil_append, Bool.false_eq_true]
    clear hdt
    obtain ⟨⟨cbh, dbh, sv, hd, cu, nf, no, en, ab, ia, bl, pt⟩, rsv, fired, retired⟩ := s
    unfold via_queue_inv via_in_flight via_active via_pending at *
    simp only [] at *
    obtain ⟨h1, h2, h3, h4, h5, h6, h7, h8, h9, h10, h11, h12, h13, h14, h15⟩ := hinv
    by_cases hto : (ia && decide (ticks ≥ en)) = true
    · simp only [hto, if_true]
      have hia : ia = true := by
        cases ia
        · simp at hto
        · rfl
      exact ⟨h1, h2, h3, fun _ => hia, h5, h6, h7, h8, h9, h10, h11, h12, h13, h14, h15⟩
    · simp only [hto, if_false, Bool.false_eq_true]
      exact ⟨h1, h2, h3, h4, h5, h6, h7, h8, h9, h10, h11, h12, h13, h14, h15⟩

theorem via_inv_apply (a : via_action) (s s' : via_queue_state) (hinv : via_queue_inv s)
    (h : via_apply a s = some s') : via_queue_inv s' := by
  cases a with
  | grab_slot => exact via_inv_grab s s' hinv h
  | release_slot => exact via_inv_release s s' hinv h
  | submit vsg => exact via_inv_submit s s' vsg hinv h
  | handler hw ticks =>
    simp only [via_apply] at h
    have h := Option.some.inj h
    subst h
    exact via_inv_dispatch _ ticks (via_inv_done s hw ticks hinv)
  | workqueue_step => exact via_inv_workqueue_step s s' hinv h
  | poll_timer pending => exact via_inv_poll_timer s s' pending hinv h

theorem via_run_inv (actions : List via_action) :
    ∀ s s', via_queue_inv s → via_run actions s = some s' → via_queue_inv s' := by
  induction actions with
  | nil =>
    intro s s' hinv h
    simp only [via_run] at h
    have h := Option.some.inj h
    subst h
    exact hinv
  | cons a rest ih =>
    intro s s' hinv h
    simp only [via_run] at h
    cases ha : via_apply a s with
    | none => rw [ha] at h; cases h
    | some s1 =>
      rw [ha] at h
      exact ih s1 s' (via_inv_apply a s s1 hinv ha) h

theorem via_reachable_inv (s : via_queue_state) (h : via_reachable s) : via_queue_inv s := by
  obtain ⟨actions, hrun⟩ := h
  exact via_run_inv actions _ _ via_queue_init_inv hrun

theorem via_two_submitted_reachable : via_reachable via_queue_two_submitted :=
  ⟨via_actions_two_submitted, rfl⟩

/-- The blit queue of a handler step is the queue that `via_dmablit_handler`
returns. -/
theorem via_apply_handler_blitq (s : via_queue_state) (hw : via_csr) (ticks : Nat) :
    (via_apply_dispatch ticks (via_apply_done hw ticks s)).blitq =
      (via_dmablit_handler s.blitq hw ticks).1 := rfl

theorem via_run_cons (a : via_action) (rest : List via_action) (s s1 : via_queue_state)
    (h : via_apply a s = some s1) : via_run (a :: rest) s = via_run rest s1 := by
  simp only [via_run, h]

/-- A call of `via_dmablit` is a run of steps: nothing, a reservation followed
by a release, or a reservation, a submission and a handler invocation. -/
theorem via_dmablit_run (k : via_kernel) (dev_priv vsg_malloc : Bool) (wait_ret : Int)
    (hw : via_csr) (ticks : Nat) (s : via_queue_state) (xfer : drm_via_dmablit_t)
    (r : via_dmablit_result) (hwait : wait_ret ≠ 0)
    (h : via_dmablit k dev_priv vsg_malloc wait_ret hw ticks s.blitq xfer = some r) :
    ∃ actions s', via_run actions s = some s' ∧ s'.blitq = r.blitq ∧
      s'.reserved = s.reserved := by
  unfold via_dmablit at h
  cases dev_priv
  · simp only [Bool.not_false, if_true, Option.some.injEq] at h
    subst h
    exact ⟨[], s, rfl, rfl, rfl⟩
  · simp only [Bool.not_true, Bool.false_eq_true, if_false] at h
    by_cases hnf : s.blitq.num_free = 0
    · have hg : via_dmablit_grab_slot s.blitq wait_ret =
          ((if wait_ret = -EINTR then -EAGAIN else wait_ret), s.blitq) := by
        unfold via_dmablit_grab_slot
        rw [if_pos hnf]
      rw [hg] at h
      have hret : (if wait_ret = -EINTR then -EAGAIN else wait_ret) ≠ 0 := by
        split_ifs
        · decide
        · exact hwait
      simp only [ne_eq, hret, not_false_eq_true, if_true, Option.some.injEq] at h
      subst h
      exact ⟨[], s, rfl, rfl, rfl⟩
    · have hg : ∀ w, via_dmablit_grab_slot s.blitq w =
          (0, { s.blitq with num_free := s.blitq.num_free - 1 }) := by
        intro w
        unfold via_dmablit_grab_slot
        rw [if_neg hnf]
      have hgrab : via_apply via_action.grab_slot s =
          some { s with
            blitq := { s.blitq with num_free := s.blitq.num_free - 1 }
            reserved := s.reserved + 1 } := by
        simp only [via_apply, hg, if_true]
      have hrel : via_dmablit_release_slot { s.blitq with num_free := s.blitq.num_free - 1 } =
          s.blitq := by
        obtain ⟨⟨cbh, dbh, sv, hd, cu, nf, no, en, ab, ia, bl, pt⟩, rsv, fired, retired⟩ := s
        simp only [via_dmablit_release_slot] at *
        congr 1
        omega
      have hrelease : via_apply via_action.release_slot
          { s with
            blitq := { s.blitq with num_free := s.blitq.num_free - 1 }
            reserved := s.reserved + 1 } = some s := by
        simp only [via_apply, hrel, Nat.add_sub_cancel]
        rw [if_neg (by omega)]
      have hsubmit : ∀ vsg, via_apply (via_action.submit vsg)
          { s with
            blitq := { s.blitq with num_free := s.blitq.num_free - 1 }
            reserved := s.reserved + 1 } =
          some { s with
            blitq := (via_dmablit_submit
              { s.blitq with num_free := s.blitq.num_free - 1 } vsg).1 } := by
        intro vsg
        simp only [via_apply, Nat.add_sub_cancel]
        rw [if_neg (by omega)]
      have hrun : via_run [via_action.grab_slot, via_action.release_slot] s = some s := by
        rw [via_run_cons _ _ _ _ hgrab, via_run_cons _ _ _ _ hrelease, via_run]
      rw [hg] at h
      simp only [ne_eq, not_true_eq_false, if_false] at h
      cases vsg_malloc
      · simp only [Bool.not_false, if_true, Option.some.injEq] at h
        subst h
        exact ⟨_, s, hrun, hrel.symm, rfl⟩
      · simp only [Bool.not_true, Bool.false_eq_true, if_false] at h
        cases hb : via_build_sg_info k via_sg_info_zero xfer with
        | none => rw [hb] at h; cases h
        | some b =>
          rw [hb] at h
          simp only [] at h
          by_cases hbr : b.ret = 0
          · simp only [ne_eq, hbr, not_true_eq_false, if_false, Option.some.injEq] at h
            subst h
            refine ⟨[via_action.grab_slot, via_action.submit b.vsg,
              via_action.handler hw ticks],
              via_apply_dispatch ticks (via_apply_done hw ticks
                { s with
                  blitq := (via_dmablit_submit
                    { s.blitq with num_free := s.blitq.num_free - 1 } b.vsg).1 }), ?_, rfl, rfl⟩
            rw [via_run_cons _ _ _ _ hgrab, via_run_cons _ _ _ _ (hsubmit b.vsg)]
            rfl
          · simp only [ne_eq, hbr, not_false_eq_true, if_true, Option.some.injEq] at h
            subst h
            exact ⟨_, s, hrun, hrel.symm, rfl⟩

theorem via_dispatch_keeps (blitq : drm_via_blitq_t) (ticks : Nat) :
    (via_dmablit_handler_dispatch blitq ticks).1.done_blit_handle = blitq.done_blit_handle ∧
    (via_dmablit_handler_dispatch blitq ticks).1.cur = blitq.cur ∧
    (via_dmablit_handler_dispatch blitq ticks).1.blits = blitq.blits := by
  unfold via_dmablit_handler_dispatch
  split_ifs <;> exact ⟨rfl, rfl, rfl⟩

theorem via_done_no_fire (blitq : drm_via_blitq_t) (hw : via_csr) (ticks : Nat)
    (b : Option via_blit) : via_effect.fire b ∉ (via_dmablit_handler_done blitq hw ticks).2 := by
  unfold via_dmablit_handler_done
  simp only []
  split_ifs <;> simp

theorem via_dispatch_fire (s : via_queue_state) (hinv : via_queue_inv s) (ticks : Nat)
    (b : Option via_blit)
    (hb : via_effect.fire b ∈ (via_dmablit_handler_dispatch s.blitq ticks).2) :
    b = s.blitq.blits s.blitq.cur ∧
    ∃ v, b = some v ∧ v.handle = add32 s.blitq.done_blit_handle 1 := by
  obtain ⟨h1, h2, h3, h4, h5, h6, h7, h8, h9, h10, h11, h12, h13, h14, h15⟩ := hinv
  unfold via_dmablit_handler_dispatch at hb
  unfold via_in_flight via_active at h9
  cases hia : s.blitq.is_active
  · by_cases hno : s.blitq.num_outstanding = 0
    · cases hp : s.blitq.poll_timer_pending <;> simp [hia, hno, hp] at hb
    · have hbc : b = s.blitq.blits s.blitq.cur := by
        cases hp : s.blitq.poll_timer_pending <;> simpa [hia, hno, hp] using hb
      obtain ⟨v, hv, hvh⟩ := h9 0 (by omega)
      unfold VIA_NUM_BLIT_SLOTS at h2 hv
      have hcu : (s.blitq.cur + 0) % 8 = s.blitq.cur := by omega
      rw [hcu] at hv
      refine ⟨hbc, v, hbc.trans hv, ?_⟩
      rw [hvh]
      unfold add32 U32
      omega
  · simp [hia] at hb

/-- C12 (counterexample): the stated sum is 6, not `VIA_NUM_BLIT_SLOTS - 1 = 7`,
in the state after one reservation, and also in the state that one complete
successful call of `via_dmablit` on the initialised queue leaves, in which no
call is in progress: the submitted transfer has been fired, so it is counted
neither in `num_free` nor in `num_outstanding` nor as pending reclamation. -/
theorem via_slot_accounting_fails :
    (∃ s, via_run [via_action.grab_slot] via_queue_init = some s ∧
      s.blitq.num_free + s.blitq.num_outstanding + via_pending s.blitq = 6) ∧
    (∃ s, via_run [via_action.grab_slot, via_action.submit via_sg_info_zero,
          via_action.handler ⟨false, false⟩ 0] via_queue_init = some s ∧
      s.reserved = 0 ∧ s.blitq.is_active = true ∧
      s.blitq.num_free + s.blitq.num_outstanding + via_pending s.blitq = 6) ∧
    (∃ r, via_dmablit via_kernel_ok true true (-EINTR) ⟨false, false⟩ 0 via_init_dmablit
          via_xfer_straddling = some r ∧
      r.ret = 0 ∧ r.blitq.is_active = true ∧
      r.blitq.num_free = 6 ∧ r.blitq.num_outstanding = 0 ∧ via_pending r.blitq = 0 ∧
      r.blitq.num_free + r.blitq.num_outstanding + via_pending r.blitq ≠
        VIA_NUM_BLIT_SLOTS - 1) :=
  ⟨⟨_, rfl, rfl⟩, ⟨_, rfl, rfl, rfl, rfl⟩, ⟨_, rfl, rfl, rfl, rfl, rfl, rfl, by decide⟩⟩

/-- C12 (amended): in every state reachable from `via_init_dmablit`,
`num_free + reserved + num_outstanding + active + pendingReclamation` equals
`VIA_NUM_BLIT_SLOTS - 1`, where `reserved` counts the slots reserved by calls of
`via_dmablit` in progress and `active` is 1 while the engine executes a
transfer; the sum of the claim is `VIA_NUM_BLIT_SLOTS - 1` when no slot is
reserved and the engine is idle. -/
theorem via_slot_accounting (s : via_queue_state) (h : via_reachable s) :
    s.blitq.num_free + s.reserved + s.blitq.num_outstanding + via_active s.blitq +
        via_pending s.blitq = VIA_NUM_BLIT_SLOTS - 1 ∧
    (s.reserved = 0 → s.blitq.is_active = false →
      s.blitq.num_free + s.blitq.num_outstanding + via_pending s.blitq =
        VIA_NUM_BLIT_SLOTS - 1) := by
  obtain ⟨-, -, -, -, -, h6, -⟩ := via_reachable_inv s h
  unfold via_in_flight at h6
  refine ⟨by omega, ?_⟩
  intro hr hia
  unfold via_active at h6
  rw [hr, hia] at h6
  simp only [Bool.false_eq_true, if_false] at h6
  omega

/-- Witness for `via_slot_accounting`: the state after two submissions. -/
theorem via_slot_accounting_witness :
    via_reachable via_queue_two_submitted ∧
    (via_queue_two_submitted.blitq.num_free + via_queue_two_submitted.reserved +
        via_queue_two_submitted.blitq.num_outstanding +
        via_active via_queue_two_submitted.blitq +
        via_pending via_queue_two_submitted.blitq = VIA_NUM_BLIT_SLOTS - 1 ∧
    (via_queue_two_submitted.reserved = 0 →
      via_queue_two_submitted.blitq.is_active = false →
      via_queue_two_submitted.blitq.num_free + via_queue_two_submitted.blitq.num_outstanding +
        via_pending via_queue_two_submitted.blitq = VIA_NUM_BLIT_SLOTS - 1)) :=
  ⟨⟨via_actions_two_submitted, rfl⟩,
    via_slot_accounting via_queue_two_submitted ⟨via_actions_two_submitted, rfl⟩⟩

/-- C13: in every state reachable from `via_init_dmablit`, `head`, `cur` and
`serviced` are below `VIA_NUM_BLIT_SLOTS`, and
`(cur - serviced) mod capacity + (head - cur) mod capacity ≤ capacity - 1`;
the slot `head`, the only one a submission writes, holds no info that the
reclamation task has not taken. -/
theorem via_ring_order (s : via_queue_state) (h : via_reachable s) :
    s.blitq.head < VIA_NUM_BLIT_SLOTS ∧ s.blitq.cur < VIA_NUM_BLIT_SLOTS ∧
    s.blitq.serviced < VIA_NUM_BLIT_SLOTS ∧
    ((s.blitq.cur : Int) - s.blitq.serviced) % VIA_NUM_BLIT_SLOTS +
        ((s.blitq.head : Int) - s.blitq.cur) % VIA_NUM_BLIT_SLOTS ≤ VIA_NUM_BLIT_SLOTS - 1 ∧
    s.blitq.blits s.blitq.head = none ∧
    (∀ vsg i, i ≠ s.blitq.head →
      (via_dmablit_submit s.blitq vsg).1.blits i = s.blitq.blits i) := by
  obtain ⟨h1, h2, h3, -, h5, h6, -, -, -, -, h11, -⟩ := via_reachable_inv s h
  unfold via_pending at h6 h11
  unfold VIA_NUM_BLIT_SLOTS at *
  refine ⟨h1, h2, h3, ?_, ?_, ?_⟩
  · push_cast
    omega
  · have := h11 ((s.blitq.cur + 8 - s.blitq.serviced) % 8 + via_in_flight s.blitq)
      (le_refl _) (by omega)
    have e : (s.blitq.serviced +
        ((s.blitq.cur + 8 - s.blitq.serviced) % 8 + via_in_flight s.blitq)) % 8 =
        s.blitq.head := by omega
    rw [e] at this
    exact this
  · intro vsg i hi
    unfold via_dmablit_submit
    simp only [if_neg hi]

/-- Witness for `via_ring_order`: the state after two submissions. -/
theorem via_ring_order_witness :
    via_reachable via_queue_two_submitted ∧
    (via_queue_two_submitted.blitq.head < VIA_NUM_BLIT_SLOTS ∧
    via_queue_two_submitted.blitq.cur < VIA_NUM_BLIT_SLOTS ∧
    via_queue_two_submitted.blitq.serviced < VIA_NUM_BLIT_SLOTS ∧
    ((via_queue_two_submitted.blitq.cur : Int) - via_queue_two_submitted.blitq.serviced) %
          VIA_NUM_BLIT_SLOTS +
        ((via_queue_two_submitted.blitq.head : Int) - via_queue_two_submitted.blitq.cur) %
          VIA_NUM_BLIT_SLOTS ≤ VIA_NUM_BLIT_SLOTS - 1 ∧
    via_queue_two_submitted.blitq.blits via_queue_two_submitted.blitq.head = none ∧
    (∀ vsg i, i ≠ via_queue_two_submitted.blitq.head →
      (via_dmablit_submit via_queue_two_submitted.blitq vsg).1.blits i =
        via_queue_two_submitted.blitq.blits i)) :=
  ⟨⟨via_actions_two_submitted, rfl⟩,
    via_ring_order via_queue_two_submitted ⟨via_actions_two_submitted, rfl⟩⟩

/-- C19: in every state reachable from `via_init_dmablit`, for every handle
(a `uint32_t`) that `via_dmablit_active` reports active, the slot it resolves
is below `VIA_NUM_BLIT_SLOTS`, equals
`(cur - 1 + (handle - done_blit_handle)) mod capacity` (the value before the
conditional subtraction is below twice the capacity), and holds the info that
`via_dmablit_submit` stored with that handle. -/
theorem via_dmablit_active_slot_resolves (s : via_queue_state) (h : via_reachable s)
    (handle : Nat) (hh : handle < U32)
    (ha : (via_dmablit_active s.blitq handle true).1 = true) :
    ∃ slot, (via_dmablit_active s.blitq handle true).2 = some slot ∧
      slot < VIA_NUM_BLIT_SLOTS ∧
      (slot : Int) = ((s.blitq.cur : Int) - 1 + sub32 handle s.blitq.done_blit_handle) %
        VIA_NUM_BLIT_SLOTS ∧
      sub32 (add32 (sub32 handle s.blitq.done_blit_handle) (s.blitq.cur % U32)) 1 <
        2 * VIA_NUM_BLIT_SLOTS ∧
      ∃ b, s.blitq.blits slot = some b ∧ b.handle = handle := by
  obtain ⟨h1, h2, h3, -, h5, h6, h7, h8, h9, -⟩ := via_reachable_inv s h
  simp only [via_dmablit_active, via_dmablit_active_flag, Bool.and_eq_true,
    decide_eq_true_eq] at ha
  simp only [via_dmablit_active, via_dmablit_active_flag, Bool.true_and]
  have hact : (decide (sub32 s.blitq.done_blit_handle handle > 2 ^ 23) &&
      decide (sub32 s.blitq.cur_blit_handle handle ≤ 2 ^ 23)) = true := by
    simp only [Bool.and_eq_true, decide_eq_true_eq]
    exact ha
  rw [hact]
  simp only [if_true]
  refine ⟨_, rfl, ?_⟩
  generalize hn : via_in_flight s.blitq = n at *
  unfold via_pending at h6
  unfold via_dmablit_active_slot
  unfold sub32 add32 U32 VIA_NUM_BLIT_SLOTS at *
  simp only []
  have hk : ∃ k, 1 ≤ k ∧ k ≤ n ∧ handle = (s.blitq.done_blit_handle + k) % 2 ^ 32 := by
    refine ⟨(handle + (2 ^ 32 - s.blitq.done_blit_handle % 2 ^ 32)) % 2 ^ 32, ?_, ?_, ?_⟩ <;>
      omega
  obtain ⟨k, hk1, hkn, hkh⟩ := hk
  have hraw : ((handle + (2 ^ 32 - s.blitq.done_blit_handle % 2 ^ 32)) % 2 ^ 32 +
      s.blitq.cur % 2 ^ 32) % 2 ^ 32 + (2 ^ 32 - 1 % 2 ^ 32) = 2 ^ 32 + (s.blitq.cur + k - 1) := by
    omega
  have hraw2 : (((handle + (2 ^ 32 - s.blitq.done_blit_handle % 2 ^ 32)) % 2 ^ 32 +
      s.blitq.cur % 2 ^ 32) % 2 ^ 32 + (2 ^ 32 - 1 % 2 ^ 32)) % 2 ^ 32 =
      s.blitq.cur + k - 1 := by
    rw [hraw]
    omega
  rw [hraw2]
  have hslot : (if s.blitq.cur + k - 1 ≥ 8 then
      (s.blitq.cur + k - 1 + (2 ^ 32 - 8 % 2 ^ 32)) % 2 ^ 32 else s.blitq.cur + k - 1) =
      (s.blitq.cur + (k - 1)) % 8 := by
    split_ifs <;> omega
  rw [hslot]
  refine ⟨by omega, by push_cast; omega, by omega, ?_⟩
  obtain ⟨b, hb, hbh⟩ := h9 (k - 1) (by omega)
  exact ⟨b, hb, by rw [hbh]; omega⟩

/-- Witness for `via_dmablit_active_slot_resolves`: after two submissions the
queued handle 2 resolves to slot 1. -/
theorem via_dmablit_active_slot_resolves_witness :
    via_reachable via_queue_two_submitted ∧ 2 < U32 ∧
    (via_dmablit_active via_queue_two_submitted.blitq 2 true).1 = true ∧
    (via_dmablit_active via_queue_two_submitted.blitq 2 true).2 = some 1 ∧
    ∃ slot, (via_dmablit_active via_queue_two_submitted.blitq 2 true).2 = some slot ∧
      slot < VIA_NUM_BLIT_SLOTS ∧
      (slot : Int) = ((via_queue_two_submitted.blitq.cur : Int) - 1 +
          sub32 2 via_queue_two_submitted.blitq.done_blit_handle) % VIA_NUM_BLIT_SLOTS ∧
      sub32 (add32 (sub32 2 via_queue_two_submitted.blitq.done_blit_handle)
          (via_queue_two_submitted.blitq.cur % U32)) 1 < 2 * VIA_NUM_BLIT_SLOTS ∧
      ∃ b, via_queue_two_submitted.blitq.blits slot = some b ∧ b.handle = 2 :=
  ⟨⟨via_actions_two_submitted, rfl⟩, by decide, by decide, by decide,
    via_dmablit_active_slot_resolves via_queue_two_submitted
      ⟨via_actions_two_submitted, rfl⟩ 2 (by decide) (by decide)⟩

/-- C20: in every state reachable from `via_init_dmablit` and for every status
register and clock, an info that `via_dmablit_handler` fires is `blits[cur]`
and carries the handle `done_blit_handle + 1`; when the handler retires a
transfer, the new `done_blit_handle` is the handle of the info of the slot it
retires. Over the whole run the handles fired are `1, 2, 3, ...` in this order
and so are the handles retired, the fired ones being ahead by exactly the
transfer in execution. -/
theorem via_dmablit_handler_in_order (s : via_queue_state) (h : via_reachable s)
    (hw : via_csr) (ticks : Nat) :
    (∀ b, via_effect.fire b ∈ (via_dmablit_handler s.blitq hw ticks).2 →
      b = (via_dmablit_handler s.blitq hw ticks).1.blits
            (via_dmablit_handler s.blitq hw ticks).1.cur ∧
      ∃ v, b = some v ∧
        v.handle = add32 (via_dmablit_handler s.blitq hw ticks).1.done_blit_handle 1) ∧
    (via_done_transfer s.blitq hw = true →
      ∃ v, s.blitq.blits s.blitq.cur = some v ∧
        (via_dmablit_handler s.blitq hw ticks).1.done_blit_handle = v.handle) ∧
    s.fired = via_handles s.fired.length ∧ s.retired = via_handles s.retired.length ∧
    s.fired.length = s.retired.length + via_active s.blitq := by
  have hinv := via_reachable_inv s h
  have hinv1 := via_inv_done s hw ticks hinv
  obtain ⟨-, h2, -, h4, -, -, h7, -, h9, -, -, h12, h13, h14, -⟩ := hinv
  have hkeep := via_dispatch_keeps (via_dmablit_handler_done s.blitq hw ticks).1 ticks
  refine ⟨?_, ?_, h13, h12, h14⟩
  · intro b hb
    have hb2 : via_effect.fire b ∈
        (via_dmablit_handler_dispatch (via_apply_done hw ticks s).blitq ticks).2 := by
      have : via_effect.fire b ∈ (via_dmablit_handler_done s.blitq hw ticks).2 ++
          (via_dmablit_handler_dispatch (via_dmablit_handler_done s.blitq hw ticks).1 ticks).2 :=
        hb
      rcases List.mem_append.1 this with h' | h'
      · exact absurd h' (via_done_no_fire s.blitq hw ticks b)
      · exact h'
    obtain ⟨e1, v, e2, e3⟩ := via_dispatch_fire _ hinv1 ticks b hb2
    have hd : (via_dmablit_handler s.blitq hw ticks).1 =
        (via_dmablit_handler_dispatch (via_dmablit_handler_done s.blitq hw ticks).1 ticks).1 :=
      rfl
    rw [hd, hkeep.1, hkeep.2.1, hkeep.2.2]
    exact ⟨e1, v, e2, e3⟩
  · intro hdt
    have hia := via_done_transfer_active s.blitq hw h4 hdt
    unfold via_in_flight via_active at h9
    rw [hia] at h9
    obtain ⟨v, hv, hvh⟩ := h9 0 (by simp)
    unfold VIA_NUM_BLIT_SLOTS at h2 hv
    have hcu : (s.blitq.cur + 0) % 8 = s.blitq.cur := by omega
    rw [hcu] at hv
    refine ⟨v, hv, ?_⟩
    have hd : (via_dmablit_handler s.blitq hw ticks).1 =
        (via_dmablit_handler_dispatch (via_dmablit_handler_done s.blitq hw ticks).1 ticks).1 :=
      rfl
    rw [hd, hkeep.1, hvh]
    unfold via_dmablit_handler_done
    simp only [hdt, if_true]
    unfold add32 U32
    omega

/-- Witness for `via_dmablit_handler_in_order`: after two submissions the
engine reports the transfer done; the handler retires handle 1 and fires the
info with handle 2. -/
theorem via_dmablit_handler_in_order_witness :
    via_reachable via_queue_two_submitted ∧
    via_done_transfer via_queue_two_submitted.blitq ⟨true, false⟩ = true ∧
    (via_dmablit_handler via_queue_two_submitted.blitq ⟨true, false⟩ 0).2 =
      [via_effect.wakeup_blit_queue 0, via_effect.clear_transfer_done,
        via_effect.enqueue_workqueue, via_effect.fire (some ⟨via_sg_info_zero, 2⟩)] ∧
    (via_dmablit_handler via_queue_two_submitted.blitq ⟨true, false⟩ 0).1.done_blit_handle = 1 ∧
    ((∀ b, via_effect.fire b ∈
        (via_dmablit_handler via_queue_two_submitted.blitq ⟨true, false⟩ 0).2 →
      b = (via_dmablit_handler via_queue_two_submitted.blitq ⟨true, false⟩ 0).1.blits
            (via_dmablit_handler via_queue_two_submitted.blitq ⟨true, false⟩ 0).1.cur ∧
      ∃ v, b = some v ∧
        v.handle = add32
          (via_dmablit_handler via_queue_two_submitted.blitq ⟨true, false⟩ 0).1.done_blit_handle
          1) ∧
    (via_done_transfer via_queue_two_submitted.blitq ⟨true, false⟩ = true →
      ∃ v, via_queue_two_submitted.blitq.blits via_queue_two_submitted.blitq.cur = some v ∧
        (via_dmablit_handler via_queue_two_submitted.blitq ⟨true, false⟩ 0).1.done_blit_handle =
          v.handle) ∧
    via_queue_two_submitted.fired = via_handles via_queue_two_submitted.fired.length ∧
    via_queue_two_submitted.retired = via_handles via_queue_two_submitted.retired.length ∧
    via_queue_two_submitted.fired.length =
      via_queue_two_submitted.retired.length + via_active via_queue_two_submitted.blitq) :=
  ⟨⟨via_actions_two_submitted, rfl⟩, by decide, by decide, by decide,
    via_dmablit_handler_in_order via_queue_two_submitted
      ⟨via_actions_two_submitted, rfl⟩ ⟨true, false⟩ 0⟩

theorem via_dispatch_keeps_head (blitq : drm_via_blitq_t) (ticks : Nat) :
    (via_dmablit_handler_dispatch blitq ticks).1.head = blitq.head ∧
    (via_dmablit_handler_dispatch blitq ticks).1.cur_blit_handle = blitq.cur_blit_handle := by
  unfold via_dmablit_handler_dispatch
  split_ifs <;> exact ⟨rfl, rfl⟩

theorem via_handler_done_fields (blitq : drm_via_blitq_t) (hw : via_csr) (ticks : Nat)
    (hdt : via_done_transfer blitq hw = true) :
    (via_dmablit_handler_done blitq hw ticks).1.head = blitq.head ∧
    (via_dmablit_handler_done blitq hw ticks).1.cur_blit_handle = blitq.cur_blit_handle ∧
    (via_dmablit_handler_done blitq hw ticks).1.done_blit_handle =
      add32 blitq.done_blit_handle 1 ∧
    (via_dmablit_handler_done blitq hw ticks).1.cur =
      (if blitq.cur + 1 ≥ VIA_NUM_BLIT_SLOTS then 0 else blitq.cur + 1) := by
  unfold via_dmablit_handler_done
  rw [if_pos hdt]
  exact ⟨rfl, rfl, rfl, rfl⟩

theorem via_handler_done_idle (blitq : drm_via_blitq_t) (hw : via_csr) (ticks : Nat)
    (hdt : via_done_transfer blitq hw = false) (hia : blitq.is_active = false) :
    via_dmablit_handler_done blitq hw ticks = (blitq, []) := by
  unfold via_dmablit_handler_done
  simp only [hdt, hia, Bool.false_and, Bool.false_eq_true, if_false]

/-- C21: in every state reachable from `via_init_dmablit`, `aborting` implies
`is_active`. For every status register and clock, on an idle engine the done
condition of `via_dmablit_handler` is false and its retire/abort part changes
nothing; when the done condition holds the engine is active, `cur` differs from
`head` and the distance from `cur` to `head` around the ring shrinks by one,
`done_blit_handle` differs from `cur_blit_handle` and the number of handles
between them shrinks by one, and the slot `cur` holds a live info. -/
theorem via_dmablit_handler_done_only_active (s : via_queue_state) (h : via_reachable s)
    (hw : via_csr) (ticks : Nat) :
    (s.blitq.aborting = true → s.blitq.is_active = true) ∧
    (s.blitq.is_active = false →
      via_done_transfer s.blitq hw = false ∧
      via_dmablit_handler_done s.blitq hw ticks = (s.blitq, [])) ∧
    (via_done_transfer s.blitq hw = true →
      s.blitq.is_active = true ∧
      s.blitq.cur ≠ s.blitq.head ∧
      ((via_dmablit_handler s.blitq hw ticks).1.head + VIA_NUM_BLIT_SLOTS -
          (via_dmablit_handler s.blitq hw ticks).1.cur) % VIA_NUM_BLIT_SLOTS + 1 =
        (s.blitq.head + VIA_NUM_BLIT_SLOTS - s.blitq.cur) % VIA_NUM_BLIT_SLOTS ∧
      s.blitq.done_blit_handle ≠ s.blitq.cur_blit_handle ∧
      sub32 (via_dmablit_handler s.blitq hw ticks).1.cur_blit_handle
          (via_dmablit_handler s.blitq hw ticks).1.done_blit_handle + 1 =
        sub32 s.blitq.cur_blit_handle s.blitq.done_blit_handle ∧
      sub32 s.blitq.cur_blit_handle s.blitq.done_blit_handle ≤ VIA_NUM_BLIT_SLOTS - 1 ∧
      ∃ b, s.blitq.blits s.blitq.cur = some b) := by
  obtain ⟨h1, h2, h3, h4, h5, h6, h7, h8, h9, -⟩ := via_reachable_inv s h
  have hidle : s.blitq.is_active = false → via_done_transfer s.blitq hw = false := by
    intro hia
    cases hdt : via_done_transfer s.blitq hw
    · rfl
    · have := via_done_transfer_active s.blitq hw h4 hdt
      rw [hia] at this
      cases this
  refine ⟨h4, fun hia => ⟨hidle hia, via_handler_done_idle s.blitq hw ticks (hidle hia) hia⟩, ?_⟩
  intro hdt
  have hia := via_done_transfer_active s.blitq hw h4 hdt
  have hd : (via_dmablit_handler s.blitq hw ticks).1 =
      (via_dmablit_handler_dispatch (via_dmablit_handler_done s.blitq hw ticks).1 ticks).1 :=
    rfl
  obtain ⟨k1, k2, -⟩ := via_dispatch_keeps (via_dmablit_handler_done s.blitq hw ticks).1 ticks
  obtain ⟨k3, k4⟩ := via_dispatch_keeps_head (via_dmablit_handler_done s.blitq hw ticks).1 ticks
  obtain ⟨f1, f2, f3, f4⟩ := via_handler_done_fields s.blitq hw ticks hdt
  rw [hd, k1, k2, k3, k4, f1, f2, f3, f4]
  unfold via_in_flight via_active at h5 h6 h8 h9
  rw [hia] at h5 h6 h8 h9
  simp only [if_true] at h5 h6 h8 h9
  obtain ⟨b, hb, -⟩ := h9 0 (by omega)
  unfold via_pending at h6
  unfold VIA_NUM_BLIT_SLOTS at *
  have hcu : (s.blitq.cur + 0) % 8 = s.blitq.cur := by omega
  rw [hcu] at hb
  have hcu1 : (if s.blitq.cur + 1 ≥ 8 then 0 else s.blitq.cur + 1) = (s.blitq.cur + 1) % 8 := by
    split_ifs <;> omega
  rw [hcu1]
  unfold sub32 add32 U32
  refine ⟨hia, by omega, by omega, by omega, by omega, by omega, b, hb⟩

/-- Witness for `via_dmablit_handler_done_only_active`: after two submissions
the engine reports the transfer done. -/
theorem via_dmablit_handler_done_only_active_witness :
    via_reachable via_queue_two_submitted ∧
    via_done_transfer via_queue_two_submitted.blitq ⟨true, false⟩ = true ∧
    ((via_queue_two_submitted.blitq.aborting = true →
        via_queue_two_submitted.blitq.is_active = true) ∧
    (via_queue_two_submitted.blitq.is_active = false →
      via_done_transfer via_queue_two_submitted.blitq ⟨true, false⟩ = false ∧
      via_dmablit_handler_done via_queue_two_submitted.blitq ⟨true, false⟩ 0 =
        (via_queue_two_submitted.blitq, [])) ∧
    (via_done_transfer via_queue_two_submitted.blitq ⟨true, false⟩ = true →
      via_queue_two_submitted.blitq.is_active = true ∧
      via_queue_two_submitted.blitq.cur ≠ via_queue_two_submitted.blitq.head ∧
      ((via_dmablit_handler via_queue_two_submitted.blitq ⟨true, false⟩ 0).1.head +
            VIA_NUM_BLIT_SLOTS -
          (via_dmablit_handler via_queue_two_submitted.blitq ⟨true, false⟩ 0).1.cur) %
            VIA_NUM_BLIT_SLOTS + 1 =
        (via_queue_two_submitted.blitq.head + VIA_NUM_BLIT_SLOTS -
          via_queue_two_submitted.blitq.cur) % VIA_NUM_BLIT_SLOTS ∧
      via_queue_two_submitted.blitq.done_blit_handle ≠
        via_queue_two_submitted.blitq.cur_blit_handle ∧
      sub32 (via_dmablit_handler via_queue_two_submitted.blitq ⟨true, false⟩ 0).1.cur_blit_handle
          (via_dmablit_handler via_queue_two_submitted.blitq ⟨true, false⟩ 0).1.done_blit_handle
          + 1 =
        sub32 via_queue_two_submitted.blitq.cur_blit_handle
          via_queue_two_submitted.blitq.done_blit_handle ∧
      sub32 via_queue_two_submitted.blitq.cur_blit_handle
          via_queue_two_submitted.blitq.done_blit_handle ≤ VIA_NUM_BLIT_SLOTS - 1 ∧
      ∃ b, via_queue_two_submitted.blitq.blits via_queue_two_submitted.blitq.cur = some b)) :=
  ⟨⟨via_actions_two_submitted, rfl⟩, by decide,
    via_dmablit_handler_done_only_active via_queue_two_submitted
      ⟨via_actions_two_submitted, rfl⟩ ⟨true, false⟩ 0⟩

theorem pred_div_mod (m D : Nat) (hD : 0 < D) (hm : 0 < m) :
    (m % D ≠ 0 → (m - 1) / D = m / D ∧ (m - 1) % D = m % D - 1) ∧
    (m % D = 0 → (m - 1) / D = m / D - 1 ∧ (m - 1) % D = D - 1 ∧ 1 ≤ m / D) := by
  have hdm := Nat.mod_add_div m D
  have hlt := Nat.mod_lt m hD
  constructor
  · intro h
    apply (Nat.div_mod_unique hD).2
    constructor <;> omega
  · intro h
    have hk : 1 ≤ m / D := by
      rcases Nat.eq_zero_or_pos (m / D) with h0 | h0
      · rw [h0] at hdm
        simp at hdm
        omega
      · exact h0
    obtain ⟨k, hk'⟩ : ∃ k, m / D = k + 1 := ⟨m / D - 1, by omega⟩
    rw [hk'] at hdm ⊢
    rw [Nat.mul_succ] at hdm
    have := (Nat.div_mod_unique hD (a := m - 1) (d := k) (c := D - 1)).2
      ⟨by omega, by omega⟩
    exact ⟨by simpa using this.1, this.2, by omega⟩

/-- The state of the walk of `via_unmap_blit_from_device` with `m` iterations
to go. -/
theorem via_unmap_step_inv (vsg : drm_via_sg_info_t) (hD : 1 ≤ vsg.descriptors_per_page)
    (hD32 : vsg.descriptors_per_page < U32) (hN : vsg.num_desc < U32)
    (m : Nat) (hmN : m + 1 ≤ vsg.num_desc) (st : via_unmap_state)
    (h1 : st.cur_descriptor_page = (m + 1) / vsg.descriptors_per_page)
    (h2 : st.descriptor_this_page = (m + 1) % vsg.descriptors_per_page)
    (h3 : st.desc_ptr = ⟨(m + 1) / vsg.descriptors_per_page,
      if vsg.descriptors_per_page * (vsg.num_desc / vsg.descriptors_per_page) ≤ m + 1 then
        ((m + 1 : Nat) : Int) -
          (vsg.descriptors_per_page * (vsg.num_desc / vsg.descriptors_per_page) : Nat)
      else (((m + 1) % vsg.descriptors_per_page : Nat) : Int) - 1⟩)
    (h4 : st.chunk_reads = List.range' ((m + 1) / vsg.descriptors_per_page)
      (vsg.num_desc / vsg.descriptors_per_page + 1 - (m + 1) / vsg.descriptors_per_page))
    (h5 : st.desc_reads = (List.range' (m + 2) (vsg.num_desc - (m + 1))).map (fun k =>
      via_desc_position vsg.descriptors_per_page
        (via_unmap_read_position vsg.num_desc vsg.descriptors_per_page k))) :
    (via_unmap_step vsg st).cur_descriptor_page = m / vsg.descriptors_per_page ∧
    (via_unmap_step vsg st).descriptor_this_page = m % vsg.descriptors_per_page ∧
    (via_unmap_step vsg st).desc_ptr = ⟨m / vsg.descriptors_per_page,
      if vsg.descriptors_per_page * (vsg.num_desc / vsg.descriptors_per_page) ≤ m then
        ((m : Nat) : Int) -
          (vsg.descriptors_per_page * (vsg.num_desc / vsg.descriptors_per_page) : Nat)
      else ((m % vsg.descriptors_per_page : Nat) : Int) - 1⟩ ∧
    (via_unmap_step vsg st).chunk_reads = List.range' (m / vsg.descriptors_per_page)
      (vsg.num_desc / vsg.descriptors_per_page + 1 - m / vsg.descriptors_per_page) ∧
    (via_unmap_step vsg st).desc_reads = (List.range' (m + 1) (vsg.num_desc - m)).map (fun k =>
      via_desc_position vsg.descriptors_per_page
        (via_unmap_read_position vsg.num_desc vsg.descriptors_per_page k)) := by
  obtain ⟨cur, this, ptr, next, cr, dr⟩ := st
  simp only [] at h1 h2 h3 h4 h5
  subst h1 h2 h3 h4 h5
  generalize hDD : vsg.descriptors_per_page = D at *
  generalize hNN : vsg.num_desc = N at *
  have hpd := pred_div_mod (m + 1) D (by omega) (by omega)
  simp only [Nat.add_sub_cancel] at hpd
  have hNdm := Nat.mod_add_div N D
  have hNlt := Nat.mod_lt N (show 0 < D by omega)
  have hmdm := Nat.mod_add_div (m + 1) D
  have hmlt := Nat.mod_lt (m + 1) (show 0 < D by omega)
  have hle : (m + 1) / D ≤ N / D := Nat.div_le_div_right hmN
  have hmul : D * ((m + 1) / D) ≤ D * (N / D) := Nat.mul_le_mul_left D hle
  have hdlt : (m + 1) / D < U32 := lt_of_le_of_lt (Nat.div_le_self _ _) (by omega)
  have hlen : N - m = (N - (m + 1)) + 1 := by omega
  unfold via_unmap_step
  by_cases h0 : (m + 1) % D = 0
  · obtain ⟨e1, e2, e3⟩ := hpd.2 h0
    have hs1 : sub32 ((m + 1) / D) 1 = m / D := by
      unfold sub32 U32 at *
      omega
    have hs2 : sub32 D 1 = m % D := by
      unfold sub32 U32 at *
      omega
    have hq : ¬ D * (N / D) ≤ m := by omega
    have hq1 : ¬ D * (N / D) < m + 1 := by omega
    have hf : via_desc_position D (via_unmap_read_position N D (m + 1)) =
        ⟨m / D, ((m % D : Nat) : Int)⟩ := by
      unfold via_unmap_read_position via_desc_position
      rw [if_neg hq1]
      rfl
    simp only [h0, if_true, hDD, hs1, hs2]
    refine ⟨trivial, trivial, ?_, ?_, ?_⟩
    · rw [if_neg hq]
    · have e : N / D + 1 - m / D = (N / D + 1 - (m + 1) / D) + 1 := by omega
      have e' : m / D + 1 = (m + 1) / D := by omega
      rw [e, List.range'_succ, e']
    · rw [hlen, List.range'_succ, List.map_cons]
      rw [hf]
  · obtain ⟨e1, e2⟩ := hpd.1 h0
    have hs : sub32 ((m + 1) % D) 1 = m % D := by
      unfold sub32 U32 at *
      omega
    have hne : m + 1 ≠ D * (N / D) := by
      intro he
      rw [he, Nat.mul_mod_right] at h0
      exact h0 rfl
    simp only [h0, if_false, hs]
    refine ⟨e1.symm, trivial, ?_, ?_, ?_⟩
    · by_cases hq : D * (N / D) ≤ m
      · rw [if_pos hq, if_pos (show D * (N / D) ≤ m + 1 by omega), e1]
        simp only [via_desc_ptr.mk.injEq, true_and]
        push_cast
        omega
      · rw [if_neg hq, if_neg (show ¬ D * (N / D) ≤ m + 1 by omega), e1]
        simp only [via_desc_ptr.mk.injEq, true_and]
        omega
    · rw [e1]
    · rw [hlen, List.range'_succ, List.map_cons]
      unfold via_unmap_read_position via_desc_position
      by_cases hq : D * (N / D) < m + 1
      · rw [if_pos hq, if_pos (show D * (N / D) ≤ m + 1 by omega)]
        have hdiv : (m + 1) / D = N / D ∧ (m + 1) % D = m + 1 - D * (N / D) := by
          apply (Nat.div_mod_unique (show 0 < D by omega)).2
          constructor <;> omega
        simp only [List.cons.injEq, via_desc_ptr.mk.injEq, true_and, and_true]
        omega
      · rw [if_neg hq, if_neg (show ¬ D * (N / D) ≤ m + 1 by omega)]
        simp only [Nat.add_sub_cancel, List.cons.injEq, via_desc_ptr.mk.injEq, and_true]
        exact ⟨e1.symm, by omega⟩

theorem via_unmap_loop_inv (vsg : drm_via_sg_info_t) (hD : 1 ≤ vsg.descriptors_per_page)
    (hD32 : vsg.descriptors_per_page < U32) (hN : vsg.num_desc < U32) :
    ∀ (m : Nat) (st : via_unmap_state), m ≤ vsg.num_desc →
      st.cur_descriptor_page = m / vsg.descriptors_per_page →
      st.descriptor_this_page = m % vsg.descriptors_per_page →
      st.desc_ptr = ⟨m / vsg.descriptors_per_page,
        if vsg.descriptors_per_page * (vsg.num_desc / vsg.descriptors_per_page) ≤ m then
          ((m : Nat) : Int) -
            (vsg.descriptors_per_page * (vsg.num_desc / vsg.descriptors_per_page) : Nat)
        else ((m % vsg.descriptors_per_page : Nat) : Int) - 1⟩ →
      st.chunk_reads = List.range' (m / vsg.descriptors_per_page)
        (vsg.num_desc / vsg.descriptors_per_page + 1 - m / vsg.descriptors_per_page) →
      st.desc_reads = (List.range' (m + 1) (vsg.num_desc - m)).map (fun k =>
        via_desc_position vsg.descriptors_per_page
          (via_unmap_read_position vsg.num_desc vsg.descriptors_per_page k)) →
      (via_unmap_loop vsg m st).chunk_reads =
          List.range (vsg.num_desc / vsg.descriptors_per_page + 1) ∧
        (via_unmap_loop vsg m st).desc_reads = (List.range' 1 vsg.num_desc).map (fun k =>
          via_desc_position vsg.descriptors_per_page
            (via_unmap_read_position vsg.num_desc vsg.descriptors_per_page k)) := by
  intro m
  induction m with
  | zero =>
    intro st _ _ _ _ h4 h5
    rw [via_unmap_loop, h4, h5]
    simp only [Nat.zero_div, Nat.sub_zero, Nat.zero_add, List.range_eq_range', and_self]
  | succ m ih =>
    intro st hm h1 h2 h3 h4 h5
    obtain ⟨g1, g2, g3, g4, g5⟩ := via_unmap_step_inv vsg hD hD32 hN m hm st h1 h2 h3 h4 h5
    rw [via_unmap_loop]
    exact ih _ (by omega) g1 g2 g3 g4 g5

/-- The reads of `via_unmap_blit_from_device`: the chunk array at the indices
`num_desc / dpp` down to 0, and, with `k` iterations to go, the descriptor at
position `via_unmap_read_position num_desc dpp k`. -/
theorem via_unmap_blit_from_device_reads (vsg : drm_via_sg_info_t)
    (hD : 1 ≤ vsg.descriptors_per_page) (hD32 : vsg.descriptors_per_page < U32)
    (hN : vsg.num_desc < U32) :
    (via_unmap_blit_from_device vsg).chunk_reads =
        List.range (vsg.num_desc / vsg.descriptors_per_page + 1) ∧
      (via_unmap_blit_from_device vsg).desc_reads = (List.range' 1 vsg.num_desc).map (fun k =>
        via_desc_position vsg.descriptors_per_page
          (via_unmap_read_position vsg.num_desc vsg.descriptors_per_page k)) := by
  unfold via_unmap_blit_from_device
  apply via_unmap_loop_inv vsg hD hD32 hN vsg.num_desc _ (le_refl _)
  · rfl
  · rfl
  · unfold via_unmap_state_init
    simp only [via_desc_ptr.mk.injEq, true_and]
    have hNdm := Nat.mod_add_div vsg.num_desc vsg.descriptors_per_page
    rw [if_pos (by omega)]
    omega
  · unfold via_unmap_state_init
    simp only [Nat.add_sub_cancel_left]
    rfl
  · unfold via_unmap_state_init
    simp only [Nat.sub_self, List.range'_zero, List.map_nil]

theorem via_desc_position_injective (dpp a b : Nat)
    (h : via_desc_position dpp a = via_desc_position dpp b) : a = b := by
  unfold via_desc_position at h
  simp only [via_desc_ptr.mk.injEq, Nat.cast_inj] at h
  rw [← Nat.mod_add_div a dpp, ← Nat.mod_add_div b dpp, h.1, h.2]

theorem via_unmap_read_position_aligned (N D k : Nat) (h0 : N % D = 0)
    (hk : k ≤ N) : via_unmap_read_position N D k = k - 1 := by
  unfold via_unmap_read_position
  have hNdm := Nat.mod_add_div N D
  rw [if_neg (by omega)]

/-- C22: for every info with `1 ≤ num_desc < 2^31` and
`1 ≤ descriptors_per_page < 2^32`, `via_unmap_blit_from_device` does not both
read exactly the stored descriptors and keep its chunk indices below the number
of chunks `ceil(num_desc / descriptors_per_page)`. When `num_desc` is a
multiple of `descriptors_per_page` it reads the chunk array at index
`num_desc / descriptors_per_page`, which is the number of chunks (the descriptors
it reads are then the stored ones). Otherwise its chunk indices are in range,
but it reads the descriptor at position `num_desc`, which was never stored, and
does not read the stored descriptor at offset 0 of the last chunk. -/
theorem via_unmap_blit_from_device_misreads (vsg : drm_via_sg_info_t)
    (hN1 : 1 ≤ vsg.num_desc) (hN : vsg.num_desc < 2 ^ 31)
    (hD : 1 ≤ vsg.descriptors_per_page) (hD32 : vsg.descriptors_per_page < U32) :
    ¬ ((via_unmap_blit_from_device vsg).desc_reads =
          via_unmap_reads_spec vsg.num_desc vsg.descriptors_per_page ∧
        ∀ c ∈ (via_unmap_blit_from_device vsg).chunk_reads,
          c < (vsg.num_desc + vsg.descriptors_per_page - 1) / vsg.descriptors_per_page) ∧
    (vsg.num_desc % vsg.descriptors_per_page = 0 →
      vsg.num_desc / vsg.descriptors_per_page ∈ (via_unmap_blit_from_device vsg).chunk_reads ∧
      vsg.num_desc / vsg.descriptors_per_page =
        (vsg.num_desc + vsg.descriptors_per_page - 1) / vsg.descriptors_per_page ∧
      (via_unmap_blit_from_device vsg).desc_reads =
        via_unmap_reads_spec vsg.num_desc vsg.descriptors_per_page) ∧
    (vsg.num_desc % vsg.descriptors_per_page ≠ 0 →
      via_desc_position vsg.descriptors_per_page vsg.num_desc ∈
        (via_unmap_blit_from_device vsg).desc_reads ∧
      via_desc_position vsg.descriptors_per_page vsg.num_desc ∉
        via_unmap_reads_spec vsg.num_desc vsg.descriptors_per_page ∧
      via_desc_position vsg.descriptors_per_page
          (vsg.descriptors_per_page * (vsg.num_desc / vsg.descriptors_per_page)) ∈
        via_unmap_reads_spec vsg.num_desc vsg.descriptors_per_page ∧
      via_desc_position vsg.descriptors_per_page
          (vsg.descriptors_per_page * (vsg.num_desc / vsg.descriptors_per_page)) ∉
        (via_unmap_blit_from_device vsg).desc_reads ∧
      ∀ c ∈ (via_unmap_blit_from_device vsg).chunk_reads,
        c < (vsg.num_desc + vsg.descriptors_per_page - 1) / vsg.descriptors_per_page) := by
  obtain ⟨hc, hd⟩ := via_unmap_blit_from_device_reads vsg hD hD32 (by unfold U32; omega)
  generalize hDD : vsg.descriptors_per_page = D at *
  generalize hNN : vsg.num_desc = N at *
  generalize via_unmap_blit_from_device vsg = st at *
  have hNdm := Nat.mod_add_div N D
  have hNlt := Nat.mod_lt N (show 0 < D by omega)
  have hspec_not : via_desc_position D N ∉ via_unmap_reads_spec N D := by
    unfold via_unmap_reads_spec
    intro hmem
    obtain ⟨a, ha, hpa⟩ := List.mem_map.1 hmem
    have := via_desc_position_injective D a N hpa
    rw [List.mem_range] at ha
    omega
  have haligned : N % D = 0 →
      st.chunk_reads = List.range (N / D + 1) ∧ N / D = (N + D - 1) / D ∧
        st.desc_reads = via_unmap_reads_spec N D := by
    intro h0
    refine ⟨hc, ?_, ?_⟩
    · have hu := (Nat.div_mod_unique (show 0 < D by omega) (a := N + D - 1) (d := N / D)
        (c := D - 1)).2 ⟨by omega, by omega⟩
      exact hu.1.symm
    · rw [hd]
      unfold via_unmap_reads_spec
      rw [List.range_eq_range']
      apply List.ext_getElem
      · simp only [List.length_map, List.length_range']
      · intro i h1 h2
        simp only [List.length_map, List.length_range'] at h1
        simp only [List.getElem_map, List.getElem_range']
        rw [via_unmap_read_position_aligned N D _ h0 (by omega)]
        congr 1
        omega
  have hread : N % D ≠ 0 → via_desc_position D N ∈ st.desc_reads := by
    intro h0
    rw [hd]
    apply List.mem_map.2
    refine ⟨N, ?_, ?_⟩
    · rw [List.mem_range'_1]
      omega
    · unfold via_unmap_read_position
      rw [if_pos (by omega)]
  refine ⟨?_, ?_, ?_⟩
  · rintro ⟨h1, h2⟩
    by_cases h0 : N % D = 0
    · obtain ⟨a1, a2, -⟩ := haligned h0
      have := h2 (N / D) (by rw [a1, List.mem_range]; omega)
      omega
    · have := hread h0
      rw [h1] at this
      exact hspec_not this
  · intro h0
    obtain ⟨a1, a2, a3⟩ := haligned h0
    exact ⟨by rw [a1, List.mem_range]; omega, a2, a3⟩
  · intro h0
    refine ⟨hread h0, hspec_not, ?_, ?_, ?_⟩
    · unfold via_unmap_reads_spec
      apply List.mem_map.2
      exact ⟨D * (N / D), by rw [List.mem_range]; omega, rfl⟩
    · rw [hd]
      intro hmem
      obtain ⟨k, hk, hpk⟩ := List.mem_map.1 hmem
      have hkk := via_desc_position_injective D _ _ hpk
      rw [List.mem_range'_1] at hk
      unfold via_unmap_read_position at hkk
      split_ifs at hkk <;> omega
    · intro c hcm
      rw [hc, List.mem_range] at hcm
      have hD1 : D * (N / D + 1) = D * (N / D) + D := by rw [Nat.mul_succ]
      have hu := (Nat.div_mod_unique (show 0 < D by omega) (a := N + D - 1) (d := N / D + 1)
        (c := N % D - 1)).2 ⟨by omega, by omega⟩
      omega

/-- Witness for `via_unmap_blit_from_device_misreads`: the info built for
`via_xfer_straddling` has its two descriptors at offsets 0 and 1 of chunk 0,
and the walk reads offsets 2 and 1; for an info with 256 descriptors in one
chunk of 256 the walk reads the chunk array at index 1. -/
theorem via_unmap_blit_from_device_misreads_witness :
    1 ≤ via_sg_info_straddling_built.num_desc ∧
    via_sg_info_straddling_built.num_desc < 2 ^ 31 ∧
    1 ≤ via_sg_info_straddling_built.descriptors_per_page ∧
    via_sg_info_straddling_built.descriptors_per_page < U32 ∧
    via_sg_info_straddling_built.descriptors.map (fun w => (w.desc_page, w.desc_index)) =
      [(0, 1), (0, 0)] ∧
    (via_unmap_blit_from_device via_sg_info_straddling_built).desc_reads = [⟨0, 1⟩, ⟨0, 2⟩] ∧
    (via_unmap_blit_from_device via_sg_info_full_chunk).chunk_reads = [0, 1] ∧
    via_sg_info_full_chunk.num_desc_pages = 1 ∧
    (¬ ((via_unmap_blit_from_device via_sg_info_straddling_built).desc_reads =
          via_unmap_reads_spec via_sg_info_straddling_built.num_desc via_sg_info_straddling_built.descriptors_per_page ∧
        ∀ c ∈ (via_unmap_blit_from_device via_sg_info_straddling_built).chunk_reads,
          c < (via_sg_info_straddling_built.num_desc + via_sg_info_straddling_built.descriptors_per_page - 1) / via_sg_info_straddling_built.descriptors_per_page) ∧
    (via_sg_info_straddling_built.num_desc % via_sg_info_straddling_built.descriptors_per_page = 0 →
      via_sg_info_straddling_built.num_desc / via_sg_info_straddling_built.descriptors_per_page ∈ (via_unmap_blit_from_device via_sg_info_straddling_built).chunk_reads ∧
      via_sg_info_straddling_built.num_desc / via_sg_info_straddling_built.descriptors_per_page =
        (via_sg_info_straddling_built.num_desc + via_sg_info_straddling_built.descriptors_per_page - 1) / via_sg_info_straddling_built.descriptors_per_page ∧
      (via_unmap_blit_from_device via_sg_info_straddling_built).desc_reads =
        via_unmap_reads_spec via_sg_info_straddling_built.num_desc via_sg_info_straddling_built.descriptors_per_page) ∧
    (via_sg_info_straddling_built.num_desc % via_sg_info_straddling_built.descriptors_per_page ≠ 0 →
      via_desc_position via_sg_info_straddling_built.descriptors_per_page via_sg_info_straddling_built.num_desc ∈
        (via_unmap_blit_from_device via_sg_info_straddling_built).desc_reads ∧
      via_desc_position via_sg_info_straddling_built.descriptors_per_page via_sg_info_straddling_built.num_desc ∉
        via_unmap_reads_spec via_sg_info_straddling_built.num_desc via_sg_info_straddling_built.descriptors_per_page ∧
      via_desc_position via_sg_info_straddling_built.descriptors_per_page
          (via_sg_info_straddling_built.descriptors_per_page * (via_sg_info_straddling_built.num_desc / via_sg_info_straddling_built.descriptors_per_page)) ∈
        via_unmap_reads_spec via_sg_info_straddling_built.num_desc via_sg_info_straddling_built.descriptors_per_page ∧
      via_desc_position via_sg_info_straddling_built.descriptors_per_page
          (via_sg_info_straddling_built.descriptors_per_page * (via_sg_info_straddling_built.num_desc / via_sg_info_straddling_built.descriptors_per_page)) ∉
        (via_unmap_blit_from_device via_sg_info_straddling_built).desc_reads ∧
      ∀ c ∈ (via_unmap_blit_from_device via_sg_info_straddling_built).chunk_reads,
        c < (via_sg_info_straddling_built.num_desc + via_sg_info_straddling_built.descriptors_per_page - 1) / via_sg_info_straddling_built.descriptors_per_page)) :=
  ⟨by decide, by decide, by decide, by decide, by decide, by decide,
    (via_unmap_blit_from_device_reads via_sg_info_full_chunk (by decide) (by decide)
      (by decide)).1,
    by decide,
    via_unmap_blit_from_device_misreads via_sg_info_straddling_built (by decide) (by decide)
      (by decide) (by decide)⟩

end ViaDmablit
